import Mathlib

/-!
Verification of the Talia chess engine core (board representation with
make/unmake, legal move generation, evaluation and search) against its
natural-language specification.

The Rust sources are embedded shallowly:

* `[Option Piece; 64]` / `[Option Color; 64]` arrays become Lean `List`s of
  length 64, read through `og` (`list.getD i none`, the in-bounds read) and
  written through `List.set`;
* `&mut self` methods become functions `Board → ... → Board`;
* fallible methods (`unmake_move`, returning `anyhow::Result<()>` while
  mutating `self`) become functions returning the possible error message
  together with the final state of `self`;
* `usize`/`isize` index arithmetic is carried out in `Int` with `Int.toNat`
  at the points where the source casts with `as usize`;
* `.expect`/`.unwrap` on options that the callers guarantee to be `some`
  are modelled by `Option.getD` with an arbitrary default; every theorem
  below is proved under hypotheses that keep those defaults unreachable.

Scores are `i32` in the source; they are modelled as `Int`.  None of the
statements proved here exercises values anywhere near `i32` overflow.
-/

namespace Talia

set_option maxRecDepth 100000

/-- `src/piece.rs`: `enum Piece`. -/
inductive Piece where
  | Pawn
  | Knight
  | Bishop
  | Rook
  | Queen
  | King
deriving DecidableEq

/-- `src/piece.rs`: `enum Color`. -/
inductive Color where
  | White
  | Black
deriving DecidableEq

/-- `src/piece.rs`: `Color::opposite_color`. -/
def Color.opposite_color : Color → Color
  | .White => .Black
  | .Black => .White

/-- `src/move_generation.rs`: `enum Flag`. -/
inductive Flag where
  | None
  | KingsideCastle
  | QueensideCastle
  | PawnDoublePush
  | EnPassantCapture
  | PromoteTo (piece : Piece)
  | Capture (piece : Piece)
  | CaptureWithPromotion (captured : Piece) (promotion : Piece)
deriving DecidableEq

/-- `src/move_generation.rs`: `struct Move`. -/
structure Move where
  starting_square : Nat
  target_square : Nat
  flag : Flag
deriving DecidableEq

/-- `src/board.rs`: `struct BoardState` (the undo-sensitive state snapshot). -/
structure BoardState where
  captured_piece : Option Piece
  en_passant_square : Option Nat
  half_move_clock : Nat
  white_kingside_castling_priviledge : Bool
  black_kingside_castling_priviledge : Bool
  white_queenside_castling_priviledge : Bool
  black_queenside_castling_priviledge : Bool
deriving DecidableEq

/-- `src/board.rs`: `struct Board`.  The `squares` and `colors` arrays are
64-element lists indexed `a1 = 0 .. h8 = 63` (the index convention is fixed
by the `square_names` table in `Board::to_fen`).  The history `Vec` is a
list whose head is the top of the stack. -/
structure Board where
  squares : List (Option Piece)
  colors : List (Option Color)
  to_move : Color
  full_move_number : Nat
  board_state : BoardState
  board_state_history : List BoardState
deriving DecidableEq

/-- In-bounds read of a 64-entry option list (`self.squares[i]` in Rust;
out-of-range indices, which panic in Rust, read as `none`). -/
def og {α : Type} (l : List (Option α)) (i : Nat) : Option α :=
  l.getD i none

/-- Models `.unwrap()`/`.expect(..)` on an `Option<Piece>`; all uses below
are guarded by hypotheses making the `none` case unreachable. -/
def unwrap_piece (o : Option Piece) : Piece :=
  o.getD .Pawn

/-- Models `.unwrap()`/`.expect(..)` on an `Option<Color>`; all uses below
are guarded by hypotheses making the `none` case unreachable. -/
def unwrap_color (o : Option Color) : Color :=
  o.getD .White

/-- `src/board.rs`: `Board::put_piece`. -/
def put_piece (b : Board) (square : Nat) (piece : Piece) (color : Color) : Board :=
  { b with
    squares := b.squares.set square (some piece)
    colors := b.colors.set square (some color) }

/-- `src/board.rs`: `Board::is_fifty_move_rule_resetting_move`. -/
def is_fifty_move_rule_resetting_move (b : Board) (m : Move) : Bool :=
  let is_pawn_move : Bool := og b.squares m.starting_square == some Piece.Pawn
  let is_non_en_passant_capture : Bool :=
    match og b.colors m.target_square with
    | some color => color != b.to_move
    | none => false
  is_pawn_move || is_non_en_passant_capture

/-- `src/board.rs`: the shared tail of `move_piece` and of the two castling
helpers: flip the side to move, incrementing the full-move number after a
Black move. -/
def flip_turn (b : Board) : Board :=
  if b.to_move = Color.White then
    { b with to_move := Color.Black }
  else
    { b with to_move := Color.White, full_move_number := b.full_move_number + 1 }

/-- `src/board.rs`: the three castling-rights blocks of `Board::move_piece`
(king moved; rook moved from its home square; rook captured on its home
square), run on every non-castling move, rendered as three board
transformers composed by `update_castling_rights` below.  Square constants
`A1/H1/A8/H8 = 0/7/56/63` follow `to_fen`'s `square_names` table.  The
source matches on `self.to_move`; `Color` has two variants, so the match is
rendered as the equivalent if-then-else.  This first block: if the king
moves, castling privilege is lost to both sides. -/
def king_move_rights_step (b : Board) (m : Move) : Board :=
  if og b.squares m.starting_square = some Piece.King then
    if b.to_move = Color.White then
      { b with board_state :=
        { b.board_state with
          white_kingside_castling_priviledge := false
          white_queenside_castling_priviledge := false } }
    else
      { b with board_state :=
        { b.board_state with
          black_kingside_castling_priviledge := false
          black_queenside_castling_priviledge := false } }
  else b

/-- The second castling-rights block: if the rook moves, the castling right
to that particular side is lost. -/
def rook_move_rights_step (b : Board) (m : Move) : Board :=
  if og b.squares m.starting_square = some Piece.Rook then
    let is_from_starting_kingside_room_square :=
      if b.to_move = Color.White then m.starting_square = 7
      else m.starting_square = 63
    let is_from_starting_queenside_room_square :=
      if b.to_move = Color.White then m.starting_square = 0
      else m.starting_square = 56
    if b.to_move = Color.White then
      if is_from_starting_kingside_room_square then
        { b with board_state :=
          { b.board_state with white_kingside_castling_priviledge := false } }
      else if is_from_starting_queenside_room_square then
        { b with board_state :=
          { b.board_state with white_queenside_castling_priviledge := false } }
      else b
    else
      if is_from_starting_kingside_room_square then
        { b with board_state :=
          { b.board_state with black_kingside_castling_priviledge := false } }
      else if is_from_starting_queenside_room_square then
        { b with board_state :=
          { b.board_state with black_queenside_castling_priviledge := false } }
      else b
  else b

/-- The third castling-rights block: if the rook is captured, the castling
right to that particular side is lost. -/
def rook_capture_rights_step (b : Board) (m : Move) : Board :=
  if og b.squares m.target_square = some Piece.Rook then
    let is_to_starting_kingside_room_square :=
      if b.to_move = Color.White then m.target_square = 63
      else m.target_square = 7
    let is_to_starting_queenside_room_square :=
      if b.to_move = Color.White then m.target_square = 56
      else m.target_square = 0
    if b.to_move = Color.White then
      if is_to_starting_kingside_room_square then
        { b with board_state :=
          { b.board_state with black_kingside_castling_priviledge := false } }
      else if is_to_starting_queenside_room_square then
        { b with board_state :=
          { b.board_state with black_queenside_castling_priviledge := false } }
      else b
    else
      if is_to_starting_kingside_room_square then
        { b with board_state :=
          { b.board_state with white_kingside_castling_priviledge := false } }
      else if is_to_starting_queenside_room_square then
        { b with board_state :=
          { b.board_state with white_queenside_castling_priviledge := false } }
      else b
  else b

/-- The three blocks in source order.  Each block only changes castling
rights (never squares, colours or the side to move), so reading the board
in a later block is the same as reading the original, as in the source. -/
def update_castling_rights (b : Board) (m : Move) : Board :=
  rook_capture_rights_step (rook_move_rights_step (king_move_rights_step b m) m) m

/-- `src/board.rs`: the piece-placement statements at the end of the
non-castling path of `Board::move_piece`: put the piece (or the promotion
piece) on the target square, copy its colour, clear the starting square. -/
def placed_piece (b : Board) (m : Move) : Option Piece :=
  match m.flag with
  | .PromoteTo piece => some piece
  | .CaptureWithPromotion _ piece => some piece
  | _ => og b.squares m.starting_square

def place_piece_for_move (b : Board) (m : Move) : Board :=
  { b with
    squares :=
      (b.squares.set m.target_square (placed_piece b m)).set m.starting_square none
    colors :=
      (b.colors.set m.target_square (og b.colors m.starting_square)).set
        m.starting_square none }

/-- `src/board.rs`: `Board::make_kingside_castling_move`.  Square constants:
E1=4, F1=5, G1=6, H1=7, E8=60, F8=61, G8=62, H8=63. -/
def make_kingside_castling_move (b : Board) (m : Move) : Board :=
  let b :=
    if b.to_move = Color.White then
      -- Move the king
      let b := { b with
        squares := b.squares.set 6 (og b.squares m.starting_square)
        colors := b.colors.set 6 (og b.colors m.starting_square) }
      let b := { b with
        squares := b.squares.set m.starting_square none
        colors := b.colors.set m.starting_square none }
      -- Move the rook
      let b := { b with
        squares := b.squares.set 5 (og b.squares 7)
        colors := b.colors.set 5 (og b.colors 7) }
      let b := { b with
        squares := b.squares.set 7 none
        colors := b.colors.set 7 none }
      { b with board_state :=
        { b.board_state with
          white_kingside_castling_priviledge := false
          white_queenside_castling_priviledge := false } }
    else
      -- Move the king
      let b := { b with
        squares := b.squares.set 62 (og b.squares m.starting_square)
        colors := b.colors.set 62 (og b.colors m.starting_square) }
      let b := { b with
        squares := b.squares.set m.starting_square none
        colors := b.colors.set m.starting_square none }
      -- Move the rook
      let b := { b with
        squares := b.squares.set 61 (og b.squares 63)
        colors := b.colors.set 61 (og b.colors 63) }
      let b := { b with
        squares := b.squares.set 63 none
        colors := b.colors.set 63 none }
      { b with board_state :=
        { b.board_state with
          black_kingside_castling_priviledge := false
          black_queenside_castling_priviledge := false } }
  flip_turn b

/-- `src/board.rs`: `Board::make_queenside_castling_move`.  Square constants:
A1=0, C1=2, D1=3, A8=56, C8=58, D8=59. -/
def make_queenside_castling_move (b : Board) (m : Move) : Board :=
  let b :=
    if b.to_move = Color.White then
      -- Move the king
      let b := { b with
        squares := b.squares.set 2 (og b.squares m.starting_square)
        colors := b.colors.set 2 (og b.colors m.starting_square) }
      let b := { b with
        squares := b.squares.set m.starting_square none
        colors := b.colors.set m.starting_square none }
      -- Move the rook
      let b := { b with
        squares := b.squares.set 3 (og b.squares 0)
        colors := b.colors.set 3 (og b.colors 0) }
      let b := { b with
        squares := b.squares.set 0 none
        colors := b.colors.set 0 none }
      { b with board_state :=
        { b.board_state with
          white_kingside_castling_priviledge := false
          white_queenside_castling_priviledge := false } }
    else
      -- Move the king
      let b := { b with
        squares := b.squares.set 58 (og b.squares m.starting_square)
        colors := b.colors.set 58 (og b.colors m.starting_square) }
      let b := { b with
        squares := b.squares.set m.starting_square none
        colors := b.colors.set m.starting_square none }
      -- Move the rook
      let b := { b with
        squares := b.squares.set 59 (og b.squares 56)
        colors := b.colors.set 59 (og b.colors 56) }
      let b := { b with
        squares := b.squares.set 56 none
        colors := b.colors.set 56 none }
      { b with board_state :=
        { b.board_state with
          black_kingside_castling_priviledge := false
          black_queenside_castling_priviledge := false } }
  flip_turn b

/-- `src/board.rs`: the `PawnDoublePush` and `EnPassantCapture` arms of the
flag match in `Board::move_piece` (a double push stores the square behind
the pawn as the new en-passant square; an en-passant capture removes the
opposing pawn next to the saved en-passant square).  `saved` is the
en-passant square saved before it was cleared. -/
def move_piece_flag_effects (b : Board) (m : Move) (saved : Option Nat) : Board :=
  match m.flag with
  | .PawnDoublePush =>
    let pawn_one_move_offset : Int := if b.to_move = Color.White then 8 else -8
    let en_passant_index := ((m.starting_square : Int) + pawn_one_move_offset).toNat
    { b with board_state :=
      { b.board_state with en_passant_square := some en_passant_index } }
  | .EnPassantCapture =>
    let starting_piece_color := unwrap_color (og b.colors m.starting_square)
    let en_passant_square := saved.getD 0
    let captured_pawn_index :=
      if starting_piece_color = Color.White then en_passant_square - 8
      else en_passant_square + 8
    { b with
      squares := b.squares.set captured_pawn_index none
      colors := b.colors.set captured_pawn_index none }
  | _ => b

/-- `src/board.rs`: the opening statements of `Board::move_piece`: push the
state snapshot onto the history, clear the en-passant square (the saved
copy is threaded separately by `move_piece`), and update the halfmove
clock.  The clock test reads only squares, colours and side to move, which
these statements do not touch, so running it on this stage's output equals
the source order. -/
def move_piece_prelude (b : Board) (m : Move) : Board :=
  let b := { b with board_state_history := b.board_state :: b.board_state_history }
  -- With every move, the ability to en passant expires until a double pawn push
  let b := { b with board_state := { b.board_state with en_passant_square := none } }
  if is_fifty_move_rule_resetting_move b m then
    { b with board_state := { b.board_state with half_move_clock := 0 } }
  else
    { b with board_state :=
      { b.board_state with half_move_clock := b.board_state.half_move_clock + 1 } }

/-- `src/board.rs`: `Board::move_piece`.  The statements are translated in
source order: push the state snapshot, clear the en-passant square, update
the halfmove clock, handle the per-flag effects (double push stores the new
en-passant square, en passant removes the captured pawn, castling delegates
to the castling helpers and returns early), update castling rights, place
the piece, and flip the side to move. -/
def move_piece (b : Board) (m : Move) : Board :=
  let saved_en_passant_square := b.board_state.en_passant_square
  let b := move_piece_prelude b m
  match m.flag with
  | .KingsideCastle => make_kingside_castling_move b m
  | .QueensideCastle => make_queenside_castling_move b m
  | _ =>
    let b := move_piece_flag_effects b m saved_en_passant_square
    let b := update_castling_rights b m
    let b := place_piece_for_move b m
    flip_turn b

/-- `src/board.rs`: the flag match of `Board::unmake_move`, run after the
moved piece has been put back on its starting square.  `b.to_move` has
already been flipped back to the colour that made the move.  Castling
square constants follow `to_fen`'s `square_names` table. -/
def unmake_flag_step (b : Board) (m : Move) : Board :=
  match m.flag with
  | .Capture captured =>
    { b with
      squares := b.squares.set m.target_square (some captured)
      colors := b.colors.set m.target_square (some b.to_move.opposite_color) }
  | .EnPassantCapture =>
    let captured_pawn_index :=
      if b.to_move = Color.White then m.target_square - 8 else m.target_square + 8
    let b := { b with
      squares := b.squares.set captured_pawn_index (some Piece.Pawn)
      colors := b.colors.set captured_pawn_index (some b.to_move.opposite_color) }
    let b := { b with
      squares := b.squares.set m.target_square none
      colors := b.colors.set m.target_square none }
    { b with
      squares := b.squares.set m.starting_square (some Piece.Pawn)
      colors := b.colors.set m.starting_square (some b.to_move) }
  | .PromoteTo _ =>
    let b := { b with
      squares := b.squares.set m.starting_square (some Piece.Pawn)
      colors := b.colors.set m.starting_square (some b.to_move) }
    { b with
      squares := b.squares.set m.target_square none
      colors := b.colors.set m.target_square none }
  | .KingsideCastle =>
    if b.to_move = Color.White then
      let b := { b with
        squares := b.squares.set 7 (some Piece.Rook)
        colors := b.colors.set 7 (some Color.White) }
      let b := { b with
        squares := b.squares.set 4 (some Piece.King)
        colors := b.colors.set 4 (some Color.White) }
      let b := { b with
        squares := b.squares.set 5 none
        colors := b.colors.set 5 none }
      { b with
        squares := b.squares.set 6 none
        colors := b.colors.set 6 none }
    else
      let b := { b with
        squares := b.squares.set 63 (some Piece.Rook)
        colors := b.colors.set 63 (some Color.Black) }
      let b := { b with
        squares := b.squares.set 60 (some Piece.King)
        colors := b.colors.set 60 (some Color.Black) }
      let b := { b with
        squares := b.squares.set 61 none
        colors := b.colors.set 61 none }
      { b with
        squares := b.squares.set 62 none
        colors := b.colors.set 62 none }
  | .QueensideCastle =>
    if b.to_move = Color.White then
      let b := { b with
        squares := b.squares.set 0 (some Piece.Rook)
        colors := b.colors.set 0 (some Color.White) }
      let b := { b with
        squares := b.squares.set 4 (some Piece.King)
        colors := b.colors.set 4 (some Color.White) }
      let b := { b with
        squares := b.squares.set 2 none
        colors := b.colors.set 2 none }
      { b with
        squares := b.squares.set 3 none
        colors := b.colors.set 3 none }
    else
      let b := { b with
        squares := b.squares.set 56 (some Piece.Rook)
        colors := b.colors.set 56 (some Color.Black) }
      let b := { b with
        squares := b.squares.set 60 (some Piece.King)
        colors := b.colors.set 60 (some Color.Black) }
      let b := { b with
        squares := b.squares.set 58 none
        colors := b.colors.set 58 none }
      { b with
        squares := b.squares.set 59 none
        colors := b.colors.set 59 none }
  | .CaptureWithPromotion captured _ =>
    let b := { b with
      squares := b.squares.set m.target_square (some captured)
      colors := b.colors.set m.target_square (some b.to_move.opposite_color) }
    { b with
      squares := b.squares.set m.starting_square (some Piece.Pawn)
      colors := b.colors.set m.starting_square (some b.to_move) }
  | _ =>
    { b with
      squares := b.squares.set m.target_square none
      colors := b.colors.set m.target_square none }

/-- `src/board.rs`: `Board::unmake_move`.  The Rust signature is
`fn unmake_move(&mut self, mv: &Move) -> Result<()>`; here the result is the
possible error message paired with the final state of `self` (which, on the
mid-function error, is the partially updated board exactly as in the
source).  The history is popped, the side to move flipped back, the piece
moved back from the target square, the flag effects undone, and the
full-move number decremented when the undone move was a Black move. -/
def unmake_move (b : Board) (m : Move) : Option String × Board :=
  match b.board_state_history with
  | [] => (some "Already at oldest move", b)
  | st :: rest =>
    let b := { b with board_state := st, board_state_history := rest }
    let b := { b with to_move := b.to_move.opposite_color }
    -- First move the piece back to its starting square
    match og b.squares m.target_square, og b.colors m.target_square with
    | some piece, some color =>
      let b := put_piece b m.starting_square piece color
      let b := unmake_flag_step b m
      let b :=
        if b.to_move = Color.Black then
          { b with full_move_number := b.full_move_number - 1 }
        else b
      (none, b)
    | _, _ => (some "Tried to unmake move, but could not find piece", b)


/-- `src/move_generation.rs`: `MoveGenerator::direction_offsets`
(`[8, -8, -1, 1, 7, -7, 9, -9]`, i.e. N, S, W, E, NW, SE, NE, SW). -/
def direction_offsets : List Int := [8, -8, -1, 1, 7, -7, 9, -9]

/-- `src/move_generation.rs`: one entry of the table built by
`MoveGenerator::precompute_move_data`, computed directly from the rank and
file of the square. -/
def num_squares_to_edge (square : Nat) (direction_index : Nat) : Nat :=
  let rank := square / 8
  let file := square % 8
  let num_north := 7 - rank
  let num_south := rank
  let num_east := 7 - file
  let num_west := file
  [num_north, num_south, num_west, num_east,
   min num_north num_west, min num_south num_east,
   min num_north num_east, min num_south num_west].getD direction_index 0

/-- `src/move_generation.rs`: `MoveGenerator::is_pacman_move`. -/
def is_pacman_move (start target : Nat) : Bool :=
  let starting_rank : Int := (start : Int) / 8
  let starting_file : Int := (start : Int) % 8
  let target_rank : Int := (target : Int) / 8
  let target_file : Int := (target : Int) % 8
  -- Prevents pieces from teleporting from one side to another Pacman-style
  2 < (target_rank - starting_rank).natAbs || 2 < (target_file - starting_file).natAbs

/-- `src/move_generation.rs`: the pawn move offset table chosen by colour
(`[8, 16, 7, 9]` for White, `[-8, -16, -7, -9]` for Black); the source
repeats this `match` at each use site. -/
def pawn_move_offsets (c : Color) : List Int :=
  match c with
  | .White => [8, 16, 7, 9]
  | .Black => [-8, -16, -7, -9]

/-- `src/move_generation.rs`: `knight_move_offsets` in
`MoveGenerator::generate_knight_moves`. -/
def knight_move_offsets : List Int := [-17, -15, -10, -6, 6, 10, 15, 17]

/-- `src/move_generation.rs`: the inner `for n in 0..num_squares_to_edge`
loop of `MoveGenerator::generate_sliding_moves` for one direction: walk
outward until the edge (`fuel` counts the remaining steps, `n` the steps
already taken), emitting quiet moves on empty squares, stopping with a
capture on the first opposing piece and with nothing on a friendly piece. -/
def ray_moves (b : Board) (start_square : Nat) (off : Int) :
    Nat → Nat → List Move
  | 0, _ => []
  | fuel + 1, n =>
    let target_square := ((start_square : Int) + off * ((n : Int) + 1)).toNat
    match og b.colors target_square with
    | some color =>
      if color ≠ b.to_move then
        [⟨start_square, target_square,
          .Capture (unwrap_piece (og b.squares target_square))⟩]
      else
        -- Blocked by friendly piece, cannot go on further.
        []
    | none =>
      -- No piece on the current square, keep generating moves
      ⟨start_square, target_square, .None⟩ ::
        ray_moves b start_square off fuel (n + 1)

/-- `src/move_generation.rs`: `MoveGenerator::generate_sliding_moves`. -/
def generate_sliding_moves (b : Board) (start_square : Nat) : List Move :=
  let piece := unwrap_piece (og b.squares start_square)
  let start_direction_index := if piece = Piece.Bishop then 4 else 0
  let end_direction_index := if piece = Piece.Rook then 4 else 8
  (List.range' start_direction_index
      (end_direction_index - start_direction_index)).flatMap
    (fun direction_index =>
      ray_moves b start_square (direction_offsets.getD direction_index 0)
        (num_squares_to_edge start_square direction_index) 0)

/-- `src/move_generation.rs`: `MoveGenerator::generate_knight_moves`. -/
def generate_knight_moves (b : Board) (start_square : Nat) : List Move :=
  knight_move_offsets.filterMap (fun off =>
    let tmp := (start_square : Int) + off
    if 0 ≤ tmp ∧ tmp < 64 then
      let target_square := tmp.toNat
      if is_pacman_move start_square target_square then none
      else
        match og b.colors target_square with
        | none => some ⟨start_square, target_square, .None⟩
        | some color =>
          if color ≠ b.to_move then
            some ⟨start_square, target_square,
              .Capture (unwrap_piece (og b.squares target_square))⟩
          else none
    else none)

/-- `src/move_generation.rs`: `MoveGenerator::add_promotion_moves`. -/
def add_promotion_moves (start target : Nat) (captured_piece : Option Piece) :
    List Move :=
  match captured_piece with
  | none =>
    [⟨start, target, .PromoteTo Piece.Queen⟩,
     ⟨start, target, .PromoteTo Piece.Rook⟩,
     ⟨start, target, .PromoteTo Piece.Bishop⟩,
     ⟨start, target, .PromoteTo Piece.Knight⟩]
  | some piece =>
    [⟨start, target, .CaptureWithPromotion piece Piece.Queen⟩,
     ⟨start, target, .CaptureWithPromotion piece Piece.Rook⟩,
     ⟨start, target, .CaptureWithPromotion piece Piece.Bishop⟩,
     ⟨start, target, .CaptureWithPromotion piece Piece.Knight⟩]

/-- `src/move_generation.rs`: the capture part of
`MoveGenerator::generate_pawn_moves` for one of the two diagonal offsets. -/
def pawn_capture_moves (b : Board) (start_square : Nat) (capture_offset : Int) :
    List Move :=
  let tmp := (start_square : Int) + capture_offset
  if 0 ≤ tmp ∧ tmp < 64 then
    let target_square := tmp.toNat
    if is_pacman_move start_square target_square then []
    else
      -- `is_some_and` is modelled by `Option.any`
      let is_occupied_by_opponent_piece : Bool :=
        (og b.colors target_square).any (fun color => color != b.to_move)
      let can_capture_en_passant : Bool :=
        b.board_state.en_passant_square == some target_square
      if is_occupied_by_opponent_piece || can_capture_en_passant then
        let target_rank := target_square / 8
        if target_rank = 0 ∨ target_rank = 7 then
          add_promotion_moves start_square target_square (og b.squares target_square)
        else if can_capture_en_passant then
          [⟨start_square, target_square, .EnPassantCapture⟩]
        else
          [⟨start_square, target_square,
            .Capture (unwrap_piece (og b.squares target_square))⟩]
      else []
  else []

/-- `src/move_generation.rs`: `MoveGenerator::generate_pawn_moves` (single
push with promotions, the two diagonal captures including en passant, and
the double push from the starting rank, in source push order). -/
def generate_pawn_moves (b : Board) (start_square : Nat) : List Move :=
  let offs := pawn_move_offsets b.to_move
  let target_one_up_index : Int := (start_square : Int) + offs.getD 0 0
  let target_one_up_rank : Int := target_one_up_index / 8
  let can_move_up_one_rank := og b.squares target_one_up_index.toNat = none
  let push_moves :=
    if can_move_up_one_rank then
      let target_one_up := target_one_up_index.toNat
      let is_promotion_move := target_one_up_rank = 0 ∨ target_one_up_rank = 7
      if is_promotion_move then
        add_promotion_moves start_square target_one_up none
      else
        [⟨start_square, target_one_up, .None⟩]
    else []
  let capture_moves :=
    (offs.drop 2).flatMap (pawn_capture_moves b start_square)
  -- If a pawn cannot move one square up, it definitely cannot move up by two;
  -- if the pawn already moved off its starting rank, it cannot move up by two
  let double_moves :=
    if ¬can_move_up_one_rank then []
    else
      let starting_rank := start_square / 8
      let has_moved :=
        (starting_rank ≠ 1 ∧ b.to_move = Color.White) ∨
        (starting_rank ≠ 6 ∧ b.to_move = Color.Black)
      if has_moved then []
      else
        let target_two_up_index : Int := (start_square : Int) + offs.getD 1 0
        if og b.squares target_two_up_index.toNat = none then
          [⟨start_square, target_two_up_index.toNat, .PawnDoublePush⟩]
        else []
  push_moves ++ capture_moves ++ double_moves

/-- `src/move_generation.rs`: the castling pushes at the end of
`MoveGenerator::generate_king_moves` (emitted when the corresponding right
is held and the squares between king and rook are empty; attack safety is
checked later in `generate_moves`). -/
def king_castle_moves (b : Board) (start_square : Nat) : List Move :=
  if b.to_move = Color.White then
    let kingside_castling_path_clear :=
      og b.squares 5 = none ∧ og b.squares 6 = none
    let kingside :=
      if b.board_state.white_kingside_castling_priviledge ∧
          kingside_castling_path_clear then
        [⟨start_square, 6, .KingsideCastle⟩]
      else []
    let queenside_castling_path_clear :=
      og b.squares 3 = none ∧ og b.squares 2 = none ∧ og b.squares 1 = none
    let queenside :=
      if b.board_state.white_queenside_castling_priviledge ∧
          queenside_castling_path_clear then
        [⟨start_square, 2, .QueensideCastle⟩]
      else []
    kingside ++ queenside
  else
    let kingside_castling_path_clear :=
      og b.squares 61 = none ∧ og b.squares 62 = none
    let kingside :=
      if b.board_state.black_kingside_castling_priviledge ∧
          kingside_castling_path_clear then
        [⟨start_square, 62, .KingsideCastle⟩]
      else []
    let queenside_castling_path_clear :=
      og b.squares 59 = none ∧ og b.squares 58 = none ∧ og b.squares 57 = none
    let queenside :=
      if b.board_state.black_queenside_castling_priviledge ∧
          queenside_castling_path_clear then
        [⟨start_square, 58, .QueensideCastle⟩]
      else []
    kingside ++ queenside

/-- `src/move_generation.rs`: `MoveGenerator::generate_king_moves` (the
eight adjacent squares, then the castling pushes). -/
def generate_king_moves (b : Board) (start_square : Nat) : List Move :=
  let basic := direction_offsets.filterMap (fun off =>
    let tmp := (start_square : Int) + off
    if 0 ≤ tmp ∧ tmp < 64 then
      let target_square := tmp.toNat
      if is_pacman_move start_square target_square then none
      else if og b.colors target_square = none then
        some ⟨start_square, target_square, .None⟩
      -- `is_some_and` is modelled by `Option.any`
      else if (og b.colors target_square).any
          (fun color => color != unwrap_color (og b.colors start_square)) then
        some ⟨start_square, target_square,
          .Capture (unwrap_piece (og b.squares target_square))⟩
      else none
    else none)
  basic ++ king_castle_moves b start_square

/-- `src/move_generation.rs`: the per-square dispatch inside
`MoveGenerator::generate_pseudo_legal_moves`: squares that are empty or
hold a piece of the side not to move contribute nothing. -/
def pseudo_moves_for_square (b : Board) (square : Nat) : List Move :=
  match og b.colors square with
  | none => []
  | some color =>
    if color ≠ b.to_move then []
    else
      match og b.squares square with
      | none => []  -- models the `.expect` (colors and squares are in sync)
      | some piece =>
        match piece with
        | .Queen | .Rook | .Bishop => generate_sliding_moves b square
        | .Knight => generate_knight_moves b square
        | .Pawn => generate_pawn_moves b square
        | .King => generate_king_moves b square

/-- `src/move_generation.rs`: `MoveGenerator::generate_pseudo_legal_moves`. -/
def generate_pseudo_legal_moves (b : Board) : List Move :=
  (List.range 64).flatMap (pseudo_moves_for_square b)

/-- `src/move_generation.rs`: the sliding-piece part of
`MoveGenerator::is_in_check` for one direction: walk outward, succeeding if
the king square is reached before the first occupied square. -/
def ray_hits_square (b : Board) (square : Nat) (off : Int) (king_square : Nat) :
    Nat → Nat → Bool
  | 0, _ => false
  | fuel + 1, n =>
    let target_square := ((square : Int) + off * ((n : Int) + 1)).toNat
    if target_square = king_square then true
    else
      match og b.colors target_square with
      | none => ray_hits_square b square off king_square fuel (n + 1)
      | some _ => false

/-- Shared body of `MoveGenerator::is_in_check` and of the specification
predicate `spec_king_attacked`: does the piece on `square` (belonging to
the side opposite to `color_to_check`) pseudo-legally reach `king_square`,
with pawn capture directions taken from `pawn_direction_color`?  The source
passes `self.board.to_move` for `pawn_direction_color`; the specification
text prescribes the attacker colour. -/
def square_attacks_king (b : Board) (square : Nat) (king_square : Nat)
    (pawn_direction_color : Color) : Bool :=
  match unwrap_piece (og b.squares square) with
  | .Pawn =>
    ((pawn_move_offsets pawn_direction_color).drop 2).any (fun capture_offset =>
      let tmp := (square : Int) + capture_offset
      if 0 ≤ tmp ∧ tmp < 64 then
        let target_square := tmp.toNat
        !is_pacman_move square target_square && target_square == king_square
      else false)
  | .King =>
    direction_offsets.any (fun off =>
      let tmp := (square : Int) + off
      if 0 ≤ tmp ∧ tmp < 64 then
        let target_square := tmp.toNat
        !is_pacman_move square target_square && target_square == king_square
      else false)
  | .Knight =>
    knight_move_offsets.any (fun off =>
      let tmp := (square : Int) + off
      if 0 ≤ tmp ∧ tmp < 64 then
        let target_square := tmp.toNat
        !is_pacman_move square target_square && target_square == king_square
      else false)
  | .Bishop | .Queen | .Rook =>
    let piece := unwrap_piece (og b.squares square)
    let start_direction_index := if piece = Piece.Bishop then 4 else 0
    let end_direction_index := if piece = Piece.Rook then 4 else 8
    (List.range' start_direction_index
        (end_direction_index - start_direction_index)).any
      (fun direction_index =>
        ray_hits_square b square (direction_offsets.getD direction_index 0)
          king_square (num_squares_to_edge square direction_index) 0)

/-- `src/move_generation.rs`: the king-locating `find` at the top of
`MoveGenerator::is_in_check`; the `.expect("could not find the king")`
panic is modelled by the out-of-board sentinel 64 (no attack scan target
can equal it, so a kingless colour reads as not in check). -/
def find_king_square (b : Board) (color_to_check : Color) : Nat :=
  ((List.range 64).find? (fun square =>
    (og b.colors square).isSome && (og b.squares square).isSome &&
    (og b.colors square == some color_to_check) &&
    (og b.squares square == some Piece.King))).getD 64

/-- `src/move_generation.rs`: `MoveGenerator::is_in_check`.  Note that the
pawn-capture directions are selected by `self.board.to_move` (taken
verbatim from the source), not by the attacker colour. -/
def is_in_check (b : Board) (color_to_check : Color) : Bool :=
  let king_square := find_king_square b color_to_check
  let to_move := color_to_check.opposite_color
  (List.range 64).any (fun square =>
    (og b.colors square == some to_move) &&
    square_attacks_king b square king_square b.to_move)

/-- Specification predicate for claim C3, following the words of the spec:
locate the king of `color_to_check`, then ask whether "some pseudo-legal
move of the other side captures the king", where "pawns are handled as
diagonal-only attackers" in their own forward direction (the attacker
colour selects the pawn offsets). -/
def spec_king_attacked (b : Board) (color_to_check : Color) : Bool :=
  let king_square := find_king_square b color_to_check
  let to_move := color_to_check.opposite_color
  (List.range 64).any (fun square =>
    (og b.colors square == some to_move) &&
    square_attacks_king b square king_square color_to_check.opposite_color)

/-- `src/move_generation.rs`: the per-square step of
`MoveGenerator::calculate_opponent_attack_map` (pawns mark their two
capture diagonals directly; other pieces contribute their generated
moves, whose targets are marked afterwards).  The state is the pair of the
attack map so far and the collected moves. -/
def attack_scan_step (b : Board) (acc : List Bool × List Move) (square : Nat) :
    List Bool × List Move :=
  if og b.colors square == some b.to_move then
    match unwrap_piece (og b.squares square) with
    | .Pawn =>
      let offs := (pawn_move_offsets b.to_move).drop 2
      (offs.foldl (fun mp capture_offset =>
        let tmp := (square : Int) + capture_offset
        if 0 ≤ tmp ∧ tmp < 64 then
          let target_square := tmp.toNat
          if is_pacman_move square target_square then mp
          else mp.set target_square true
        else mp) acc.1, acc.2)
    | .Queen | .Bishop | .Rook => (acc.1, acc.2 ++ generate_sliding_moves b square)
    | .Knight => (acc.1, acc.2 ++ generate_knight_moves b square)
    | .King => (acc.1, acc.2 ++ generate_king_moves b square)
  else acc

/-- `src/move_generation.rs`: `MoveGenerator::calculate_opponent_attack_map`.
The source flips `self.board.to_move`, scans, and restores it; the returned
pair is the attack map together with the final state of the board. -/
def calculate_opponent_attack_map (b : Board) : List Bool × Board :=
  let original_to_move := b.to_move
  let b := { b with to_move := b.to_move.opposite_color }
  let scan := (List.range 64).foldl (attack_scan_step b)
    (List.replicate 64 false, ([] : List Move))
  let attack_map := scan.2.foldl (fun mp mv => mp.set mv.target_square true) scan.1
  (attack_map, { b with to_move := original_to_move })

/-- `src/move_generation.rs`: `MoveGenerator::is_castling_path_clear`
(E1/F1/G1 = 4/5/6, C1/D1 = 2/3, E8/F8/G8 = 60/61/62, C8/D8 = 58/59). -/
def is_castling_path_clear (b : Board) (m : Move) : Bool :=
  if m.flag = Flag.KingsideCastle then
    let attacked_map := (calculate_opponent_attack_map b).1
    if b.to_move = Color.White then
      !(attacked_map.getD 4 false || attacked_map.getD 5 false ||
        attacked_map.getD 6 false)
    else
      !(attacked_map.getD 60 false || attacked_map.getD 61 false ||
        attacked_map.getD 62 false)
  else if m.flag = Flag.QueensideCastle then
    let attacked_squares := (calculate_opponent_attack_map b).1
    if b.to_move = Color.White then
      !(attacked_squares.getD 4 false || attacked_squares.getD 3 false ||
        attacked_squares.getD 2 false)
    else
      !(attacked_squares.getD 60 false || attacked_squares.getD 59 false ||
        attacked_squares.getD 58 false)
  else true

/-- `src/move_generation.rs`: one iteration of the legality-filter loop of
`MoveGenerator::generate_moves`: skip castling moves whose path is not
clear; otherwise make the move, test whether the mover is left in check,
unmake, and keep the move when the test fails.  `to_move` is the side to
move captured before the loop; the state is the legal moves collected so
far and the current board. -/
def legality_filter_step (to_move : Color) (acc : List Move × Board) (mv : Move) :
    List Move × Board :=
  if (mv.flag = Flag.KingsideCastle ∨ mv.flag = Flag.QueensideCastle) ∧
      is_castling_path_clear acc.2 mv = false then
    acc
  else
    let b1 := move_piece acc.2 mv
    let in_check_after_move := is_in_check b1 to_move
    let b2 := (unmake_move b1 mv).2
    (if in_check_after_move then acc.1 else acc.1 ++ [mv], b2)

/-- `src/move_generation.rs`: `MoveGenerator::generate_moves`.  The returned
pair is the legal move list together with the final state of the owned
board (mutated and restored move by move in the source). -/
def generate_moves (b : Board) : List Move × Board :=
  let pseudo_legal_moves := generate_pseudo_legal_moves b
  let to_move := b.to_move
  pseudo_legal_moves.foldl (legality_filter_step to_move) ([], b)


/-- `src/piece.rs`: `Piece::piece_value` (material values; King is not
included in the material count). -/
def piece_value : Piece → Int
  | .Pawn => 100
  | .Knight => 300
  | .Bishop => 300
  | .Rook => 500
  | .Queen => 900
  | .King => 0

/-- `src/evaluate.rs`: `WHITE_PAWN_SQUARE_TABLE`. -/
def WHITE_PAWN_SQUARE_TABLE : List Int :=
  [ 0,  0,  0,  0,  0,  0,  0,  0,
   50, 50, 50, 50, 50, 50, 50, 50,
   10, 10, 20, 30, 30, 20, 10, 10,
    5,  5, 10, 25, 25, 10,  5,  5,
    0,  0,  0, 20, 20,  0,  0,  0,
    5, -5,-10,  0,  0,-10, -5,  5,
    5, 10, 10,-20,-20, 10, 10,  5,
    0,  0,  0,  0,  0,  0,  0,  0]

/-- `src/evaluate.rs`: `BLACK_PAWN_SQUARE_TABLE`. -/
def BLACK_PAWN_SQUARE_TABLE : List Int :=
  [ 0,  0,  0,  0,  0,  0,  0,  0,
    5, 10, 10,-20,-20, 10, 10,  5,
    5, -5,-10,  0,  0,-10, -5,  5,
    0,  0,  0, 20, 20,  0,  0,  0,
    5,  5, 10, 25, 25, 10,  5,  5,
   10, 10, 20, 30, 30, 20, 10, 10,
   50, 50, 50, 50, 50, 50, 50, 50,
    0,  0,  0,  0,  0,  0,  0,  0]

/-- `src/evaluate.rs`: `KNIGHT_SQUARE_TABLE` (shared by both colours). -/
def KNIGHT_SQUARE_TABLE : List Int :=
  [-50,-40,-30,-30,-30,-30,-40,-50,
   -40,-20,  0,  0,  0,  0,-20,-40,
   -30,  0, 10, 15, 15, 10,  0,-30,
   -30,  5, 15, 20, 20, 15,  5,-30,
   -30,  0, 15, 20, 20, 15,  0,-30,
   -30,  5, 10, 15, 15, 10,  5,-30,
   -40,-20,  0,  5,  5,  0,-20,-40,
   -50,-40,-30,-30,-30,-30,-40,-50]

/-- `src/evaluate.rs`: `WHITE_BISHOP_SQUARE_TABLE`. -/
def WHITE_BISHOP_SQUARE_TABLE : List Int :=
  [-20,-10,-10,-10,-10,-10,-10,-20,
   -10,  0,  0,  0,  0,  0,  0,-10,
   -10,  0,  5, 10, 10,  5,  0,-10,
   -10,  5,  5, 10, 10,  5,  5,-10,
   -10,  0, 10, 10, 10, 10,  0,-10,
   -10, 10, 10, 10, 10, 10, 10,-10,
   -10,  5,  0,  0,  0,  0,  5,-10,
   -20,-10,-10,-10,-10,-10,-10,-20]

/-- `src/evaluate.rs`: `BLACK_BISHOP_SQUARE_TABLE`. -/
def BLACK_BISHOP_SQUARE_TABLE : List Int :=
  [-20,-10,-10,-10,-10,-10,-10,-20,
   -10,  5,  0,  0,  0,  0,  5,-10,
   -10, 10, 10, 10, 10, 10, 10,-10,
   -10,  0, 10, 10, 10, 10,  0,-10,
   -10,  5,  5, 10, 10,  5,  5,-10,
   -10,  0,  5, 10, 10,  5,  0,-10,
   -10,  0,  0,  0,  0,  0,  0,-10,
   -20,-10,-10,-10,-10,-10,-10,-20]

/-- `src/evaluate.rs`: `WHITE_ROOK_SQUARE_TABLE`. -/
def WHITE_ROOK_SQUARE_TABLE : List Int :=
  [  0,  0,  0,  0,  0,  0,  0,  0,
     5, 10, 10, 10, 10, 10, 10,  5,
    -5,  0,  0,  0,  0,  0,  0, -5,
    -5,  0,  0,  0,  0,  0,  0, -5,
    -5,  0,  0,  0,  0,  0,  0, -5,
    -5,  0,  0,  0,  0,  0,  0, -5,
    -5,  0,  0,  0,  0,  0,  0, -5,
     0,  0,  0,  5,  5,  0,  0,  0]

/-- `src/evaluate.rs`: `BLACK_ROOK_SQUARE_TABLE`. -/
def BLACK_ROOK_SQUARE_TABLE : List Int :=
  [  0,  0,  0,  5,  5,  0,  0,  0,
    -5,  0,  0,  0,  0,  0,  0, -5,
    -5,  0,  0,  0,  0,  0,  0, -5,
    -5,  0,  0,  0,  0,  0,  0, -5,
    -5,  0,  0,  0,  0,  0,  0, -5,
    -5,  0,  0,  0,  0,  0,  0, -5,
     5, 10, 10, 10, 10, 10, 10,  5,
     0,  0,  0,  0,  0,  0,  0,  0]

/-- `src/evaluate.rs`: `WHITE_QUEEN_SQUARE_TABLE`. -/
def WHITE_QUEEN_SQUARE_TABLE : List Int :=
  [-20,-10,-10, -5, -5,-10,-10,-20,
   -10,  0,  0,  0,  0,  0,  0,-10,
   -10,  0,  5,  5,  5,  5,  0,-10,
    -5,  0,  5,  5,  5,  5,  0, -5,
     0,  0,  5,  5,  5,  5,  0, -5,
   -10,  5,  5,  5,  5,  5,  0,-10,
   -10,  0,  5,  0,  0,  0,  0,-10,
   -20,-10,-10, -5, -5,-10,-10,-20]

/-- `src/evaluate.rs`: `BLACK_QUEEN_SQUARE_TABLE`. -/
def BLACK_QUEEN_SQUARE_TABLE : List Int :=
  [-20,-10,-10, -5, -5,-10,-10,-20,
   -10,  0,  5,  0,  0,  0,  0,-10,
   -10,  5,  5,  5,  5,  5,  0,-10,
     0,  0,  5,  5,  5,  5,  0, -5,
    -5,  0,  5,  5,  5,  5,  0, -5,
   -10,  0,  5,  5,  5,  5,  0,-10,
   -10,  0,  0,  0,  0,  0,  0,-10,
   -20,-10,-10, -5, -5,-10,-10,-20]

/-- `src/evaluate.rs`: `WHITE_KING_MIDDLE_GAME_SQUARE_TABLE`. -/
def WHITE_KING_MIDDLE_GAME_SQUARE_TABLE : List Int :=
  [-30,-40,-40,-50,-50,-40,-40,-30,
   -30,-40,-40,-50,-50,-40,-40,-30,
   -30,-40,-40,-50,-50,-40,-40,-30,
   -30,-40,-40,-50,-50,-40,-40,-30,
   -20,-30,-30,-40,-40,-30,-30,-20,
   -10,-20,-20,-20,-20,-20,-20,-10,
    20, 20,  0,  0,  0,  0, 20, 20,
    20, 30, 10,  0,  0, 10, 30, 20]

/-- `src/evaluate.rs`: `BLACK_KING_MIDDLE_GAME_SQUARE_TABLE`. -/
def BLACK_KING_MIDDLE_GAME_SQUARE_TABLE : List Int :=
  [ 20, 30, 10,  0,  0, 10, 30, 20,
    20, 20,  0,  0,  0,  0, 20, 20,
   -10,-20,-20,-20,-20,-20,-20,-10,
   -20,-30,-30,-40,-40,-30,-30,-20,
   -30,-40,-40,-50,-50,-40,-40,-30,
   -30,-40,-40,-50,-50,-40,-40,-30,
   -30,-40,-40,-50,-50,-40,-40,-30,
   -30,-40,-40,-50,-50,-40,-40,-30]

/-- The per-piece White table lookup used by
`count_positional_evaluation` in `src/evaluate.rs`. -/
def white_pst (p : Piece) (square : Nat) : Int :=
  match p with
  | .Pawn => WHITE_PAWN_SQUARE_TABLE.getD square 0
  | .Knight => KNIGHT_SQUARE_TABLE.getD square 0
  | .Bishop => WHITE_BISHOP_SQUARE_TABLE.getD square 0
  | .Rook => WHITE_ROOK_SQUARE_TABLE.getD square 0
  | .Queen => WHITE_QUEEN_SQUARE_TABLE.getD square 0
  | .King => WHITE_KING_MIDDLE_GAME_SQUARE_TABLE.getD square 0

/-- The per-piece Black table lookup used by
`count_positional_evaluation` in `src/evaluate.rs` (Black shares
`KNIGHT_SQUARE_TABLE` with White). -/
def black_pst (p : Piece) (square : Nat) : Int :=
  match p with
  | .Pawn => BLACK_PAWN_SQUARE_TABLE.getD square 0
  | .Knight => KNIGHT_SQUARE_TABLE.getD square 0
  | .Bishop => BLACK_BISHOP_SQUARE_TABLE.getD square 0
  | .Rook => BLACK_ROOK_SQUARE_TABLE.getD square 0
  | .Queen => BLACK_QUEEN_SQUARE_TABLE.getD square 0
  | .King => BLACK_KING_MIDDLE_GAME_SQUARE_TABLE.getD square 0

/-- `src/evaluate.rs`: one step of the `count_material` loop. -/
def count_material_step (b : Board) (color : Color) (count : Int) (square : Nat) :
    Int :=
  match og b.colors square with
  | some c =>
    if c = color then count + piece_value (unwrap_piece (og b.squares square))
    else count
  | none => count

/-- `src/evaluate.rs`: `count_material`. -/
def count_material (b : Board) (color : Color) : Int :=
  (List.range 64).foldl (count_material_step b color) 0

/-- `src/evaluate.rs`: one step of the `count_positional_evaluation` loop
(the white and black accumulators are threaded as a pair). -/
def count_positional_step (b : Board) (acc : Int × Int) (square : Nat) :
    Int × Int :=
  match og b.squares square, og b.colors square with
  | some p, some .White => (acc.1 + white_pst p square, acc.2)
  | some p, some .Black => (acc.1, acc.2 + black_pst p square)
  | _, _ => acc

/-- `src/evaluate.rs`: `count_positional_evaluation`. -/
def count_positional_evaluation (b : Board) : Int × Int :=
  (List.range 64).foldl (count_positional_step b) (0, 0)

/-- `src/evaluate.rs`: `evaluate` (material plus piece-square tables, from
the side-to-move perspective). -/
def evaluate (b : Board) : Int :=
  let white_material_eval := count_material b Color.White
  let black_material_eval := count_material b Color.Black
  let positional := count_positional_evaluation b
  let white_positional_eval := positional.1
  let black_positional_eval := positional.2
  let net_eval := (white_material_eval + white_positional_eval) -
    (black_material_eval + black_positional_eval)
  if b.to_move = Color.White then net_eval else -net_eval

/-- Modelled from the spec: `src/piece_square_table.rs` is not under `src/`
(only its user `src/piece.rs` is).  Per the spec, piece-square tables are
"64-entry arrays keyed by piece kind" from the chessprogramming simplified
evaluation function; the literals are the same visually laid out tables that
`src/evaluate.rs` embeds as its `WHITE_*` copies, and `Piece::position_value`
flips the rank for White lookups ("The piece square tables is inverted from
Talia representation") and indexes directly for Black.  This lookup bundles
the six tables `PAWN/KNIGHT/BISHOP/ROOK/QUEEN/KING_MIDDLE_GAME_SQUARE_TABLE`
of the missing file; their entries coincide with `white_pst`. -/
def modelled_piece_square_table (p : Piece) (index : Nat) : Int :=
  white_pst p index

/-- `src/piece.rs`: `Piece::position_value` (White flips the rank before the
lookup because the tables are stored top row first; Black indexes
directly). -/
def position_value (p : Piece) (square : Nat) (color : Color) : Int :=
  let index :=
    if color = Color.White then
      let rank := square / 8
      let file := square % 8
      -- The piece square tables are inverted from the board representation
      (7 - rank) * 8 + file
    else square
  modelled_piece_square_table p index

/-- `src/search.rs`: the flag match inside `guess_move_score` (promotion
bonus; MVV-LVA capture bonus with multiplier 10). -/
def guess_flag_bonus (starting_piece : Piece) (f : Flag) : Int :=
  let capture_piece_multiplier : Int := 10
  match f with
  | .PromoteTo piece => piece_value piece
  | .Capture piece =>
    capture_piece_multiplier * piece_value piece - piece_value starting_piece
  | .CaptureWithPromotion captured_piece promotion_piece =>
    piece_value promotion_piece +
      capture_piece_multiplier * piece_value captured_piece -
      piece_value starting_piece
  | _ => 0

/-- `src/search.rs`: `guess_move_score` (the score is negated so that
ascending sorts place the most promising moves first). -/
def guess_move_score (b : Board) (mv : Move) : Int :=
  let starting_piece := unwrap_piece (og b.squares mv.starting_square)
  let piece_color := unwrap_color (og b.colors mv.starting_square)
  let score_guess := guess_flag_bonus starting_piece mv.flag
  let position_eval_diff :=
    position_value starting_piece mv.target_square piece_color -
      position_value starting_piece mv.starting_square piece_color
  -- Negate score so that the moves with the highest score will be first
  Neg.neg (score_guess + position_eval_diff)

/-- Insert a move into a list sorted ascending by `key`, after any equal
keys (the stable insertion step). -/
def insert_by_key (key : Move → Int) (m : Move) : List Move → List Move
  | [] => [m]
  | x :: xs =>
    if key x ≤ key m then x :: insert_by_key key m xs
    else m :: x :: xs

/-- Models `slice::sort_unstable_by_key` from `src/search.rs` as a stable
insertion sort ascending by the key.  (Rust's `sort_unstable_by_key` runs
plain insertion sort, which preserves the order of equal keys, on all
slices of fewer than 21 elements; for the ordering properties proved below
only "some deterministic sort by this key" matters.) -/
def sort_moves_by (key : Move → Int) (l : List Move) : List Move :=
  l.foldr (insert_by_key key) []


/-- `src/search.rs`: `const INF: i32 = i32::MAX`. -/
def INF : Int := 2147483647

/-- `src/search.rs`: the `pieces_left` count in `find_best_move`
(`squares.iter().filter(|sq| sq.is_some()).count()`). -/
def piece_count (b : Board) : Nat :=
  (b.squares.filter Option.isSome).length

/-- `src/search.rs`: the capture filter of `search_all_captures`
(`matches!(mv.flag, EnPassantCapture | Capture(_) | CaptureWithPromotion(_, _))`). -/
def is_capture_flag (f : Flag) : Bool :=
  match f with
  | .EnPassantCapture => true
  | .Capture _ => true
  | .CaptureWithPromotion _ _ => true
  | _ => false

/-- State threaded through the alpha-beta move loops of `search` and
`search_all_captures`: the running alpha (set to beta on a cutoff), the
board (mutated and restored around every move in the source), and whether
the loop has early-returned. -/
structure AlphaLoopState where
  alpha : Int
  board : Board
  done : Bool

/-- `src/search.rs`: `search_all_captures` (the quiescence search:
stand-pat evaluation with beta cutoff, then captures only).  The source
recursion has no explicit bound; every recursive call follows a capture
move, which strictly decreases the piece count, so running the recursion
on any fuel larger than the piece count computes the same value.  The
fuel-exhausted case (unreachable from `search`, which supplies
`piece_count + 1`) returns the stand-pat value. -/
def search_all_captures : Nat → Board → Int → Int → Int
  | 0, b, alpha, beta =>
    let eval := evaluate b
    if beta ≤ eval then beta else max alpha eval
  | fuel + 1, b, alpha, beta =>
    let eval := evaluate b
    if beta ≤ eval then beta
    else
      let alpha := max alpha eval
      let gm := generate_moves b
      let capture_moves := gm.1.filter (fun mv => is_capture_flag mv.flag)
      let sorted := sort_moves_by (guess_move_score gm.2) capture_moves
      let final := sorted.foldl (fun (st : AlphaLoopState) mv =>
        if st.done then st
        else
          let b1 := move_piece st.board mv
          let eval := -(search_all_captures fuel b1 (-beta) (-st.alpha))
          let b2 := (unmake_move b1 mv).2
          if beta ≤ eval then { alpha := beta, board := b2, done := true }
          else { alpha := max st.alpha eval, board := b2, done := false })
        { alpha := alpha, board := gm.2, done := false }
      final.alpha

/-- `src/search.rs`: `search` (negamax with alpha-beta pruning; at depth 0
it falls through to the quiescence search -- the `COUNTER` bump there is
instrumentation with no semantic effect).  If there is no legal move the
result is `-INF` when the side to move is in check and `0` otherwise. -/
def search : Nat → Board → Int → Int → Int
  | 0, b, alpha, beta => search_all_captures (piece_count b + 1) b alpha beta
  | depth + 1, b, alpha, beta =>
    let gm := generate_moves b
    if gm.1 = [] then
      if is_in_check gm.2 gm.2.to_move then -INF else 0
    else
      let sorted := sort_moves_by (guess_move_score gm.2) gm.1
      let final := sorted.foldl (fun (st : AlphaLoopState) mv =>
        if st.done then st
        else
          let b1 := move_piece st.board mv
          let eval := -(search depth b1 (-beta) (-st.alpha))
          let b2 := (unmake_move b1 mv).2
          -- Move too good, opponent will avoid
          if beta ≤ eval then { alpha := beta, board := b2, done := true }
          else { alpha := max eval st.alpha, board := b2, done := false })
        { alpha := alpha, board := gm.2, done := false }
      final.alpha

/-- Modelled from the spec: `src/search.rs`'s `query_tablebase` performs a
blocking HTTP request to the remote endgame tablebase, which has no shallow
embedding; spec section 4.5 states that "the search MUST be correct when
the client always returns an error", and the client is modelled
accordingly (its error string is the one in the source). -/
def query_tablebase (_b : Board) : Except String (Move × Int) :=
  Except.error "Call to tablebase failed"

/-- `src/search.rs`: the tablebase consultation at the top of
`find_best_move`: on success its result is returned verbatim, on error a
line is printed and the search proceeds. -/
def tablebase_probe (b : Board) : Option (Move × Int) :=
  match query_tablebase b with
  | .ok tb_result => some tb_result
  | .error _ => none

/-- State of the iterative-deepening loop of `find_best_move`: the best
move and score so far, the board, and the early mate result if one was
found. -/
structure RootState where
  best_move : Move
  best_eval : Int
  board : Board
  early : Option (Move × Int)

/-- State of the per-depth root-move loop of `find_best_move` (alpha is
reset to `-INF` at every depth). -/
structure RootIterState where
  alpha : Int
  best_move : Move
  best_eval : Int
  board : Board
  early : Option (Move × Int)

/-- The return statements at the end of `find_best_move`: the early mate
result if one was found, otherwise the best move and score of the last
completed depth. -/
def root_finish (st : RootState) : Except String (Move × Int) :=
  match st.early with
  | some result => .ok result
  | none => .ok (st.best_move, st.best_eval)

/-- `src/search.rs`: `find_best_move`.  The source signature is
`fn find_best_move(moves: &mut [Move], move_generator: &mut MoveGenerator,
depth: u32) -> (Move, i32)`; the `.expect("moves vector must have at least
one move")` panic on an empty slice is modelled as the `Except.error` with
the panic message.  With eight or more pieces (or on tablebase error) the
root moves are sorted by the ordering heuristic and searched by iterative
deepening from depth 0 to `depth - 1`, returning immediately when a root
move scores `INF` (forced mate). -/
def find_best_move (moves : List Move) (b : Board) (depth : Nat) :
    Except String (Move × Int) :=
  let pieces_left := piece_count b
  let tb := if pieces_left ≤ 7 then tablebase_probe b else none
  match tb with
  | some tb_result => .ok tb_result
  | none =>
    let sorted := sort_moves_by (guess_move_score b) moves
    match sorted with
    | [] => .error "moves vector must have at least one move"
    | best0 :: _ =>
      let outer := (List.range depth).foldl (fun (st : RootState) curr_depth =>
        match st.early with
        | some _ => st
        | none =>
          let inner := sorted.foldl (fun (s : RootIterState) mv =>
            match s.early with
            | some _ => s
            | none =>
              let b1 := move_piece s.board mv
              let eval := -(search curr_depth b1 (-INF) (-s.alpha))
              let b2 := (unmake_move b1 mv).2
              -- If we see mate at the current depth, stop the search, since
              -- the current move is guaranteed to be the fastest mate
              if eval = INF then { s with board := b2, early := some (mv, eval) }
              else if s.alpha < eval then
                { alpha := eval, best_move := mv, best_eval := eval,
                  board := b2, early := none }
              else { s with board := b2 })
            { alpha := -INF, best_move := st.best_move,
              best_eval := st.best_eval, board := st.board, early := none }
          { best_move := inner.best_move, best_eval := inner.best_eval,
            board := inner.board, early := inner.early })
        { best_move := best0, best_eval := -INF, board := b, early := none }
      root_finish outer


/-! ### Test scaffolding and well-formedness -/

/-- The all-empty `BoardState` (what `BoardState::default()` produces). -/
def default_board_state : BoardState :=
  { captured_piece := none, en_passant_square := none, half_move_clock := 0,
    white_kingside_castling_priviledge := false,
    black_kingside_castling_priviledge := false,
    white_queenside_castling_priviledge := false,
    black_queenside_castling_priviledge := false }

/-- Build a board from a piece placement, mirroring the
`BoardBuilder::new().piece(..)..to_move(..)` test constructor from
`src/board_builder.rs` (no castling rights, no en-passant square, fresh
clocks, empty history). -/
def mk_board (pieces : List (Nat × Piece × Color)) (to_move : Color) : Board :=
  { squares := pieces.foldl (fun l pc => l.set pc.1 (some pc.2.1)) (List.replicate 64 none)
    colors := pieces.foldl (fun l pc => l.set pc.1 (some pc.2.2)) (List.replicate 64 none)
    to_move := to_move
    full_move_number := 1
    board_state := default_board_state
    board_state_history := [] }

/-- Well-formedness of a board position, collecting the `src/board.rs` data
invariants the spec states in its data-model section: the two arrays have
length 64 and are in sync (a square has a piece exactly when it has a
colour); each side has exactly one king; a castling right implies king and
rook on their home squares; the en-passant square, when set, sits on the
correct rank, is empty, and has the double-pushed pawn in front of it; and
no pawn stands on a back rank. -/
def WfBoard (b : Board) : Prop :=
  b.squares.length = 64 ∧
  b.colors.length = 64 ∧
  (∀ i, i < 64 → ((og b.squares i).isSome ↔ (og b.colors i).isSome)) ∧
  (∃ k, k < 64 ∧ og b.squares k = some Piece.King ∧ og b.colors k = some Color.White ∧
    (∀ j, j < 64 → og b.squares j = some Piece.King → og b.colors j = some Color.White →
      j = k)) ∧
  (∃ k, k < 64 ∧ og b.squares k = some Piece.King ∧ og b.colors k = some Color.Black ∧
    (∀ j, j < 64 → og b.squares j = some Piece.King → og b.colors j = some Color.Black →
      j = k)) ∧
  (b.board_state.white_kingside_castling_priviledge = true →
    og b.squares 4 = some Piece.King ∧ og b.colors 4 = some Color.White ∧
    og b.squares 7 = some Piece.Rook ∧ og b.colors 7 = some Color.White) ∧
  (b.board_state.white_queenside_castling_priviledge = true →
    og b.squares 4 = some Piece.King ∧ og b.colors 4 = some Color.White ∧
    og b.squares 0 = some Piece.Rook ∧ og b.colors 0 = some Color.White) ∧
  (b.board_state.black_kingside_castling_priviledge = true →
    og b.squares 60 = some Piece.King ∧ og b.colors 60 = some Color.Black ∧
    og b.squares 63 = some Piece.Rook ∧ og b.colors 63 = some Color.Black) ∧
  (b.board_state.black_queenside_castling_priviledge = true →
    og b.squares 60 = some Piece.King ∧ og b.colors 60 = some Color.Black ∧
    og b.squares 56 = some Piece.Rook ∧ og b.colors 56 = some Color.Black) ∧
  (b.board_state.en_passant_square = none ∨
    (∃ e, e < 64 ∧ b.board_state.en_passant_square = some e ∧
      og b.squares e = none ∧ og b.colors e = none ∧
      (b.to_move = Color.Black →
        16 ≤ e ∧ e < 24 ∧
        og b.squares (e + 8) = some Piece.Pawn ∧
        og b.colors (e + 8) = some Color.White) ∧
      (b.to_move = Color.White →
        40 ≤ e ∧ e < 48 ∧
        og b.squares (e - 8) = some Piece.Pawn ∧
        og b.colors (e - 8) = some Color.Black))) ∧
  (∀ i, i < 8 →
    og b.squares i ≠ some Piece.Pawn ∧ og b.squares (56 + i) ≠ some Piece.Pawn)

/-- The facts `move_piece`/`unmake_move` need about an en-passant capture:
the mover is a pawn, the stored en-passant square is the move's target, the
target is empty, and the captured opposing pawn stands next to it (at
`target - 8` for a White mover, `target + 8` for a Black one). -/
def ep_captured_index (b : Board) (m : Move) : Nat :=
  if b.to_move = Color.White then m.target_square - 8 else m.target_square + 8

def EpOk (b : Board) (m : Move) : Prop :=
  og b.squares m.starting_square = some Piece.Pawn ∧
  b.board_state.en_passant_square = some m.target_square ∧
  og b.squares m.target_square = none ∧ og b.colors m.target_square = none ∧
  (b.to_move = Color.White → 8 ≤ m.target_square) ∧
  ep_captured_index b m < 64 ∧ ep_captured_index b m ≠ m.starting_square ∧
  ep_captured_index b m ≠ m.target_square ∧
  og b.squares (ep_captured_index b m) = some Piece.Pawn ∧
  og b.colors (ep_captured_index b m) = some b.to_move.opposite_color

/-- The facts `move_piece`/`unmake_move` need about a castling move of the
side to move: king and rook on their home squares in the side's colour and
the traversed squares empty (the move's squares are the king's). -/
def CastleOk (b : Board) (m : Move) (kingside : Bool) : Prop :=
  if b.to_move = Color.White then
    if kingside then
      m.starting_square = 4 ∧ m.target_square = 6 ∧
      og b.squares 4 = some Piece.King ∧ og b.colors 4 = some Color.White ∧
      og b.squares 7 = some Piece.Rook ∧ og b.colors 7 = some Color.White ∧
      og b.squares 5 = none ∧ og b.colors 5 = none ∧
      og b.squares 6 = none ∧ og b.colors 6 = none
    else
      m.starting_square = 4 ∧ m.target_square = 2 ∧
      og b.squares 4 = some Piece.King ∧ og b.colors 4 = some Color.White ∧
      og b.squares 0 = some Piece.Rook ∧ og b.colors 0 = some Color.White ∧
      og b.squares 2 = none ∧ og b.colors 2 = none ∧
      og b.squares 3 = none ∧ og b.colors 3 = none
  else
    if kingside then
      m.starting_square = 60 ∧ m.target_square = 62 ∧
      og b.squares 60 = some Piece.King ∧ og b.colors 60 = some Color.Black ∧
      og b.squares 63 = some Piece.Rook ∧ og b.colors 63 = some Color.Black ∧
      og b.squares 61 = none ∧ og b.colors 61 = none ∧
      og b.squares 62 = none ∧ og b.colors 62 = none
    else
      m.starting_square = 60 ∧ m.target_square = 58 ∧
      og b.squares 60 = some Piece.King ∧ og b.colors 60 = some Color.Black ∧
      og b.squares 56 = some Piece.Rook ∧ og b.colors 56 = some Color.Black ∧
      og b.squares 58 = none ∧ og b.colors 58 = none ∧
      og b.squares 59 = none ∧ og b.colors 59 = none

/-- Everything the make/unmake round trip needs to know about a move in a
given position; every pseudo-legal move of a well-formed position satisfies
it (`moveok_of_mem_pseudo` below). -/
structure MoveOk (b : Board) (m : Move) : Prop where
  start_lt : m.starting_square < 64
  target_lt : m.target_square < 64
  ne : m.starting_square ≠ m.target_square
  start_color : og b.colors m.starting_square = some b.to_move
  start_piece : (og b.squares m.starting_square).isSome
  quiet : m.flag = Flag.None ∨ m.flag = Flag.PawnDoublePush →
    og b.squares m.target_square = none ∧ og b.colors m.target_square = none
  cap : ∀ p, m.flag = Flag.Capture p →
    og b.squares m.target_square = some p ∧
    og b.colors m.target_square = some b.to_move.opposite_color
  promo : ∀ p, m.flag = Flag.PromoteTo p →
    og b.squares m.starting_square = some Piece.Pawn ∧
    og b.squares m.target_square = none ∧ og b.colors m.target_square = none
  cappromo : ∀ cp pp, m.flag = Flag.CaptureWithPromotion cp pp →
    og b.squares m.starting_square = some Piece.Pawn ∧
    og b.squares m.target_square = some cp ∧
    og b.colors m.target_square = some b.to_move.opposite_color
  ep : m.flag = Flag.EnPassantCapture → EpOk b m
  ks : m.flag = Flag.KingsideCastle → CastleOk b m true
  qs : m.flag = Flag.QueensideCastle → CastleOk b m false

/-- The pure per-move predicate equivalent to one iteration of the
legality-filter loop when the board is restored between iterations: castling
moves with an unsafe path are dropped, and otherwise a move is kept exactly
when making it does not leave `tm` in check. -/
def keeps_move (b : Board) (tm : Color) (mv : Move) : Bool :=
  if (mv.flag = Flag.KingsideCastle ∨ mv.flag = Flag.QueensideCastle) ∧
      is_castling_path_clear b mv = false then false
  else !(is_in_check (move_piece b mv) tm)

/-- Following the specification text for the evaluator: "the Black lookup
mirrors the square vertically (rank := 7 - rank)". -/
def vertical_mirror (square : Nat) : Nat :=
  (7 - square / 8) * 8 + square % 8

/-- Following the specification text: `pst_value(kind, color, square)` with
the piece-square tables "defined from White's perspective" and "the Black
lookup being the exact vertical mirror of the White table for every piece
kind". -/
def spec_pst_value (p : Piece) (c : Color) (square : Nat) : Int :=
  if c = Color.White then white_pst p square
  else white_pst p (vertical_mirror square)

/-- Following the specification text for `evaluate`: "the sum over all
pieces of material_value(kind) + pst_value(kind, color, square) for White
minus the same for Black, then negated if Black is to move", with
`pst_value` as `spec_pst_value`. -/
def spec_evaluate (b : Board) : Int :=
  let net := (List.range 64).foldl (fun acc sq =>
    match og b.squares sq, og b.colors sq with
    | some p, some Color.White => acc + (piece_value p + spec_pst_value p Color.White sq)
    | some p, some Color.Black => acc - (piece_value p + spec_pst_value p Color.Black sq)
    | _, _ => acc) 0
  if b.to_move = Color.White then net else -net

/-- The actual net contribution of one square to `evaluate`, with the
tables the code uses (`black_pst`, which shares the knight table with
White instead of mirroring it). -/
def net_contribution (b : Board) (sq : Nat) : Int :=
  match og b.squares sq, og b.colors sq with
  | some p, some Color.White => piece_value p + white_pst p sq
  | some p, some Color.Black => -(piece_value p + black_pst p sq)
  | _, _ => 0

def net_sum (b : Board) : Int :=
  (List.range 64).foldl (fun acc sq => acc + net_contribution b sq) 0

/-- Executable counterpart of the en-passant clause of `WfBoard`. -/
def ep_check (b : Board) : Bool :=
  match b.board_state.en_passant_square with
  | none => true
  | some e =>
    decide (e < 64) && (og b.squares e == none) && (og b.colors e == none) &&
    (if b.to_move = Color.Black then
      decide (16 ≤ e ∧ e < 24) && (og b.squares (e + 8) == some Piece.Pawn) &&
        (og b.colors (e + 8) == some Color.White)
    else
      decide (40 ≤ e ∧ e < 48) && (og b.squares (e - 8) == some Piece.Pawn) &&
        (og b.colors (e - 8) == some Color.Black))

/-- Executable counterpart of `WfBoard`, used to discharge well-formedness
of concrete positions by evaluation (`wf_check_sound`). -/
def wf_check (b : Board) : Bool :=
  (b.squares.length == 64) &&
  (b.colors.length == 64) &&
  ((List.range 64).all (fun i =>
    (og b.squares i).isSome == (og b.colors i).isSome)) &&
  ((List.range 64).countP (fun k =>
    (og b.squares k == some Piece.King) && (og b.colors k == some Color.White)) == 1) &&
  ((List.range 64).countP (fun k =>
    (og b.squares k == some Piece.King) && (og b.colors k == some Color.Black)) == 1) &&
  (!b.board_state.white_kingside_castling_priviledge ||
    ((og b.squares 4 == some Piece.King) && (og b.colors 4 == some Color.White) &&
     (og b.squares 7 == some Piece.Rook) && (og b.colors 7 == some Color.White))) &&
  (!b.board_state.white_queenside_castling_priviledge ||
    ((og b.squares 4 == some Piece.King) && (og b.colors 4 == some Color.White) &&
     (og b.squares 0 == some Piece.Rook) && (og b.colors 0 == some Color.White))) &&
  (!b.board_state.black_kingside_castling_priviledge ||
    ((og b.squares 60 == some Piece.King) && (og b.colors 60 == some Color.Black) &&
     (og b.squares 63 == some Piece.Rook) && (og b.colors 63 == some Color.Black))) &&
  (!b.board_state.black_queenside_castling_priviledge ||
    ((og b.squares 60 == some Piece.King) && (og b.colors 60 == some Color.Black) &&
     (og b.squares 56 == some Piece.Rook) && (og b.colors 56 == some Color.Black))) &&
  ep_check b &&
  ((List.range 8).all (fun i =>
    !(og b.squares i == some Piece.Pawn) && !(og b.squares (56 + i) == some Piece.Pawn)))

/-- A small well-formed position: White king e1, Black king e8, White pawn
a2, White to move. -/
def b0 : Board :=
  mk_board [(4, .King, .White), (60, .King, .Black), (8, .Pawn, .White)] .White

/-- The quiet pawn push a2-a3 in `b0`. -/
def m0 : Move := ⟨8, 16, .None⟩

/-- A stalemate: Black king a8, White king b6, White queen c7, Black to
move.  Black has no legal move and is not in check. -/
def stale_board : Board :=
  mk_board [(56, .King, .Black), (41, .King, .White), (50, .Queen, .White)] .Black

/-- A pawn checkmate: White king h1, Black pawn g2 guarded by the Black
king on g3, Black bishop b6 covering g1, White to move.  White has no legal
move and is in check (mate), but the pawn's attack is missed by
`is_in_check`, whose capture offsets follow the side to move (White). -/
def c5_board : Board :=
  mk_board [(7, .King, .White), (14, .Pawn, .Black), (22, .King, .Black),
    (41, .Bishop, .Black)] .White

/-- White king e4, Black king e8, Black pawn d5, White to move: the Black
pawn attacks the White king diagonally, but `is_in_check`, selecting the
pawn capture offsets by the side to move (White), probes d5+7 and d5+9
instead of d5-7 and d5-9 and misses it. -/
def c3_board : Board :=
  mk_board [(28, .King, .White), (60, .King, .Black), (35, .Pawn, .Black)] .White

/-- White rook h1, Black knight h8, kings on e1/e8, White to move, with
Black's kingside castling right still set (the right is stale: its rook is
gone, a state move_piece itself produces when the h8 rook was captured
earlier without the right being cleared -- which is exactly the behaviour
at issue). -/
def c4_board : Board :=
  { mk_board [(4, .King, .White), (60, .King, .Black), (7, .Rook, .White),
      (63, .Knight, .Black)] .White with
    board_state := { default_board_state with
      black_kingside_castling_priviledge := true } }

/-- Rook takes the knight on h8: a capture onto the rook home square h8
whose captured piece is not a rook. -/
def c4_move : Move := ⟨7, 63, .Capture .Knight⟩

/-- Kings e1/e8 and a Black knight on d2 (square 11), White to move: the
shared knight table is not vertically symmetric at square 11. -/
def c6_board : Board :=
  mk_board [(4, .King, .White), (60, .King, .Black), (11, .Knight, .Black)] .White

/-- Kings e1/e8 and White pawns a2, h2, White to move: several legal moves
share the ordering score, so sorting different input permutations gives
different sequences. -/
def c7_board : Board :=
  mk_board [(4, .King, .White), (60, .King, .Black), (8, .Pawn, .White),
    (15, .Pawn, .White)] .White

/-- Two legal moves of `c7_board` with distinct ordering scores (the king
step e1-f1 scores -10, the double push a2-a4 scores 5). -/
def c7_m1 : Move := ⟨4, 5, .None⟩

def c7_m2 : Move := ⟨8, 24, .PawnDoublePush⟩

/-! ### Basic list and colour lemmas -/

theorem og_set_self {α : Type} (l : List (Option α)) (i : Nat) (v : Option α)
    (h : i < l.length) : og (l.set i v) i = v := by
  simp [og, List.getD_eq_getElem?_getD, List.getElem?_set_eq_of_lt v h]

theorem og_set_ne {α : Type} (l : List (Option α)) (i j : Nat) (v : Option α)
    (h : i ≠ j) : og (l.set i v) j = og l j := by
  simp [og, List.getD_eq_getElem?_getD, List.getElem?_set_ne h]

theorem og_of_ge {α : Type} (l : List (Option α)) (i : Nat) (h : l.length ≤ i) :
    og l i = none := by
  simp [og, List.getD_eq_getElem?_getD, List.getElem?_eq_none h]

theorem option_list_ext {α : Type} (l l' : List (Option α))
    (hl : l.length = 64) (hl' : l'.length = 64)
    (h : ∀ i, i < 64 → og l i = og l' i) : l = l' := by
  apply List.ext_getElem?
  intro i
  by_cases hi : i < 64
  · have h3 := h i hi
    rw [og, og, List.getD_eq_getElem?_getD, List.getD_eq_getElem?_getD] at h3
    cases hx : l[i]? with
    | none =>
      have := List.getElem?_eq_none_iff.mp hx
      omega
    | some a =>
      cases hy : l'[i]? with
      | none =>
        have := List.getElem?_eq_none_iff.mp hy
        omega
      | some a2 =>
        rw [hx, hy] at h3
        simp at h3
        rw [h3]
  · rw [List.getElem?_eq_none (by omega), List.getElem?_eq_none (by omega)]

theorem opposite_opposite (c : Color) : c.opposite_color.opposite_color = c := by
  cases c <;> rfl

theorem opposite_of_ne {c d : Color} (h : d ≠ c) : d = c.opposite_color := by
  cases c <;> cases d <;> simp_all [Color.opposite_color]

theorem board_eq {b b' : Board} (h1 : b.squares = b'.squares)
    (h2 : b.colors = b'.colors) (h3 : b.to_move = b'.to_move)
    (h4 : b.full_move_number = b'.full_move_number)
    (h5 : b.board_state = b'.board_state)
    (h6 : b.board_state_history = b'.board_state_history) : b = b' := by
  cases b; cases b'; simp_all

theorem prelude_squares (b : Board) (m : Move) :
    (move_piece_prelude b m).squares = b.squares := by
  simp only [move_piece_prelude]; split <;> rfl

theorem prelude_colors (b : Board) (m : Move) :
    (move_piece_prelude b m).colors = b.colors := by
  simp only [move_piece_prelude]; split <;> rfl

theorem prelude_to_move (b : Board) (m : Move) :
    (move_piece_prelude b m).to_move = b.to_move := by
  simp only [move_piece_prelude]; split <;> rfl

theorem prelude_fmn (b : Board) (m : Move) :
    (move_piece_prelude b m).full_move_number = b.full_move_number := by
  simp only [move_piece_prelude]; split <;> rfl

theorem prelude_history (b : Board) (m : Move) :
    (move_piece_prelude b m).board_state_history =
      b.board_state :: b.board_state_history := by
  simp only [move_piece_prelude]; split <;> rfl

theorem ucr_squares (b : Board) (m : Move) :
    (update_castling_rights b m).squares = b.squares := by
  simp [update_castling_rights, king_move_rights_step,
    rook_move_rights_step, rook_capture_rights_step, apply_ite Board.squares]

theorem ucr_colors (b : Board) (m : Move) :
    (update_castling_rights b m).colors = b.colors := by
  simp [update_castling_rights, king_move_rights_step,
    rook_move_rights_step, rook_capture_rights_step, apply_ite Board.colors]

theorem ucr_to_move (b : Board) (m : Move) :
    (update_castling_rights b m).to_move = b.to_move := by
  simp [update_castling_rights, king_move_rights_step,
    rook_move_rights_step, rook_capture_rights_step, apply_ite Board.to_move]

theorem ucr_fmn (b : Board) (m : Move) :
    (update_castling_rights b m).full_move_number = b.full_move_number := by
  simp [update_castling_rights, king_move_rights_step,
    rook_move_rights_step, rook_capture_rights_step, apply_ite Board.full_move_number]

theorem ucr_history (b : Board) (m : Move) :
    (update_castling_rights b m).board_state_history = b.board_state_history := by
  simp [update_castling_rights, king_move_rights_step,
    rook_move_rights_step, rook_capture_rights_step, apply_ite Board.board_state_history]

theorem mpfe_to_move (b : Board) (m : Move) (saved : Option Nat) :
    (move_piece_flag_effects b m saved).to_move = b.to_move := by
  cases hf : m.flag <;> simp [move_piece_flag_effects, hf]

theorem mpfe_fmn (b : Board) (m : Move) (saved : Option Nat) :
    (move_piece_flag_effects b m saved).full_move_number = b.full_move_number := by
  cases hf : m.flag <;> simp [move_piece_flag_effects, hf]

theorem mpfe_history (b : Board) (m : Move) (saved : Option Nat) :
    (move_piece_flag_effects b m saved).board_state_history =
      b.board_state_history := by
  cases hf : m.flag <;> simp [move_piece_flag_effects, hf]

theorem mpfe_squares (b : Board) (m : Move) (saved : Option Nat)
    (h : m.flag ≠ Flag.EnPassantCapture) :
    (move_piece_flag_effects b m saved).squares = b.squares := by
  cases hf : m.flag <;> simp_all [move_piece_flag_effects]

theorem mpfe_colors (b : Board) (m : Move) (saved : Option Nat)
    (h : m.flag ≠ Flag.EnPassantCapture) :
    (move_piece_flag_effects b m saved).colors = b.colors := by
  cases hf : m.flag <;> simp_all [move_piece_flag_effects]

theorem flip_squares (b : Board) : (flip_turn b).squares = b.squares := by
  simp only [flip_turn]; split <;> rfl

theorem flip_colors (b : Board) : (flip_turn b).colors = b.colors := by
  simp only [flip_turn]; split <;> rfl

theorem flip_board_state (b : Board) : (flip_turn b).board_state = b.board_state := by
  simp only [flip_turn]; split <;> rfl

theorem flip_history (b : Board) :
    (flip_turn b).board_state_history = b.board_state_history := by
  simp only [flip_turn]; split <;> rfl

theorem flip_to_move (b : Board) : (flip_turn b).to_move = b.to_move.opposite_color := by
  cases hb : b.to_move <;> simp [flip_turn, hb, Color.opposite_color]

theorem flip_fmn_round (b : Board) :
    (if b.to_move = Color.Black then (flip_turn b).full_move_number - 1
     else (flip_turn b).full_move_number) = b.full_move_number := by
  cases hb : b.to_move <;> simp [flip_turn, hb]

theorem place_to_move (b : Board) (m : Move) :
    (place_piece_for_move b m).to_move = b.to_move := rfl

theorem place_fmn (b : Board) (m : Move) :
    (place_piece_for_move b m).full_move_number = b.full_move_number := rfl

theorem place_board_state (b : Board) (m : Move) :
    (place_piece_for_move b m).board_state = b.board_state := rfl

theorem place_history (b : Board) (m : Move) :
    (place_piece_for_move b m).board_state_history = b.board_state_history := rfl

theorem mpfe_board_state_simple (b : Board) (m : Move) (saved : Option Nat)
    (h : m.flag ≠ Flag.PawnDoublePush) :
    (move_piece_flag_effects b m saved).board_state = b.board_state := by
  cases hf : m.flag <;> simp_all [move_piece_flag_effects]

theorem set_restore {α : Type} (l : List (Option α)) (s t : Nat)
    (x p d : Option α) (hlen : l.length = 64) (hs : s < 64) (ht : t < 64)
    (hne : s ≠ t) (hp : og l s = p) (hd : og l t = d) :
    ((((l.set t x).set s none).set s p).set t d) = l := by
  apply option_list_ext _ _ (by simp [hlen]) hlen
  intro i hi
  by_cases h1 : i = t
  · subst h1
    rw [og_set_self _ _ _ (by simp [hlen]; omega), hd]
  · rw [og_set_ne _ _ _ _ (fun h => h1 h.symm)]
    by_cases h2 : i = s
    · subst h2
      rw [og_set_self _ _ _ (by simp [hlen]; omega), hp]
    · rw [og_set_ne _ _ _ _ (fun h => h2 h.symm),
        og_set_ne _ _ _ _ (fun h => h2 h.symm),
        og_set_ne _ _ _ _ (fun h => h1 h.symm)]

theorem roundtrip_none (b : Board) (m : Move)
    (hs : b.squares.length = 64) (hc : b.colors.length = 64)
    (ok : MoveOk b m) (hf : m.flag = Flag.None) :
    unmake_move (move_piece b m) m = (none, b) := by
  obtain ⟨p, hp⟩ := Option.isSome_iff_exists.mp ok.start_piece
  have hne := ok.ne
  have hslt := ok.start_lt
  have htlt := ok.target_lt
  have hsc := ok.start_color
  obtain ⟨hq1, hq2⟩ := ok.quiet (Or.inl hf)
  have hsq : (move_piece b m).squares =
      (b.squares.set m.target_square (some p)).set m.starting_square none := by
    simp [move_piece, hf, flip_squares, ucr_squares, move_piece_flag_effects,
      place_piece_for_move, placed_piece, prelude_squares, hp]
  have hco : (move_piece b m).colors =
      (b.colors.set m.target_square (some b.to_move)).set m.starting_square none := by
    simp [move_piece, hf, flip_colors, ucr_colors, move_piece_flag_effects,
      place_piece_for_move, prelude_colors, hsc]
  have htm : (move_piece b m).to_move = b.to_move.opposite_color := by
    simp [move_piece, hf, flip_to_move, ucr_to_move, move_piece_flag_effects,
      place_to_move, prelude_to_move]
  have hhist : (move_piece b m).board_state_history =
      b.board_state :: b.board_state_history := by
    simp [move_piece, hf, flip_history, ucr_history, move_piece_flag_effects,
      place_history, prelude_history]
  have hfmn : (if b.to_move = Color.Black then (move_piece b m).full_move_number - 1
      else (move_piece b m).full_move_number) = b.full_move_number := by
    have h1 : (move_piece b m) = flip_turn (place_piece_for_move (update_castling_rights
        (move_piece_flag_effects (move_piece_prelude b m) m
          b.board_state.en_passant_square) m) m) := by
      simp [move_piece, hf]
    rw [h1]
    have h2 : (place_piece_for_move (update_castling_rights
        (move_piece_flag_effects (move_piece_prelude b m) m
          b.board_state.en_passant_square) m) m).to_move = b.to_move := by
      simp [place_to_move, ucr_to_move, mpfe_to_move, prelude_to_move]
    have h3 : (place_piece_for_move (update_castling_rights
        (move_piece_flag_effects (move_piece_prelude b m) m
          b.board_state.en_passant_square) m) m).full_move_number =
        b.full_move_number := by
      simp [place_fmn, ucr_fmn, mpfe_fmn, prelude_fmn]
    rw [← h2, ← h3]
    exact flip_fmn_round _
  -- the target square of the made board holds the moved piece
  have e1 : og (move_piece b m).squares m.target_square = some p := by
    rw [hsq, og_set_ne _ _ _ _ hne, og_set_self]
    omega
  have e2 : og (move_piece b m).colors m.target_square = some b.to_move := by
    rw [hco, og_set_ne _ _ _ _ hne, og_set_self]
    omega
  -- reduce unmake_move
  rw [unmake_move, hhist]
  simp only [e1, e2]
  simp only [unmake_flag_step, hf, put_piece]
  rw [Prod.mk.injEq]
  refine ⟨rfl, ?_⟩
  rw [htm, opposite_opposite, hsq, hco]
  have hsq' := set_restore b.squares m.starting_square m.target_square
    (some p) (some p) none hs hslt htlt hne hp hq1
  have hco' := set_restore b.colors m.starting_square m.target_square
    (some b.to_move) (some b.to_move) none hc hslt htlt hne hsc hq2
  split_ifs with hb
  · exact board_eq hsq' hco' rfl (by rw [← hfmn, if_pos hb]) rfl rfl
  · exact board_eq hsq' hco' rfl (by rw [← hfmn, if_neg hb]) rfl rfl


theorem set_restore5 {α : Type} (l : List (Option α)) (s t : Nat)
    (x q p d : Option α) (hlen : l.length = 64) (hs : s < 64) (ht : t < 64)
    (hne : s ≠ t) (hp : og l s = p) (hd : og l t = d) :
    (((((l.set t x).set s none).set s q).set s p).set t d) = l := by
  apply option_list_ext _ _ (by simp [hlen]) hlen
  intro i hi
  by_cases h1 : i = t
  · subst h1
    rw [og_set_self _ _ _ (by simp [hlen]; omega), hd]
  · rw [og_set_ne _ _ _ _ (fun h => h1 h.symm)]
    by_cases h2 : i = s
    · subst h2
      rw [og_set_self _ _ _ (by simp [hlen]; omega), hp]
    · rw [og_set_ne _ _ _ _ (fun h => h2 h.symm),
        og_set_ne _ _ _ _ (fun h => h2 h.symm),
        og_set_ne _ _ _ _ (fun h => h2 h.symm),
        og_set_ne _ _ _ _ (fun h => h1 h.symm)]

theorem set_restore5b {α : Type} (l : List (Option α)) (s t : Nat)
    (x q p d : Option α) (hlen : l.length = 64) (hs : s < 64) (ht : t < 64)
    (hne : s ≠ t) (hp : og l s = p) (hd : og l t = d) :
    (((((l.set t x).set s none).set s q).set t d).set s p) = l := by
  apply option_list_ext _ _ (by simp [hlen]) hlen
  intro i hi
  by_cases h2 : i = s
  · subst h2
    rw [og_set_self _ _ _ (by simp [hlen]; omega), hp]
  · rw [og_set_ne _ _ _ _ (fun h => h2 h.symm)]
    by_cases h1 : i = t
    · subst h1
      rw [og_set_self _ _ _ (by simp [hlen]; omega), hd]
    · rw [og_set_ne _ _ _ _ (fun h => h1 h.symm),
        og_set_ne _ _ _ _ (fun h => h2 h.symm),
        og_set_ne _ _ _ _ (fun h => h2 h.symm),
        og_set_ne _ _ _ _ (fun h => h1 h.symm)]

theorem roundtrip_double (b : Board) (m : Move)
    (hs : b.squares.length = 64) (hc : b.colors.length = 64)
    (ok : MoveOk b m) (hf : m.flag = Flag.PawnDoublePush) :
    unmake_move (move_piece b m) m = (none, b) := by
  obtain ⟨p, hp⟩ := Option.isSome_iff_exists.mp ok.start_piece
  have hne := ok.ne
  have hslt := ok.start_lt
  have htlt := ok.target_lt
  have hsc := ok.start_color
  obtain ⟨hq1, hq2⟩ := ok.quiet (Or.inr hf)
  have hsq : (move_piece b m).squares =
      (b.squares.set m.target_square (some p)).set m.starting_square none := by
    simp [move_piece, hf, flip_squares, ucr_squares, move_piece_flag_effects,
      place_piece_for_move, placed_piece, prelude_squares, hp]
  have hco : (move_piece b m).colors =
      (b.colors.set m.target_square (some b.to_move)).set m.starting_square none := by
    simp [move_piece, hf, flip_colors, ucr_colors, move_piece_flag_effects,
      place_piece_for_move, prelude_colors, hsc]
  have htm : (move_piece b m).to_move = b.to_move.opposite_color := by
    simp [move_piece, hf, flip_to_move, ucr_to_move, move_piece_flag_effects,
      place_to_move, prelude_to_move]
  have hhist : (move_piece b m).board_state_history =
      b.board_state :: b.board_state_history := by
    simp [move_piece, hf, flip_history, ucr_history, move_piece_flag_effects,
      place_history, prelude_history]
  have hfmn : (if b.to_move = Color.Black then (move_piece b m).full_move_number - 1
      else (move_piece b m).full_move_number) = b.full_move_number := by
    have h1 : (move_piece b m) = flip_turn (place_piece_for_move (update_castling_rights
        (move_piece_flag_effects (move_piece_prelude b m) m
          b.board_state.en_passant_square) m) m) := by
      simp [move_piece, hf]
    rw [h1]
    have h2 : (place_piece_for_move (update_castling_rights
        (move_piece_flag_effects (move_piece_prelude b m) m
          b.board_state.en_passant_square) m) m).to_move = b.to_move := by
      simp [place_to_move, ucr_to_move, mpfe_to_move, prelude_to_move]
    have h3 : (place_piece_for_move (update_castling_rights
        (move_piece_flag_effects (move_piece_prelude b m) m
          b.board_state.en_passant_square) m) m).full_move_number =
        b.full_move_number := by
      simp [place_fmn, ucr_fmn, mpfe_fmn, prelude_fmn]
    rw [← h2, ← h3]
    exact flip_fmn_round _
  have e1 : og (move_piece b m).squares m.target_square = (some p) := by
    rw [hsq, og_set_ne _ _ _ _ hne, og_set_self]
    omega
  have e2 : og (move_piece b m).colors m.target_square = some b.to_move := by
    rw [hco, og_set_ne _ _ _ _ hne, og_set_self]
    omega
  rw [unmake_move, hhist]
  simp only [e1, e2]
  simp only [unmake_flag_step, hf, put_piece]
  rw [Prod.mk.injEq]
  refine ⟨rfl, ?_⟩
  rw [htm]
  simp only [opposite_opposite]
  rw [hsq, hco]
  have hsq' := set_restore b.squares m.starting_square m.target_square
    (some p) (some p) none hs hslt htlt hne hp hq1
  have hco' := set_restore b.colors m.starting_square m.target_square
    (some b.to_move) (some b.to_move) none hc hslt htlt hne hsc hq2
  split_ifs with hb
  · exact board_eq hsq' hco' rfl (by rw [← hfmn, if_pos hb]) rfl rfl
  · exact board_eq hsq' hco' rfl (by rw [← hfmn, if_neg hb]) rfl rfl

theorem roundtrip_capture (b : Board) (m : Move) (cp : Piece)
    (hs : b.squares.length = 64) (hc : b.colors.length = 64)
    (ok : MoveOk b m) (hf : m.flag = Flag.Capture cp) :
    unmake_move (move_piece b m) m = (none, b) := by
  obtain ⟨p, hp⟩ := Option.isSome_iff_exists.mp ok.start_piece
  have hne := ok.ne
  have hslt := ok.start_lt
  have htlt := ok.target_lt
  have hsc := ok.start_color
  obtain ⟨hq1, hq2⟩ := ok.cap cp hf
  have hsq : (move_piece b m).squares =
      (b.squares.set m.target_square (some p)).set m.starting_square none := by
    simp [move_piece, hf, flip_squares, ucr_squares, move_piece_flag_effects,
      place_piece_for_move, placed_piece, prelude_squares, hp]
  have hco : (move_piece b m).colors =
      (b.colors.set m.target_square (some b.to_move)).set m.starting_square none := by
    simp [move_piece, hf, flip_colors, ucr_colors, move_piece_flag_effects,
      place_piece_for_move, prelude_colors, hsc]
  have htm : (move_piece b m).to_move = b.to_move.opposite_color := by
    simp [move_piece, hf, flip_to_move, ucr_to_move, move_piece_flag_effects,
      place_to_move, prelude_to_move]
  have hhist : (move_piece b m).board_state_history =
      b.board_state :: b.board_state_history := by
    simp [move_piece, hf, flip_history, ucr_history, move_piece_flag_effects,
      place_history, prelude_history]
  have hfmn : (if b.to_move = Color.Black then (move_piece b m).full_move_number - 1
      else (move_piece b m).full_move_number) = b.full_move_number := by
    have h1 : (move_piece b m) = flip_turn (place_piece_for_move (update_castling_rights
        (move_piece_flag_effects (move_piece_prelude b m) m
          b.board_state.en_passant_square) m) m) := by
      simp [move_piece, hf]
    rw [h1]
    have h2 : (place_piece_for_move (update_castling_rights
        (move_piece_flag_effects (move_piece_prelude b m) m
          b.board_state.en_passant_square) m) m).to_move = b.to_move := by
      simp [place_to_move, ucr_to_move, mpfe_to_move, prelude_to_move]
    have h3 : (place_piece_for_move (update_castling_rights
        (move_piece_flag_effects (move_piece_prelude b m) m
          b.board_state.en_passant_square) m) m).full_move_number =
        b.full_move_number := by
      simp [place_fmn, ucr_fmn, mpfe_fmn, prelude_fmn]
    rw [← h2, ← h3]
    exact flip_fmn_round _
  have e1 : og (move_piece b m).squares m.target_square = (some p) := by
    rw [hsq, og_set_ne _ _ _ _ hne, og_set_self]
    omega
  have e2 : og (move_piece b m).colors m.target_square = some b.to_move := by
    rw [hco, og_set_ne _ _ _ _ hne, og_set_self]
    omega
  rw [unmake_move, hhist]
  simp only [e1, e2]
  simp only [unmake_flag_step, hf, put_piece]
  rw [Prod.mk.injEq]
  refine ⟨rfl, ?_⟩
  rw [htm]
  simp only [opposite_opposite]
  rw [hsq, hco]
  have hsq' := set_restore b.squares m.starting_square m.target_square
    (some p) (some p) (some cp) hs hslt htlt hne hp hq1
  have hco' := set_restore b.colors m.starting_square m.target_square
    (some b.to_move) (some b.to_move) (some b.to_move.opposite_color)
    hc hslt htlt hne hsc hq2
  split_ifs with hb
  · exact board_eq hsq' hco' rfl (by rw [← hfmn, if_pos hb]) rfl rfl
  · exact board_eq hsq' hco' rfl (by rw [← hfmn, if_neg hb]) rfl rfl

theorem roundtrip_promote (b : Board) (m : Move) (pk : Piece)
    (hs : b.squares.length = 64) (hc : b.colors.length = 64)
    (ok : MoveOk b m) (hf : m.flag = Flag.PromoteTo pk) :
    unmake_move (move_piece b m) m = (none, b) := by
  obtain ⟨p, hp⟩ := Option.isSome_iff_exists.mp ok.start_piece
  have hne := ok.ne
  have hslt := ok.start_lt
  have htlt := ok.target_lt
  have hsc := ok.start_color
  obtain ⟨hpawn, hq1, hq2⟩ := ok.promo pk hf
  have hpw : p = Piece.Pawn := by rw [hp] at hpawn; exact (Option.some_inj.mp hpawn)
  have hsq : (move_piece b m).squares =
      (b.squares.set m.target_square (some pk)).set m.starting_square none := by
    simp [move_piece, hf, flip_squares, ucr_squares, move_piece_flag_effects,
      place_piece_for_move, placed_piece, prelude_squares, hp]
  have hco : (move_piece b m).colors =
      (b.colors.set m.target_square (some b.to_move)).set m.starting_square none := by
    simp [move_piece, hf, flip_colors, ucr_colors, move_piece_flag_effects,
      place_piece_for_move, prelude_colors, hsc]
  have htm : (move_piece b m).to_move = b.to_move.opposite_color := by
    simp [move_piece, hf, flip_to_move, ucr_to_move, move_piece_flag_effects,
      place_to_move, prelude_to_move]
  have hhist : (move_piece b m).board_state_history =
      b.board_state :: b.board_state_history := by
    simp [move_piece, hf, flip_history, ucr_history, move_piece_flag_effects,
      place_history, prelude_history]
  have hfmn : (if b.to_move = Color.Black then (move_piece b m).full_move_number - 1
      else (move_piece b m).full_move_number) = b.full_move_number := by
    have h1 : (move_piece b m) = flip_turn (place_piece_for_move (update_castling_rights
        (move_piece_flag_effects (move_piece_prelude b m) m
          b.board_state.en_passant_square) m) m) := by
      simp [move_piece, hf]
    rw [h1]
    have h2 : (place_piece_for_move (update_castling_rights
        (move_piece_flag_effects (move_piece_prelude b m) m
          b.board_state.en_passant_square) m) m).to_move = b.to_move := by
      simp [place_to_move, ucr_to_move, mpfe_to_move, prelude_to_move]
    have h3 : (place_piece_for_move (update_castling_rights
        (move_piece_flag_effects (move_piece_prelude b m) m
          b.board_state.en_passant_square) m) m).full_move_number =
        b.full_move_number := by
      simp [place_fmn, ucr_fmn, mpfe_fmn, prelude_fmn]
    rw [← h2, ← h3]
    exact flip_fmn_round _
  have e1 : og (move_piece b m).squares m.target_square = (some pk) := by
    rw [hsq, og_set_ne _ _ _ _ hne, og_set_self]
    omega
  have e2 : og (move_piece b m).colors m.target_square = some b.to_move := by
    rw [hco, og_set_ne _ _ _ _ hne, og_set_self]
    omega
  rw [unmake_move, hhist]
  simp only [e1, e2]
  simp only [unmake_flag_step, hf, put_piece]
  rw [Prod.mk.injEq]
  refine ⟨rfl, ?_⟩
  rw [htm]
  simp only [opposite_opposite]
  rw [hsq, hco]
  have hsq' := set_restore5 b.squares m.starting_square m.target_square
    (some pk) (some pk) (some Piece.Pawn) none hs hslt htlt hne hpawn hq1
  have hco' := set_restore5 b.colors m.starting_square m.target_square
    (some b.to_move) (some b.to_move) (some b.to_move) none hc hslt htlt hne hsc hq2
  split_ifs with hb
  · exact board_eq hsq' hco' rfl (by rw [← hfmn, if_pos hb]) rfl rfl
  · exact board_eq hsq' hco' rfl (by rw [← hfmn, if_neg hb]) rfl rfl

theorem roundtrip_cappromo (b : Board) (m : Move) (cp pk : Piece)
    (hs : b.squares.length = 64) (hc : b.colors.length = 64)
    (ok : MoveOk b m) (hf : m.flag = Flag.CaptureWithPromotion cp pk) :
    unmake_move (move_piece b m) m = (none, b) := by
  obtain ⟨p, hp⟩ := Option.isSome_iff_exists.mp ok.start_piece
  have hne := ok.ne
  have hslt := ok.start_lt
  have htlt := ok.target_lt
  have hsc := ok.start_color
  obtain ⟨hpawn, hq1, hq2⟩ := ok.cappromo cp pk hf
  have hsq : (move_piece b m).squares =
      (b.squares.set m.target_square (some pk)).set m.starting_square none := by
    simp [move_piece, hf, flip_squares, ucr_squares, move_piece_flag_effects,
      place_piece_for_move, placed_piece, prelude_squares, hp]
  have hco : (move_piece b m).colors =
      (b.colors.set m.target_square (some b.to_move)).set m.starting_square none := by
    simp [move_piece, hf, flip_colors, ucr_colors, move_piece_flag_effects,
      place_piece_for_move, prelude_colors, hsc]
  have htm : (move_piece b m).to_move = b.to_move.opposite_color := by
    simp [move_piece, hf, flip_to_move, ucr_to_move, move_piece_flag_effects,
      place_to_move, prelude_to_move]
  have hhist : (move_piece b m).board_state_history =
      b.board_state :: b.board_state_history := by
    simp [move_piece, hf, flip_history, ucr_history, move_piece_flag_effects,
      place_history, prelude_history]
  have hfmn : (if b.to_move = Color.Black then (move_piece b m).full_move_number - 1
      else (move_piece b m).full_move_number) = b.full_move_number := by
    have h1 : (move_piece b m) = flip_turn (place_piece_for_move (update_castling_rights
        (move_piece_flag_effects (move_piece_prelude b m) m
          b.board_state.en_passant_square) m) m) := by
      simp [move_piece, hf]
    rw [h1]
    have h2 : (place_piece_for_move (update_castling_rights
        (move_piece_flag_effects (move_piece_prelude b m) m
          b.board_state.en_passant_square) m) m).to_move = b.to_move := by
      simp [place_to_move, ucr_to_move, mpfe_to_move, prelude_to_move]
    have h3 : (place_piece_for_move (update_castling_rights
        (move_piece_flag_effects (move_piece_prelude b m) m
          b.board_state.en_passant_square) m) m).full_move_number =
        b.full_move_number := by
      simp [place_fmn, ucr_fmn, mpfe_fmn, prelude_fmn]
    rw [← h2, ← h3]
    exact flip_fmn_round _
  have e1 : og (move_piece b m).squares m.target_square = (some pk) := by
    rw [hsq, og_set_ne _ _ _ _ hne, og_set_self]
    omega
  have e2 : og (move_piece b m).colors m.target_square = some b.to_move := by
    rw [hco, og_set_ne _ _ _ _ hne, og_set_self]
    omega
  rw [unmake_move, hhist]
  simp only [e1, e2]
  simp only [unmake_flag_step, hf, put_piece]
  rw [Prod.mk.injEq]
  refine ⟨rfl, ?_⟩
  rw [htm]
  simp only [opposite_opposite]
  rw [hsq, hco]
  have hsq' := set_restore5b b.squares m.starting_square m.target_square
    (some pk) (some pk) (some Piece.Pawn) (some cp) hs hslt htlt hne hpawn hq1
  have hco' := set_restore5b b.colors m.starting_square m.target_square
    (some b.to_move) (some b.to_move) (some b.to_move)
    (some b.to_move.opposite_color) hc hslt htlt hne hsc hq2
  split_ifs with hb
  · exact board_eq hsq' hco' rfl (by rw [← hfmn, if_pos hb]) rfl rfl
  · exact board_eq hsq' hco' rfl (by rw [← hfmn, if_neg hb]) rfl rfl


theorem set_restore_ep {α : Type} (l : List (Option α)) (s t cap : Nat)
    (x y q c d p : Option α) (hlen : l.length = 64)
    (hs : s < 64) (ht : t < 64) (hcaplt : cap < 64)
    (hst : s ≠ t) (hcs : cap ≠ s) (hct : cap ≠ t)
    (hp : og l s = p) (hd : og l t = d) (hc : og l cap = c) :
    (((((((l.set cap x).set t y).set s none).set s q).set cap c).set t d).set s p)
      = l := by
  apply option_list_ext _ _ (by simp [hlen]) hlen
  intro i hi
  by_cases h1 : i = s
  · subst h1
    rw [og_set_self _ _ _ (by simp [hlen]; omega), hp]
  · rw [og_set_ne _ _ _ _ (fun h => h1 h.symm)]
    by_cases h2 : i = t
    · subst h2
      rw [og_set_self _ _ _ (by simp [hlen]; omega), hd]
    · rw [og_set_ne _ _ _ _ (fun h => h2 h.symm)]
      by_cases h3 : i = cap
      · subst h3
        rw [og_set_self _ _ _ (by simp [hlen]; omega), hc]
      · rw [og_set_ne _ _ _ _ (fun h => h3 h.symm),
          og_set_ne _ _ _ _ (fun h => h1 h.symm),
          og_set_ne _ _ _ _ (fun h => h1 h.symm),
          og_set_ne _ _ _ _ (fun h => h2 h.symm),
          og_set_ne _ _ _ _ (fun h => h3 h.symm)]

theorem roundtrip_ep (b : Board) (m : Move)
    (hs : b.squares.length = 64) (hc : b.colors.length = 64)
    (ok : MoveOk b m) (hf : m.flag = Flag.EnPassantCapture) :
    unmake_move (move_piece b m) m = (none, b) := by
  have hne := ok.ne
  have hslt := ok.start_lt
  have htlt := ok.target_lt
  have hsc := ok.start_color
  obtain ⟨hpawn, hep, ht1, ht2, h8le, hcaplt, hcapne_s, hcapne_t, hcap_sq, hcap_co⟩ :=
    ok.ep hf
  simp only [ep_captured_index] at hcaplt hcapne_s hcapne_t hcap_sq hcap_co
  have hplaced : og (b.squares.set
      (if b.to_move = Color.White then m.target_square - 8 else m.target_square + 8)
      none) m.starting_square = some Piece.Pawn := by
    rw [og_set_ne _ _ _ _ hcapne_s, hpawn]
  have hplacedc : og (b.colors.set
      (if b.to_move = Color.White then m.target_square - 8 else m.target_square + 8)
      none) m.starting_square = some b.to_move := by
    rw [og_set_ne _ _ _ _ hcapne_s, hsc]
  have hsq : (move_piece b m).squares =
      ((b.squares.set
        (if b.to_move = Color.White then m.target_square - 8 else m.target_square + 8)
        none).set m.target_square (some Piece.Pawn)).set m.starting_square none := by
    simp [move_piece, hf, flip_squares, ucr_squares, move_piece_flag_effects,
      place_piece_for_move, placed_piece, prelude_squares, prelude_colors, hsc,
      unwrap_color, hep, hplaced]
  have hco : (move_piece b m).colors =
      ((b.colors.set
        (if b.to_move = Color.White then m.target_square - 8 else m.target_square + 8)
        none).set m.target_square (some b.to_move)).set m.starting_square none := by
    simp [move_piece, hf, flip_colors, ucr_colors, move_piece_flag_effects,
      place_piece_for_move, prelude_colors, hsc, unwrap_color, hep, hplacedc]
  have htm : (move_piece b m).to_move = b.to_move.opposite_color := by
    simp [move_piece, hf, flip_to_move, ucr_to_move, move_piece_flag_effects,
      place_to_move, prelude_to_move]
  have hhist : (move_piece b m).board_state_history =
      b.board_state :: b.board_state_history := by
    simp [move_piece, hf, flip_history, ucr_history, move_piece_flag_effects,
      place_history, prelude_history]
  have hfmn : (if b.to_move = Color.Black then (move_piece b m).full_move_number - 1
      else (move_piece b m).full_move_number) = b.full_move_number := by
    have h1 : (move_piece b m) = flip_turn (place_piece_for_move (update_castling_rights
        (move_piece_flag_effects (move_piece_prelude b m) m
          b.board_state.en_passant_square) m) m) := by
      simp [move_piece, hf]
    rw [h1]
    have h2 : (place_piece_for_move (update_castling_rights
        (move_piece_flag_effects (move_piece_prelude b m) m
          b.board_state.en_passant_square) m) m).to_move = b.to_move := by
      simp [place_to_move, ucr_to_move, mpfe_to_move, prelude_to_move]
    have h3 : (place_piece_for_move (update_castling_rights
        (move_piece_flag_effects (move_piece_prelude b m) m
          b.board_state.en_passant_square) m) m).full_move_number =
        b.full_move_number := by
      simp [place_fmn, ucr_fmn, mpfe_fmn, prelude_fmn]
    rw [← h2, ← h3]
    exact flip_fmn_round _
  have e1 : og (move_piece b m).squares m.target_square = some Piece.Pawn := by
    rw [hsq, og_set_ne _ _ _ _ hne, og_set_self]
    simp [hc, hs]
    omega
  have e2 : og (move_piece b m).colors m.target_square = some b.to_move := by
    rw [hco, og_set_ne _ _ _ _ hne, og_set_self]
    simp [hc, hs]
    omega
  rw [unmake_move, hhist]
  simp only [e1, e2]
  simp only [unmake_flag_step, hf, put_piece]
  rw [Prod.mk.injEq]
  refine ⟨rfl, ?_⟩
  rw [htm]
  simp only [opposite_opposite]
  rw [hsq, hco]
  have hsq' := set_restore_ep b.squares m.starting_square m.target_square
    (if b.to_move = Color.White then m.target_square - 8 else m.target_square + 8)
    none (some Piece.Pawn) (some Piece.Pawn) (some Piece.Pawn) none
    (some Piece.Pawn) hs hslt htlt hcaplt hne hcapne_s hcapne_t hpawn ht1 hcap_sq
  have hco' := set_restore_ep b.colors m.starting_square m.target_square
    (if b.to_move = Color.White then m.target_square - 8 else m.target_square + 8)
    none (some b.to_move) (some b.to_move) (some b.to_move.opposite_color) none
    (some b.to_move) hc hslt htlt hcaplt hne hcapne_s hcapne_t hsc ht2 hcap_co
  by_cases hw : b.to_move = Color.White
  · have hnb : b.to_move ≠ Color.Black := by rw [hw]; decide
    simp only [if_pos hw] at hsq' hco' ⊢
    rw [if_neg hnb]
    exact board_eq hsq' hco' rfl (by rw [← hfmn, if_neg hnb]) rfl rfl
  · have hb : b.to_move = Color.Black := by
      cases hx : b.to_move
      · exact absurd hx hw
      · rfl
    simp only [if_neg hw] at hsq' hco' ⊢
    rw [if_pos hb]
    exact board_eq hsq' hco' rfl (by rw [← hfmn, if_pos hb]) rfl rfl


theorem set_restore_castle_ks {α : Type} (l : List (Option α)) (kT kH rM rH : Nat)
    (x y q K R : Option α) (hlen : l.length = 64)
    (h1 : kT < 64) (h2 : kH < 64) (h3 : rM < 64) (h4 : rH < 64)
    (n1 : kT ≠ kH) (n2 : kT ≠ rM) (n3 : kT ≠ rH)
    (n4 : kH ≠ rM) (n5 : kH ≠ rH) (n6 : rM ≠ rH)
    (hK : og l kH = K) (hR : og l rH = R)
    (hM : og l rM = none) (hT : og l kT = none) :
    (((((((((l.set kT x).set kH none).set rM y).set rH none).set kH q).set rH
        R).set kH K).set rM none).set kT none) = l := by
  apply option_list_ext _ _ (by simp [hlen]) hlen
  intro i hi
  by_cases e1 : i = kT
  · subst e1
    rw [og_set_self _ _ _ (by simp [hlen]; omega), hT]
  · rw [og_set_ne _ _ _ _ (fun h => e1 h.symm)]
    by_cases e2 : i = rM
    · subst e2
      rw [og_set_self _ _ _ (by simp [hlen]; omega), hM]
    · rw [og_set_ne _ _ _ _ (fun h => e2 h.symm)]
      by_cases e3 : i = kH
      · subst e3
        rw [og_set_self _ _ _ (by simp [hlen]; omega), hK]
      · rw [og_set_ne _ _ _ _ (fun h => e3 h.symm)]
        by_cases e4 : i = rH
        · subst e4
          rw [og_set_self _ _ _ (by simp [hlen]; omega), hR]
        · rw [og_set_ne _ _ _ _ (fun h => e4 h.symm),
            og_set_ne _ _ _ _ (fun h => e3 h.symm),
            og_set_ne _ _ _ _ (fun h => e4 h.symm),
            og_set_ne _ _ _ _ (fun h => e2 h.symm),
            og_set_ne _ _ _ _ (fun h => e3 h.symm),
            og_set_ne _ _ _ _ (fun h => e1 h.symm)]

theorem set_restore_castle_qs {α : Type} (l : List (Option α)) (kT kH rM rH : Nat)
    (x y q K R : Option α) (hlen : l.length = 64)
    (h1 : kT < 64) (h2 : kH < 64) (h3 : rM < 64) (h4 : rH < 64)
    (n1 : kT ≠ kH) (n2 : kT ≠ rM) (n3 : kT ≠ rH)
    (n4 : kH ≠ rM) (n5 : kH ≠ rH) (n6 : rM ≠ rH)
    (hK : og l kH = K) (hR : og l rH = R)
    (hM : og l rM = none) (hT : og l kT = none) :
    (((((((((l.set kT x).set kH none).set rM y).set rH none).set kH q).set rH
        R).set kH K).set kT none).set rM none) = l := by
  apply option_list_ext _ _ (by simp [hlen]) hlen
  intro i hi
  by_cases e2 : i = rM
  · subst e2
    rw [og_set_self _ _ _ (by simp [hlen]; omega), hM]
  · rw [og_set_ne _ _ _ _ (fun h => e2 h.symm)]
    by_cases e1 : i = kT
    · subst e1
      rw [og_set_self _ _ _ (by simp [hlen]; omega), hT]
    · rw [og_set_ne _ _ _ _ (fun h => e1 h.symm)]
      by_cases e3 : i = kH
      · subst e3
        rw [og_set_self _ _ _ (by simp [hlen]; omega), hK]
      · rw [og_set_ne _ _ _ _ (fun h => e3 h.symm)]
        by_cases e4 : i = rH
        · subst e4
          rw [og_set_self _ _ _ (by simp [hlen]; omega), hR]
        · rw [og_set_ne _ _ _ _ (fun h => e4 h.symm),
            og_set_ne _ _ _ _ (fun h => e3 h.symm),
            og_set_ne _ _ _ _ (fun h => e4 h.symm),
            og_set_ne _ _ _ _ (fun h => e2 h.symm),
            og_set_ne _ _ _ _ (fun h => e3 h.symm),
            og_set_ne _ _ _ _ (fun h => e1 h.symm)]

theorem mkc_to_move (x : Board) (m : Move) :
    (make_kingside_castling_move x m).to_move = x.to_move.opposite_color := by
  by_cases hx : x.to_move = Color.White <;>
    simp [make_kingside_castling_move, hx, flip_to_move]

theorem mkc_history (x : Board) (m : Move) :
    (make_kingside_castling_move x m).board_state_history =
      x.board_state_history := by
  by_cases hx : x.to_move = Color.White <;>
    simp [make_kingside_castling_move, hx, flip_history]

theorem mkc_fmn_round (x : Board) (m : Move) :
    (if x.to_move = Color.Black then (make_kingside_castling_move x m).full_move_number - 1
     else (make_kingside_castling_move x m).full_move_number) = x.full_move_number := by
  cases hx : x.to_move <;> simp [make_kingside_castling_move, hx, flip_turn]

theorem mkq_to_move (x : Board) (m : Move) :
    (make_queenside_castling_move x m).to_move = x.to_move.opposite_color := by
  by_cases hx : x.to_move = Color.White <;>
    simp [make_queenside_castling_move, hx, flip_to_move]

theorem mkq_history (x : Board) (m : Move) :
    (make_queenside_castling_move x m).board_state_history =
      x.board_state_history := by
  by_cases hx : x.to_move = Color.White <;>
    simp [make_queenside_castling_move, hx, flip_history]

theorem mkq_fmn_round (x : Board) (m : Move) :
    (if x.to_move = Color.Black then (make_queenside_castling_move x m).full_move_number - 1
     else (make_queenside_castling_move x m).full_move_number) = x.full_move_number := by
  cases hx : x.to_move <;> simp [make_queenside_castling_move, hx, flip_turn]


theorem roundtrip_ks (b : Board) (m : Move)
    (hs : b.squares.length = 64) (hc : b.colors.length = 64)
    (ok : MoveOk b m) (hf : m.flag = Flag.KingsideCastle) :
    unmake_move (move_piece b m) m = (none, b) := by
  have hks := ok.ks hf
  have htm : (move_piece b m).to_move = b.to_move.opposite_color := by
    simp [move_piece, hf, mkc_to_move, prelude_to_move]
  have hhist : (move_piece b m).board_state_history =
      b.board_state :: b.board_state_history := by
    simp [move_piece, hf, mkc_history, prelude_history]
  have hfmn : (if b.to_move = Color.Black then (move_piece b m).full_move_number - 1
      else (move_piece b m).full_move_number) = b.full_move_number := by
    have h1 : move_piece b m = make_kingside_castling_move (move_piece_prelude b m) m := by
      simp [move_piece, hf]
    rw [h1, ← prelude_to_move b m, ← prelude_fmn b m]
    exact mkc_fmn_round _ _
  by_cases hw : b.to_move = Color.White
  · simp only [CastleOk, hw, if_true, if_false, reduceIte] at hks
    obtain ⟨hS, hT, k3, k4, r5, r6, e5s, e5c, e6s, e6c⟩ := hks
    have hrks : og ((b.squares.set 6 (some Piece.King)).set 4 none) 7 =
        some Piece.Rook := by
      rw [og_set_ne _ _ _ _ (by decide), og_set_ne _ _ _ _ (by decide), r5]
    have hrkc : og ((b.colors.set 6 (some Color.White)).set 4 none) 7 =
        some Color.White := by
      rw [og_set_ne _ _ _ _ (by decide), og_set_ne _ _ _ _ (by decide), r6]
    have hsq : (move_piece b m).squares =
        (((b.squares.set 6 (some Piece.King)).set 4 none).set 5
          (some Piece.Rook)).set 7 none := by
      simp [move_piece, hf, make_kingside_castling_move, prelude_squares, prelude_colors,
        prelude_to_move, hw, flip_squares, hS, k3, k4, hrks]
    have hco : (move_piece b m).colors =
        (((b.colors.set 6 (some Color.White)).set 4 none).set 5
          (some Color.White)).set 7 none := by
      simp [move_piece, hf, make_kingside_castling_move, prelude_squares, prelude_colors,
        prelude_to_move, hw, flip_colors, hS, k3, k4, hrkc]
    have e1 : og (move_piece b m).squares m.target_square = some Piece.King := by
      rw [hsq, hT, og_set_ne _ _ _ _ (by decide), og_set_ne _ _ _ _ (by decide),
        og_set_ne _ _ _ _ (by decide), og_set_self _ _ _ (by simp [hs])]
    have e2 : og (move_piece b m).colors m.target_square = some Color.White := by
      rw [hco, hT, og_set_ne _ _ _ _ (by decide), og_set_ne _ _ _ _ (by decide),
        og_set_ne _ _ _ _ (by decide), og_set_self _ _ _ (by simp [hc])]
    rw [unmake_move, hhist]
    simp only [e1, e2]
    simp only [unmake_flag_step, hf, put_piece]
    rw [htm]
    simp only [opposite_opposite, hw, reduceIte]
    rw [Prod.mk.injEq]
    refine ⟨rfl, ?_⟩
    rw [hsq, hco, hS]
    rw [if_neg (by decide : ¬(Color.White = Color.Black))]
    refine board_eq ?_ ?_ hw.symm ?_ rfl rfl
    · exact set_restore_castle_ks b.squares 6 4 5 7 (some Piece.King)
        (some Piece.Rook) (some Piece.King) (some Piece.King) (some Piece.Rook)
        hs (by decide) (by decide) (by decide) (by decide) (by decide) (by decide)
        (by decide) (by decide) (by decide) (by decide) k3 r5 e5s e6s
    · exact set_restore_castle_ks b.colors 6 4 5 7 (some Color.White)
        (some Color.White) (some Color.White) (some Color.White) (some Color.White)
        hc (by decide) (by decide) (by decide) (by decide) (by decide) (by decide)
        (by decide) (by decide) (by decide) (by decide) k4 r6 e5c e6c
    · have h5 := hfmn
      rw [hw, if_neg (by decide : ¬(Color.White = Color.Black))] at h5
      exact h5
  · have hb : b.to_move = Color.Black := by
      cases hx : b.to_move
      · exact absurd hx hw
      · rfl
    simp only [CastleOk, hb, if_true, if_false, reduceIte] at hks
    obtain ⟨hS, hT, k3, k4, r5, r6, e5s, e5c, e6s, e6c⟩ := hks
    have hrks : og ((b.squares.set 62 (some Piece.King)).set 60 none) 63 =
        some Piece.Rook := by
      rw [og_set_ne _ _ _ _ (by decide), og_set_ne _ _ _ _ (by decide), r5]
    have hrkc : og ((b.colors.set 62 (some Color.Black)).set 60 none) 63 =
        some Color.Black := by
      rw [og_set_ne _ _ _ _ (by decide), og_set_ne _ _ _ _ (by decide), r6]
    have hsq : (move_piece b m).squares =
        (((b.squares.set 62 (some Piece.King)).set 60 none).set 61
          (some Piece.Rook)).set 63 none := by
      simp [move_piece, hf, make_kingside_castling_move, prelude_squares, prelude_colors,
        prelude_to_move, hb, flip_squares, hS, k3, k4, hrks]
    have hco : (move_piece b m).colors =
        (((b.colors.set 62 (some Color.Black)).set 60 none).set 61
          (some Color.Black)).set 63 none := by
      simp [move_piece, hf, make_kingside_castling_move, prelude_squares, prelude_colors,
        prelude_to_move, hb, flip_colors, hS, k3, k4, hrkc]
    have e1 : og (move_piece b m).squares m.target_square = some Piece.King := by
      rw [hsq, hT, og_set_ne _ _ _ _ (by decide), og_set_ne _ _ _ _ (by decide),
        og_set_ne _ _ _ _ (by decide), og_set_self _ _ _ (by simp [hs])]
    have e2 : og (move_piece b m).colors m.target_square = some Color.Black := by
      rw [hco, hT, og_set_ne _ _ _ _ (by decide), og_set_ne _ _ _ _ (by decide),
        og_set_ne _ _ _ _ (by decide), og_set_self _ _ _ (by simp [hc])]
    rw [unmake_move, hhist]
    simp only [e1, e2]
    simp only [unmake_flag_step, hf, put_piece]
    rw [htm]
    simp only [opposite_opposite, hb, reduceIte]
    rw [if_neg (by decide : ¬(Color.Black = Color.White))]
    rw [Prod.mk.injEq]
    refine ⟨rfl, ?_⟩
    rw [hsq, hco, hS]
    rw [if_pos (rfl : Color.Black = Color.Black)]
    refine board_eq ?_ ?_ hb.symm ?_ rfl rfl
    · exact set_restore_castle_ks b.squares 62 60 61 63 (some Piece.King)
        (some Piece.Rook) (some Piece.King) (some Piece.King) (some Piece.Rook)
        hs (by decide) (by decide) (by decide) (by decide) (by decide) (by decide)
        (by decide) (by decide) (by decide) (by decide) k3 r5 e5s e6s
    · exact set_restore_castle_ks b.colors 62 60 61 63 (some Color.Black)
        (some Color.Black) (some Color.Black) (some Color.Black) (some Color.Black)
        hc (by decide) (by decide) (by decide) (by decide) (by decide) (by decide)
        (by decide) (by decide) (by decide) (by decide) k4 r6 e5c e6c
    · have h5 := hfmn
      rw [hb, if_pos (rfl : Color.Black = Color.Black)] at h5
      exact h5

theorem roundtrip_qs (b : Board) (m : Move)
    (hs : b.squares.length = 64) (hc : b.colors.length = 64)
    (ok : MoveOk b m) (hf : m.flag = Flag.QueensideCastle) :
    unmake_move (move_piece b m) m = (none, b) := by
  have hks := ok.qs hf
  have htm : (move_piece b m).to_move = b.to_move.opposite_color := by
    simp [move_piece, hf, mkq_to_move, prelude_to_move]
  have hhist : (move_piece b m).board_state_history =
      b.board_state :: b.board_state_history := by
    simp [move_piece, hf, mkq_history, prelude_history]
  have hfmn : (if b.to_move = Color.Black then (move_piece b m).full_move_number - 1
      else (move_piece b m).full_move_number) = b.full_move_number := by
    have h1 : move_piece b m = make_queenside_castling_move (move_piece_prelude b m) m := by
      simp [move_piece, hf]
    rw [h1, ← prelude_to_move b m, ← prelude_fmn b m]
    exact mkq_fmn_round _ _
  by_cases hw : b.to_move = Color.White
  · simp only [CastleOk, hw, if_true, if_false, reduceIte] at hks
    obtain ⟨hS, hT, k3, k4, r5, r6, e5s, e5c, e6s, e6c⟩ := hks
    have hrks : og ((b.squares.set 2 (some Piece.King)).set 4 none) 0 =
        some Piece.Rook := by
      rw [og_set_ne _ _ _ _ (by decide), og_set_ne _ _ _ _ (by decide), r5]
    have hrkc : og ((b.colors.set 2 (some Color.White)).set 4 none) 0 =
        some Color.White := by
      rw [og_set_ne _ _ _ _ (by decide), og_set_ne _ _ _ _ (by decide), r6]
    have hsq : (move_piece b m).squares =
        (((b.squares.set 2 (some Piece.King)).set 4 none).set 3
          (some Piece.Rook)).set 0 none := by
      simp [move_piece, hf, make_queenside_castling_move, prelude_squares, prelude_colors,
        prelude_to_move, hw, flip_squares, hS, k3, k4, hrks]
    have hco : (move_piece b m).colors =
        (((b.colors.set 2 (some Color.White)).set 4 none).set 3
          (some Color.White)).set 0 none := by
      simp [move_piece, hf, make_queenside_castling_move, prelude_squares, prelude_colors,
        prelude_to_move, hw, flip_colors, hS, k3, k4, hrkc]
    have e1 : og (move_piece b m).squares m.target_square = some Piece.King := by
      rw [hsq, hT, og_set_ne _ _ _ _ (by decide), og_set_ne _ _ _ _ (by decide),
        og_set_ne _ _ _ _ (by decide), og_set_self _ _ _ (by simp [hs])]
    have e2 : og (move_piece b m).colors m.target_square = some Color.White := by
      rw [hco, hT, og_set_ne _ _ _ _ (by decide), og_set_ne _ _ _ _ (by decide),
        og_set_ne _ _ _ _ (by decide), og_set_self _ _ _ (by simp [hc])]
    rw [unmake_move, hhist]
    simp only [e1, e2]
    simp only [unmake_flag_step, hf, put_piece]
    rw [htm]
    simp only [opposite_opposite, hw, reduceIte]
    rw [Prod.mk.injEq]
    refine ⟨rfl, ?_⟩
    rw [hsq, hco, hS]
    rw [if_neg (by decide : ¬(Color.White = Color.Black))]
    refine board_eq ?_ ?_ hw.symm ?_ rfl rfl
    · exact set_restore_castle_qs b.squares 2 4 3 0 (some Piece.King)
        (some Piece.Rook) (some Piece.King) (some Piece.King) (some Piece.Rook)
        hs (by decide) (by decide) (by decide) (by decide) (by decide) (by decide)
        (by decide) (by decide) (by decide) (by decide) k3 r5 e6s e5s
    · exact set_restore_castle_qs b.colors 2 4 3 0 (some Color.White)
        (some Color.White) (some Color.White) (some Color.White) (some Color.White)
        hc (by decide) (by decide) (by decide) (by decide) (by decide) (by decide)
        (by decide) (by decide) (by decide) (by decide) k4 r6 e6c e5c
    · have h5 := hfmn
      rw [hw, if_neg (by decide : ¬(Color.White = Color.Black))] at h5
      exact h5
  · have hb : b.to_move = Color.Black := by
      cases hx : b.to_move
      · exact absurd hx hw
      · rfl
    simp only [CastleOk, hb, if_true, if_false, reduceIte] at hks
    obtain ⟨hS, hT, k3, k4, r5, r6, e5s, e5c, e6s, e6c⟩ := hks
    have hrks : og ((b.squares.set 58 (some Piece.King)).set 60 none) 56 =
        some Piece.Rook := by
      rw [og_set_ne _ _ _ _ (by decide), og_set_ne _ _ _ _ (by decide), r5]
    have hrkc : og ((b.colors.set 58 (some Color.Black)).set 60 none) 56 =
        some Color.Black := by
      rw [og_set_ne _ _ _ _ (by decide), og_set_ne _ _ _ _ (by decide), r6]
    have hsq : (move_piece b m).squares =
        (((b.squares.set 58 (some Piece.King)).set 60 none).set 59
          (some Piece.Rook)).set 56 none := by
      simp [move_piece, hf, make_queenside_castling_move, prelude_squares, prelude_colors,
        prelude_to_move, hb, flip_squares, hS, k3, k4, hrks]
    have hco : (move_piece b m).colors =
        (((b.colors.set 58 (some Color.Black)).set 60 none).set 59
          (some Color.Black)).set 56 none := by
      simp [move_piece, hf, make_queenside_castling_move, prelude_squares, prelude_colors,
        prelude_to_move, hb, flip_colors, hS, k3, k4, hrkc]
    have e1 : og (move_piece b m).squares m.target_square = some Piece.King := by
      rw [hsq, hT, og_set_ne _ _ _ _ (by decide), og_set_ne _ _ _ _ (by decide),
        og_set_ne _ _ _ _ (by decide), og_set_self _ _ _ (by simp [hs])]
    have e2 : og (move_piece b m).colors m.target_square = some Color.Black := by
      rw [hco, hT, og_set_ne _ _ _ _ (by decide), og_set_ne _ _ _ _ (by decide),
        og_set_ne _ _ _ _ (by decide), og_set_self _ _ _ (by simp [hc])]
    rw [unmake_move, hhist]
    simp only [e1, e2]
    simp only [unmake_flag_step, hf, put_piece]
    rw [htm]
    simp only [opposite_opposite, hb, reduceIte]
    rw [if_neg (by decide : ¬(Color.Black = Color.White))]
    rw [Prod.mk.injEq]
    refine ⟨rfl, ?_⟩
    rw [hsq, hco, hS]
    rw [if_pos (rfl : Color.Black = Color.Black)]
    refine board_eq ?_ ?_ hb.symm ?_ rfl rfl
    · exact set_restore_castle_qs b.squares 58 60 59 56 (some Piece.King)
        (some Piece.Rook) (some Piece.King) (some Piece.King) (some Piece.Rook)
        hs (by decide) (by decide) (by decide) (by decide) (by decide) (by decide)
        (by decide) (by decide) (by decide) (by decide) k3 r5 e6s e5s
    · exact set_restore_castle_qs b.colors 58 60 59 56 (some Color.Black)
        (some Color.Black) (some Color.Black) (some Color.Black) (some Color.Black)
        hc (by decide) (by decide) (by decide) (by decide) (by decide) (by decide)
        (by decide) (by decide) (by decide) (by decide) k4 r6 e6c e5c
    · have h5 := hfmn
      rw [hb, if_pos (rfl : Color.Black = Color.Black)] at h5
      exact h5


/-- The make/unmake round trip: unmaking a just-made move succeeds and
restores the board exactly, for every move satisfying `MoveOk`. -/
theorem move_unmake_roundtrip (b : Board) (m : Move)
    (hs : b.squares.length = 64) (hc : b.colors.length = 64)
    (ok : MoveOk b m) : unmake_move (move_piece b m) m = (none, b) := by
  cases hf : m.flag with
  | None => exact roundtrip_none b m hs hc ok hf
  | KingsideCastle => exact roundtrip_ks b m hs hc ok hf
  | QueensideCastle => exact roundtrip_qs b m hs hc ok hf
  | PawnDoublePush => exact roundtrip_double b m hs hc ok hf
  | EnPassantCapture => exact roundtrip_ep b m hs hc ok hf
  | PromoteTo pk => exact roundtrip_promote b m pk hs hc ok hf
  | Capture cp => exact roundtrip_capture b m cp hs hc ok hf
  | CaptureWithPromotion cp pk => exact roundtrip_cappromo b m cp pk hs hc ok hf


/-! ### From pseudo-legal generation to `MoveOk` -/

theorem moveok_quiet (b : Board) (s t : Nat) (hs : s < 64) (ht : t < 64)
    (hne : s ≠ t) (hco : og b.colors s = some b.to_move)
    (hp : (og b.squares s).isSome)
    (hts : og b.squares t = none) (htc : og b.colors t = none) :
    MoveOk b ⟨s, t, Flag.None⟩ := by
  refine ⟨hs, ht, hne, hco, hp, fun _ => ⟨hts, htc⟩, ?_, ?_, ?_, ?_, ?_, ?_⟩ <;>
    intro a
  · intro h; cases h
  · intro h; cases h
  · intro c h; cases h
  · cases a
  · cases a
  · cases a

theorem moveok_double (b : Board) (s t : Nat) (hs : s < 64) (ht : t < 64)
    (hne : s ≠ t) (hco : og b.colors s = some b.to_move)
    (hp : (og b.squares s).isSome)
    (hts : og b.squares t = none) (htc : og b.colors t = none) :
    MoveOk b ⟨s, t, Flag.PawnDoublePush⟩ := by
  refine ⟨hs, ht, hne, hco, hp, fun _ => ⟨hts, htc⟩, ?_, ?_, ?_, ?_, ?_, ?_⟩ <;>
    intro a
  · intro h; cases h
  · intro h; cases h
  · intro c h; cases h
  · cases a
  · cases a
  · cases a

theorem moveok_capture (b : Board) (s t : Nat) (k : Piece) (hs : s < 64)
    (ht : t < 64) (hne : s ≠ t) (hco : og b.colors s = some b.to_move)
    (hp : (og b.squares s).isSome)
    (hts : og b.squares t = some k)
    (htc : og b.colors t = some b.to_move.opposite_color) :
    MoveOk b ⟨s, t, Flag.Capture k⟩ := by
  refine ⟨hs, ht, hne, hco, hp, ?_, ?_, ?_, ?_, ?_, ?_, ?_⟩
  · intro h; rcases h with h | h <;> cases h
  · intro p h
    cases h
    exact ⟨hts, htc⟩
  · intro p h; cases h
  · intro cp pp h; cases h
  · intro h; cases h
  · intro h; cases h
  · intro h; cases h

theorem moveok_promo (b : Board) (s t : Nat) (pk : Piece) (hs : s < 64)
    (ht : t < 64) (hne : s ≠ t) (hco : og b.colors s = some b.to_move)
    (hpw : og b.squares s = some Piece.Pawn)
    (hts : og b.squares t = none) (htc : og b.colors t = none) :
    MoveOk b ⟨s, t, Flag.PromoteTo pk⟩ := by
  refine ⟨hs, ht, hne, hco, by simp [hpw], ?_, ?_, ?_, ?_, ?_, ?_, ?_⟩
  · intro h; rcases h with h | h <;> cases h
  · intro p h; cases h
  · intro p h
    cases h
    exact ⟨hpw, hts, htc⟩
  · intro cp pp h; cases h
  · intro h; cases h
  · intro h; cases h
  · intro h; cases h

theorem moveok_cappromo (b : Board) (s t : Nat) (k pk : Piece) (hs : s < 64)
    (ht : t < 64) (hne : s ≠ t) (hco : og b.colors s = some b.to_move)
    (hpw : og b.squares s = some Piece.Pawn)
    (hts : og b.squares t = some k)
    (htc : og b.colors t = some b.to_move.opposite_color) :
    MoveOk b ⟨s, t, Flag.CaptureWithPromotion k pk⟩ := by
  refine ⟨hs, ht, hne, hco, by simp [hpw], ?_, ?_, ?_, ?_, ?_, ?_, ?_⟩
  · intro h; rcases h with h | h <;> cases h
  · intro p h; cases h
  · intro p h; cases h
  · intro cp pp h
    cases h
    exact ⟨hpw, hts, htc⟩
  · intro h; cases h
  · intro h; cases h
  · intro h; cases h

theorem moveok_ep (b : Board) (s t : Nat) (hs : s < 64) (ht : t < 64)
    (hne : s ≠ t) (hco : og b.colors s = some b.to_move)
    (hok : EpOk b ⟨s, t, Flag.EnPassantCapture⟩) :
    MoveOk b ⟨s, t, Flag.EnPassantCapture⟩ := by
  refine ⟨hs, ht, hne, hco, by simp [hok.1], ?_, ?_, ?_, ?_, ?_, ?_, ?_⟩
  · intro h; rcases h with h | h <;> cases h
  · intro p h; cases h
  · intro p h; cases h
  · intro cp pp h; cases h
  · intro _; exact hok
  · intro h; cases h
  · intro h; cases h

theorem moveok_castle_ks (b : Board) (s t : Nat) (hs : s < 64) (ht : t < 64)
    (hne : s ≠ t) (hco : og b.colors s = some b.to_move)
    (hp : (og b.squares s).isSome)
    (hok : CastleOk b ⟨s, t, Flag.KingsideCastle⟩ true) :
    MoveOk b ⟨s, t, Flag.KingsideCastle⟩ := by
  refine ⟨hs, ht, hne, hco, hp, ?_, ?_, ?_, ?_, ?_, ?_, ?_⟩
  · intro h; rcases h with h | h <;> cases h
  · intro p h; cases h
  · intro p h; cases h
  · intro cp pp h; cases h
  · intro h; cases h
  · intro _; exact hok
  · intro h; cases h

theorem moveok_castle_qs (b : Board) (s t : Nat) (hs : s < 64) (ht : t < 64)
    (hne : s ≠ t) (hco : og b.colors s = some b.to_move)
    (hp : (og b.squares s).isSome)
    (hok : CastleOk b ⟨s, t, Flag.QueensideCastle⟩ false) :
    MoveOk b ⟨s, t, Flag.QueensideCastle⟩ := by
  refine ⟨hs, ht, hne, hco, hp, ?_, ?_, ?_, ?_, ?_, ?_, ?_⟩
  · intro h; rcases h with h | h <;> cases h
  · intro p h; cases h
  · intro p h; cases h
  · intro cp pp h; cases h
  · intro h; cases h
  · intro h; cases h
  · intro _; exact hok

/-- Bounds for every step of every sliding ray: the computed target stays on
the board and differs from the start square (finite check over all squares,
directions and step counts). -/
theorem ray_target_facts :
    ∀ s, s < 64 → ∀ d, d < 8 → ∀ j, j < num_squares_to_edge s d →
      0 ≤ (s : Int) + direction_offsets.getD d 0 * ((j : Int) + 1) ∧
      ((s : Int) + direction_offsets.getD d 0 * ((j : Int) + 1)).toNat < 64 ∧
      ((s : Int) + direction_offsets.getD d 0 * ((j : Int) + 1)).toNat ≠ s := by
  decide


theorem mem_ray (b : Board) (s : Nat) (off : Int) (fuel : Nat) :
    ∀ (n : Nat) (m : Move), m ∈ ray_moves b s off fuel n →
    ∃ j, n ≤ j ∧ j < n + fuel ∧
      m.starting_square = s ∧
      m.target_square = ((s : Int) + off * ((j : Int) + 1)).toNat ∧
      ((m.flag = Flag.None ∧ og b.colors m.target_square = none) ∨
       (∃ c, og b.colors m.target_square = some c ∧ c ≠ b.to_move ∧
         m.flag = Flag.Capture (unwrap_piece (og b.squares m.target_square)))) := by
  induction fuel with
  | zero =>
    intro n m hm
    simp [ray_moves] at hm
  | succ fuel ih =>
    intro n m hm
    rw [ray_moves] at hm
    cases hcol : og b.colors (((s : Int) + off * ((n : Int) + 1)).toNat) with
    | some c =>
      simp only [hcol] at hm
      by_cases hcn : c ≠ b.to_move
      · rw [if_pos hcn] at hm
        rw [List.mem_singleton] at hm
        subst hm
        exact ⟨n, le_refl n, by omega, rfl, rfl, Or.inr ⟨c, hcol, hcn, rfl⟩⟩
      · rw [if_neg hcn] at hm
        simp at hm
    | none =>
      simp only [hcol] at hm
      rw [List.mem_cons] at hm
      rcases hm with hm | hm
      · subst hm
        exact ⟨n, le_refl n, by omega, rfl, rfl, Or.inl ⟨rfl, hcol⟩⟩
      · obtain ⟨j, hj1, hj2, h3, h4, h5⟩ := ih (n + 1) m hm
        exact ⟨j, by omega, by omega, h3, h4, h5⟩

theorem mem_sliding (b : Board) (s : Nat) (hs : s < 64) (m : Move)
    (hm : m ∈ generate_sliding_moves b s) :
    m.starting_square = s ∧ m.target_square < 64 ∧ m.target_square ≠ s ∧
    ((m.flag = Flag.None ∧ og b.colors m.target_square = none) ∨
     (∃ c, og b.colors m.target_square = some c ∧ c ≠ b.to_move ∧
       m.flag = Flag.Capture (unwrap_piece (og b.squares m.target_square)))) := by
  simp only [generate_sliding_moves, List.mem_flatMap] at hm
  obtain ⟨d, hd, hmray⟩ := hm
  rw [List.mem_range'_1] at hd
  have hdlt : d < 8 := by
    rcases hd with ⟨hd1, hd2⟩
    by_cases hB : unwrap_piece (og b.squares s) = Piece.Bishop <;>
      by_cases hR : unwrap_piece (og b.squares s) = Piece.Rook <;>
      simp [hB, hR] at hd2 <;> omega
  obtain ⟨j, hjn, hjlt, hstart, htarget, hflag⟩ := mem_ray b s _ _ 0 m hmray
  have hfacts := ray_target_facts s hs d hdlt j (by omega)
  refine ⟨hstart, ?_, ?_, hflag⟩
  · rw [htarget]; exact hfacts.2.1
  · rw [htarget]; exact hfacts.2.2

theorem mem_knight (b : Board) (s : Nat) (m : Move)
    (hm : m ∈ generate_knight_moves b s) :
    m.starting_square = s ∧ m.target_square < 64 ∧ m.target_square ≠ s ∧
    ((m.flag = Flag.None ∧ og b.colors m.target_square = none) ∨
     (∃ c, og b.colors m.target_square = some c ∧ c ≠ b.to_move ∧
       m.flag = Flag.Capture (unwrap_piece (og b.squares m.target_square)))) := by
  simp only [generate_knight_moves, List.mem_filterMap] at hm
  obtain ⟨off, hoff, hsome⟩ := hm
  have hne0 : off ≠ 0 := by
    simp [knight_move_offsets] at hoff
    rcases hoff with h|h|h|h|h|h|h|h <;> simp [h]
  by_cases hb : 0 ≤ (s : Int) + off ∧ (s : Int) + off < 64
  · rw [if_pos hb] at hsome
    have htv : ((((s : Int) + off).toNat : Int)) = (s : Int) + off :=
      Int.toNat_of_nonneg hb.1
    have ht64 : ((s : Int) + off).toNat < 64 := by omega
    have htne : ((s : Int) + off).toNat ≠ s := by omega
    by_cases hpac : is_pacman_move s (((s : Int) + off).toNat) = true
    · rw [if_pos hpac] at hsome
      cases hsome
    · rw [if_neg hpac] at hsome
      cases hcol : og b.colors (((s : Int) + off).toNat) with
      | none =>
        simp only [hcol] at hsome
        rw [Option.some_inj] at hsome
        subst hsome
        exact ⟨rfl, ht64, htne, Or.inl ⟨rfl, hcol⟩⟩
      | some c =>
        simp only [hcol] at hsome
        by_cases hcn : c ≠ b.to_move
        · rw [if_pos hcn, Option.some_inj] at hsome
          subst hsome
          exact ⟨rfl, ht64, htne, Or.inr ⟨c, hcol, hcn, rfl⟩⟩
        · rw [if_neg hcn] at hsome
          cases hsome
  · rw [if_neg hb] at hsome
    cases hsome


theorem mem_king (b : Board) (s : Nat) (hco : og b.colors s = some b.to_move)
    (m : Move) (hm : m ∈ generate_king_moves b s) :
    (m.starting_square = s ∧ m.target_square < 64 ∧ m.target_square ≠ s ∧
      ((m.flag = Flag.None ∧ og b.colors m.target_square = none) ∨
       (∃ c, og b.colors m.target_square = some c ∧ c ≠ b.to_move ∧
         m.flag = Flag.Capture (unwrap_piece (og b.squares m.target_square))))) ∨
    ((b.to_move = Color.White ∧ m = ⟨s, 6, Flag.KingsideCastle⟩ ∧
        b.board_state.white_kingside_castling_priviledge = true ∧
        og b.squares 5 = none ∧ og b.squares 6 = none) ∨
     (b.to_move = Color.White ∧ m = ⟨s, 2, Flag.QueensideCastle⟩ ∧
        b.board_state.white_queenside_castling_priviledge = true ∧
        og b.squares 3 = none ∧ og b.squares 2 = none ∧ og b.squares 1 = none) ∨
     (b.to_move = Color.Black ∧ m = ⟨s, 62, Flag.KingsideCastle⟩ ∧
        b.board_state.black_kingside_castling_priviledge = true ∧
        og b.squares 61 = none ∧ og b.squares 62 = none) ∨
     (b.to_move = Color.Black ∧ m = ⟨s, 58, Flag.QueensideCastle⟩ ∧
        b.board_state.black_queenside_castling_priviledge = true ∧
        og b.squares 59 = none ∧ og b.squares 58 = none ∧ og b.squares 57 = none)) := by
  rw [generate_king_moves, List.mem_append] at hm
  rcases hm with hm | hm
  · left
    simp only [List.mem_filterMap] at hm
    obtain ⟨off, hoff, hsome⟩ := hm
    have hne0 : off ≠ 0 := by
      simp [direction_offsets] at hoff
      rcases hoff with h|h|h|h|h|h|h|h <;> simp [h]
    by_cases hb : 0 ≤ (s : Int) + off ∧ (s : Int) + off < 64
    · rw [if_pos hb] at hsome
      have htv : ((((s : Int) + off).toNat : Int)) = (s : Int) + off :=
        Int.toNat_of_nonneg hb.1
      have ht64 : ((s : Int) + off).toNat < 64 := by omega
      have htne : ((s : Int) + off).toNat ≠ s := by omega
      by_cases hpac : is_pacman_move s (((s : Int) + off).toNat) = true
      · rw [if_pos hpac] at hsome
        cases hsome
      · rw [if_neg hpac] at hsome
        cases hcol : og b.colors (((s : Int) + off).toNat) with
        | none =>
          rw [if_pos hcol, Option.some_inj] at hsome
          subst hsome
          exact ⟨rfl, ht64, htne, Or.inl ⟨rfl, hcol⟩⟩
        | some c =>
          rw [if_neg (by simp [hcol])] at hsome
          simp only [hcol, hco, unwrap_color, Option.getD_some, Option.any_some] at hsome
          by_cases hcn : c ≠ b.to_move
          · rw [if_pos (by simp [hcn])] at hsome
            rw [Option.some_inj] at hsome
            subst hsome
            exact ⟨rfl, ht64, htne, Or.inr ⟨c, hcol, hcn, rfl⟩⟩
          · rw [if_neg (by simp at hcn; simp [hcn])] at hsome
            cases hsome
    · rw [if_neg hb] at hsome
      cases hsome
  · right
    rw [king_castle_moves] at hm
    by_cases hw : b.to_move = Color.White
    · rw [if_pos hw] at hm
      rw [List.mem_append] at hm
      rcases hm with hm | hm
      · by_cases hcond : b.board_state.white_kingside_castling_priviledge = true ∧
            (og b.squares 5 = none ∧ og b.squares 6 = none)
        · rw [if_pos hcond, List.mem_singleton] at hm
          exact Or.inl ⟨hw, hm, hcond.1, hcond.2.1, hcond.2.2⟩
        · rw [if_neg hcond] at hm
          cases hm
      · by_cases hcond : b.board_state.white_queenside_castling_priviledge = true ∧
            (og b.squares 3 = none ∧ og b.squares 2 = none ∧ og b.squares 1 = none)
        · rw [if_pos hcond, List.mem_singleton] at hm
          exact Or.inr (Or.inl ⟨hw, hm, hcond.1, hcond.2.1, hcond.2.2.1, hcond.2.2.2⟩)
        · rw [if_neg hcond] at hm
          cases hm
    · have hbk : b.to_move = Color.Black := by
        cases hx : b.to_move
        · exact absurd hx hw
        · rfl
      rw [if_neg hw] at hm
      rw [List.mem_append] at hm
      rcases hm with hm | hm
      · by_cases hcond : b.board_state.black_kingside_castling_priviledge = true ∧
            (og b.squares 61 = none ∧ og b.squares 62 = none)
        · rw [if_pos hcond, List.mem_singleton] at hm
          exact Or.inr (Or.inr (Or.inl ⟨hbk, hm, hcond.1, hcond.2.1, hcond.2.2⟩))
        · rw [if_neg hcond] at hm
          cases hm
      · by_cases hcond : b.board_state.black_queenside_castling_priviledge = true ∧
            (og b.squares 59 = none ∧ og b.squares 58 = none ∧ og b.squares 57 = none)
        · rw [if_pos hcond, List.mem_singleton] at hm
          exact Or.inr (Or.inr (Or.inr
            ⟨hbk, hm, hcond.1, hcond.2.1, hcond.2.2.1, hcond.2.2.2⟩))
        · rw [if_neg hcond] at hm
          cases hm


theorem sync_colors_none {b : Board}
    (hsync : ∀ i, i < 64 → ((og b.squares i).isSome ↔ (og b.colors i).isSome))
    (i : Nat) (hi : i < 64) (h : og b.squares i = none) :
    og b.colors i = none := by
  have h2 := hsync i hi
  cases hc : og b.colors i
  · rfl
  · rw [h, hc] at h2
    simp at h2

theorem sync_squares_some {b : Board}
    (hsync : ∀ i, i < 64 → ((og b.squares i).isSome ↔ (og b.colors i).isSome))
    (i : Nat) (hi : i < 64) {c : Color} (h : og b.colors i = some c) :
    ∃ p, og b.squares i = some p := by
  have h2 := hsync i hi
  rw [h] at h2
  simp at h2
  exact Option.isSome_iff_exists.mp h2

theorem mem_add_promotion_none {s t : Nat} {m : Move}
    (hm : m ∈ add_promotion_moves s t none) :
    ∃ pk, m = ⟨s, t, Flag.PromoteTo pk⟩ := by
  simp only [add_promotion_moves, List.mem_cons, List.mem_singleton] at hm
  rcases hm with h | h | h | h
  · exact ⟨Piece.Queen, h⟩
  · exact ⟨Piece.Rook, h⟩
  · exact ⟨Piece.Bishop, h⟩
  · rcases h with h | h
    · exact ⟨Piece.Knight, h⟩
    · cases h

theorem mem_add_promotion_some {s t : Nat} {k : Piece} {m : Move}
    (hm : m ∈ add_promotion_moves s t (some k)) :
    ∃ pk, m = ⟨s, t, Flag.CaptureWithPromotion k pk⟩ := by
  simp only [add_promotion_moves, List.mem_cons, List.mem_singleton] at hm
  rcases hm with h | h | h | h
  · exact ⟨Piece.Queen, h⟩
  · exact ⟨Piece.Rook, h⟩
  · exact ⟨Piece.Bishop, h⟩
  · rcases h with h | h
    · exact ⟨Piece.Knight, h⟩
    · cases h

theorem pawn_push_moveok (b : Board) (s : Nat)
    (hwf : WfBoard b)
    (hsq : og b.squares s = some Piece.Pawn)
    (hco : og b.colors s = some b.to_move)
    (hlo : 8 ≤ s) (hhi : s < 56) (t : Nat) (ht64 : t < 64) (htne : t ≠ s)
    (hempty : og b.squares t = none) (m : Move)
    (hm : (∃ pk, m = ⟨s, t, Flag.PromoteTo pk⟩) ∨ m = ⟨s, t, Flag.None⟩ ∨
      m = ⟨s, t, Flag.PawnDoublePush⟩) :
    MoveOk b m := by
  obtain ⟨_, _, hsync, _⟩ := hwf
  have hcn : og b.colors t = none := sync_colors_none hsync t ht64 hempty
  rcases hm with ⟨pk, hm⟩ | hm | hm <;> subst hm
  · exact moveok_promo b s t pk (by omega) ht64 (fun h => htne h.symm) hco hsq
      hempty hcn
  · exact moveok_quiet b s t (by omega) ht64 (fun h => htne h.symm) hco
      (by simp [hsq]) hempty hcn
  · exact moveok_double b s t (by omega) ht64 (fun h => htne h.symm) hco
      (by simp [hsq]) hempty hcn


theorem ne_color_opposite {c d : Color} (h : c ≠ d) : c = d.opposite_color := by
  cases c <;> cases d <;> simp_all [Color.opposite_color]

theorem epok_mk (b : Board) (s t : Nat)
    (h1 : og b.squares s = some Piece.Pawn)
    (h2 : b.board_state.en_passant_square = some t)
    (h3 : og b.squares t = none) (h4 : og b.colors t = none)
    (h5 : b.to_move = Color.White → 8 ≤ t)
    (cap : Nat) (hcap : cap = if b.to_move = Color.White then t - 8 else t + 8)
    (h6 : cap < 64) (h7 : cap ≠ s) (h8 : cap ≠ t)
    (h9 : og b.squares cap = some Piece.Pawn)
    (h10 : og b.colors cap = some b.to_move.opposite_color) :
    EpOk b ⟨s, t, Flag.EnPassantCapture⟩ := by
  have hidx : ep_captured_index b ⟨s, t, Flag.EnPassantCapture⟩ = cap := by
    rw [hcap]
    rfl
  refine ⟨h1, h2, h3, h4, h5, ?_, ?_, ?_, ?_, ?_⟩ <;> rw [hidx]
  · exact h6
  · exact h7
  · exact h8
  · exact h9
  · exact h10

theorem pawn_capture_moveok (b : Board) (hwf : WfBoard b) (s : Nat) (off : Int)
    (hsq : og b.squares s = some Piece.Pawn)
    (hco : og b.colors s = some b.to_move) (hs64 : s < 64)
    (hoff : (b.to_move = Color.White ∧ (off = 7 ∨ off = 9)) ∨
      (b.to_move = Color.Black ∧ (off = -7 ∨ off = -9)))
    (m : Move) (hm : m ∈ pawn_capture_moves b s off) : MoveOk b m := by
  obtain ⟨hsl, hcl, hsync, hwk, hbk, hcwk, hcwq, hcbk, hcbq, hepinv, hprk⟩ := hwf
  simp only [pawn_capture_moves] at hm
  by_cases h1 : 0 ≤ (s : Int) + off ∧ (s : Int) + off < 64
  swap
  · rw [if_neg h1] at hm
    cases hm
  rw [if_pos h1] at hm
  have ht : ((s : Int) + off).toNat = ((s : Int) + off).toNat := rfl
  have ht64 : ((s : Int) + off).toNat < 64 := by omega
  have hoffne : off ≠ 0 := by
    rcases hoff with ⟨_, h | h⟩ | ⟨_, h | h⟩ <;> omega
  have htne : s ≠ ((s : Int) + off).toNat := by omega
  by_cases hpac : is_pacman_move s ((s : Int) + off).toNat = true
  · rw [if_pos hpac] at hm
    cases hm
  rw [if_neg hpac] at hm
  by_cases hoe : ((og b.colors ((s : Int) + off).toNat).any
      (fun color => color != b.to_move) ||
      (b.board_state.en_passant_square == some ((s : Int) + off).toNat)) = true
  swap
  · rw [if_neg hoe] at hm
    cases hm
  rw [if_pos hoe] at hm
  by_cases hrk : ((s : Int) + off).toNat / 8 = 0 ∨ ((s : Int) + off).toNat / 8 = 7
  · rw [if_pos hrk] at hm
    cases hsqt : og b.squares ((s : Int) + off).toNat with
    | none =>
      rw [hsqt] at hm
      obtain ⟨pk, hmv⟩ := mem_add_promotion_none hm
      subst hmv
      exact moveok_promo b s _ pk hs64 ht64 htne hco hsq hsqt
        (sync_colors_none hsync _ ht64 hsqt)
    | some k =>
      rw [hsqt] at hm
      obtain ⟨pk, hmv⟩ := mem_add_promotion_some hm
      subst hmv
      have h2 := hsync ((s : Int) + off).toNat ht64
      rw [hsqt] at h2
      simp at h2
      obtain ⟨c, hct⟩ := Option.isSome_iff_exists.mp h2
      by_cases hctm : c = b.to_move
      · -- The target is a friendly piece, so the side condition forces the
        -- en-passant square to be the target; but the en-passant square is
        -- empty by well-formedness, a contradiction.
        exfalso
        rw [hct, hctm] at hoe
        simp at hoe
        rcases hepinv with hnone | ⟨e, _, heq, hesq, _⟩
        · rw [hnone] at hoe
          cases hoe
        · rw [heq] at hoe
          simp at hoe
          rw [hoe] at hesq
          rw [hesq] at hsqt
          cases hsqt
      · exact moveok_cappromo b s _ k pk hs64 ht64 htne hco hsq hsqt
          (by rw [hct, ne_color_opposite hctm])
  rw [if_neg hrk] at hm
  by_cases hep : (b.board_state.en_passant_square ==
      some ((s : Int) + off).toNat) = true
  · rw [if_pos hep] at hm
    have hmv := List.mem_singleton.mp hm
    subst hmv
    have hepeq : b.board_state.en_passant_square =
        some ((s : Int) + off).toNat := by
      exact beq_iff_eq.mp hep
    rcases hepinv with hnone | ⟨e, he64, heq, hesq, hecol, hblk, hwht⟩
    · rw [hnone] at hepeq
      cases hepeq
    rw [heq] at hepeq
    have hev : e = ((s : Int) + off).toNat := by
      injection hepeq
    subst hev
    rcases hoff with ⟨hw, hoffv⟩ | ⟨hb, hoffv⟩
    · obtain ⟨hr1, hr2, hcsq, hccol⟩ := hwht hw
      refine moveok_ep b s _ hs64 ht64 htne hco
        (epok_mk b s _ hsq heq hesq hecol (fun _ => by omega)
          (((s : Int) + off).toNat - 8) (by rw [if_pos hw]) (by omega)
          (by rcases hoffv with h | h <;> omega) (by omega) hcsq
          (by rw [hccol, hw]
              rfl))
    · obtain ⟨hr1, hr2, hcsq, hccol⟩ := hblk hb
      have hnw : ¬(b.to_move = Color.White) := by
        rw [hb]
        intro h
        cases h
      refine moveok_ep b s _ hs64 ht64 htne hco
        (epok_mk b s _ hsq heq hesq hecol (fun h => absurd h hnw)
          (((s : Int) + off).toNat + 8) (by rw [if_neg hnw]) (by omega)
          (by rcases hoffv with h | h <;> omega) (by omega) hcsq
          (by rw [hccol, hb]
              rfl))
  · rw [if_neg hep] at hm
    have hmv := List.mem_singleton.mp hm
    have hocc : (og b.colors ((s : Int) + off).toNat).any
        (fun color => color != b.to_move) = true := by
      rcases Bool.or_eq_true_iff.mp hoe with h | h
      · exact h
      · exact absurd h hep
    cases hct : og b.colors ((s : Int) + off).toNat with
    | none =>
      rw [hct] at hocc
      cases hocc
    | some c =>
      rw [hct] at hocc
      simp at hocc
      have h2 := hsync ((s : Int) + off).toNat ht64
      rw [hct] at h2
      simp at h2
      obtain ⟨k, hsqt⟩ := Option.isSome_iff_exists.mp h2
      have hmv2 : m = ⟨s, ((s : Int) + off).toNat, Flag.Capture k⟩ := by
        rw [hmv, hsqt]
        rfl
      rw [hmv2]
      exact moveok_capture b s _ k hs64 ht64 htne hco (by simp [hsq]) hsqt
        (by rw [hct, ne_color_opposite hocc])


theorem sync_squares_none {b : Board}
    (hsync : ∀ i, i < 64 → ((og b.squares i).isSome ↔ (og b.colors i).isSome))
    (i : Nat) (hi : i < 64) (h : og b.colors i = none) :
    og b.squares i = none := by
  have h2 := hsync i hi
  cases hc : og b.squares i
  · rfl
  · rw [h, hc] at h2
    simp at h2

/-- Build `MoveOk` from the common conclusion shape of the sliding, knight
and king basic-move membership lemmas. -/
theorem basic_moveok (b : Board) (s : Nat) (hs : s < 64)
    (hsync : ∀ i, i < 64 → ((og b.squares i).isSome ↔ (og b.colors i).isSome))
    (hco : og b.colors s = some b.to_move) (hp : (og b.squares s).isSome)
    (m : Move)
    (hfacts : m.starting_square = s ∧ m.target_square < 64 ∧
      m.target_square ≠ s ∧
      ((m.flag = Flag.None ∧ og b.colors m.target_square = none) ∨
       (∃ c, og b.colors m.target_square = some c ∧ c ≠ b.to_move ∧
         m.flag = Flag.Capture (unwrap_piece (og b.squares m.target_square))))) :
    MoveOk b m := by
  obtain ⟨hstart, ht64, htne, hflag⟩ := hfacts
  cases m with
  | mk ms mt mf =>
    simp only at hstart ht64 htne hflag
    subst hstart
    rcases hflag with ⟨hf, hcn⟩ | ⟨c, hct, hcnm, hf⟩
    · subst hf
      exact moveok_quiet b ms mt hs ht64 (fun h => htne h.symm) hco hp
        (sync_squares_none hsync mt ht64 hcn) hcn
    · obtain ⟨k, hsqt⟩ := sync_squares_some hsync mt ht64 hct
      have hf2 : mf = Flag.Capture k := by
        rw [hf, hsqt]
        rfl
      subst hf2
      exact moveok_capture b ms mt k hs ht64 (fun h => htne h.symm) hco hp hsqt
        (by rw [hct, ne_color_opposite hcnm])

/-- Every move the pawn generator emits from a well-formed position (with a
pawn of the side to move on a non-back-rank square) satisfies `MoveOk`. -/
theorem pawn_moveok (b : Board) (hwf : WfBoard b) (s : Nat)
    (hsq : og b.squares s = some Piece.Pawn)
    (hco : og b.colors s = some b.to_move)
    (hlo : 8 ≤ s) (hhi : s < 56)
    (m : Move) (hm : m ∈ generate_pawn_moves b s) : MoveOk b m := by
  by_cases hw : b.to_move = Color.White
  · have h0 : (pawn_move_offsets b.to_move).getD 0 0 = 8 := by rw [hw]; rfl
    have h1 : (pawn_move_offsets b.to_move).getD 1 0 = 16 := by rw [hw]; rfl
    have h2 : (pawn_move_offsets b.to_move).drop 2 = [7, 9] := by rw [hw]; rfl
    have ht1 : ((s : Int) + 8).toNat = s + 8 := by omega
    have ht2 : ((s : Int) + 16).toNat = s + 16 := by omega
    simp only [generate_pawn_moves, h0, h1, h2, ht1, ht2,
      List.mem_append] at hm
    rcases hm with (hpush | hcap) | hdbl
    · by_cases hemp : og b.squares (s + 8) = none
      swap
      · rw [if_neg hemp] at hpush
        cases hpush
      rw [if_pos hemp] at hpush
      by_cases hprm : ((s : Int) + 8) / 8 = 0 ∨ ((s : Int) + 8) / 8 = 7
      · rw [if_pos hprm] at hpush
        obtain ⟨pk, hmv⟩ := mem_add_promotion_none hpush
        subst hmv
        exact pawn_push_moveok b s hwf hsq hco hlo hhi (s + 8) (by omega)
          (by omega) hemp _ (Or.inl ⟨pk, rfl⟩)
      · rw [if_neg hprm] at hpush
        have hmv := List.mem_singleton.mp hpush
        subst hmv
        exact pawn_push_moveok b s hwf hsq hco hlo hhi (s + 8) (by omega)
          (by omega) hemp _ (Or.inr (Or.inl rfl))
    · rw [List.mem_flatMap] at hcap
      obtain ⟨off, hoffmem, hmoff⟩ := hcap
      have hoffv : off = 7 ∨ off = 9 := by
        rcases List.mem_cons.mp hoffmem with h | h
        · exact Or.inl h
        · exact Or.inr (List.mem_singleton.mp h)
      exact pawn_capture_moveok b hwf s off hsq hco (by omega)
        (Or.inl ⟨hw, hoffv⟩) m hmoff
    · by_cases hemp : og b.squares (s + 8) = none
      swap
      · rw [if_pos hemp] at hdbl
        cases hdbl
      rw [if_neg (not_not_intro hemp)] at hdbl
      by_cases hmoved : (s / 8 ≠ 1 ∧ b.to_move = Color.White) ∨
          (s / 8 ≠ 6 ∧ b.to_move = Color.Black)
      · rw [if_pos hmoved] at hdbl
        cases hdbl
      rw [if_neg hmoved] at hdbl
      have hrank : s / 8 = 1 := by
        by_contra hne
        exact hmoved (Or.inl ⟨hne, hw⟩)
      by_cases hemp2 : og b.squares (s + 16) = none
      swap
      · rw [if_neg hemp2] at hdbl
        cases hdbl
      rw [if_pos hemp2] at hdbl
      have hmv := List.mem_singleton.mp hdbl
      subst hmv
      exact pawn_push_moveok b s hwf hsq hco hlo hhi (s + 16) (by omega)
        (by omega) hemp2 _ (Or.inr (Or.inr rfl))
  · have hb : b.to_move = Color.Black := by
      cases hx : b.to_move
      · exact absurd hx hw
      · rfl
    have h0 : (pawn_move_offsets b.to_move).getD 0 0 = -8 := by rw [hb]; rfl
    have h1 : (pawn_move_offsets b.to_move).getD 1 0 = -16 := by rw [hb]; rfl
    have h2 : (pawn_move_offsets b.to_move).drop 2 = [-7, -9] := by
      rw [hb]; rfl
    have ht1 : ((s : Int) + -8).toNat = s - 8 := by omega
    have ht2 : ((s : Int) + -16).toNat = s - 16 := by omega
    simp only [generate_pawn_moves, h0, h1, h2, ht1, ht2,
      List.mem_append] at hm
    rcases hm with (hpush | hcap) | hdbl
    · by_cases hemp : og b.squares (s - 8) = none
      swap
      · rw [if_neg hemp] at hpush
        cases hpush
      rw [if_pos hemp] at hpush
      by_cases hprm : ((s : Int) + -8) / 8 = 0 ∨ ((s : Int) + -8) / 8 = 7
      · rw [if_pos hprm] at hpush
        obtain ⟨pk, hmv⟩ := mem_add_promotion_none hpush
        subst hmv
        exact pawn_push_moveok b s hwf hsq hco hlo hhi (s - 8) (by omega)
          (by omega) hemp _ (Or.inl ⟨pk, rfl⟩)
      · rw [if_neg hprm] at hpush
        have hmv := List.mem_singleton.mp hpush
        subst hmv
        exact pawn_push_moveok b s hwf hsq hco hlo hhi (s - 8) (by omega)
          (by omega) hemp _ (Or.inr (Or.inl rfl))
    · rw [List.mem_flatMap] at hcap
      obtain ⟨off, hoffmem, hmoff⟩ := hcap
      have hoffv : off = -7 ∨ off = -9 := by
        rcases List.mem_cons.mp hoffmem with h | h
        · exact Or.inl h
        · exact Or.inr (List.mem_singleton.mp h)
      exact pawn_capture_moveok b hwf s off hsq hco (by omega)
        (Or.inr ⟨hb, hoffv⟩) m hmoff
    · by_cases hemp : og b.squares (s - 8) = none
      swap
      · rw [if_pos hemp] at hdbl
        cases hdbl
      rw [if_neg (not_not_intro hemp)] at hdbl
      by_cases hmoved : (s / 8 ≠ 1 ∧ b.to_move = Color.White) ∨
          (s / 8 ≠ 6 ∧ b.to_move = Color.Black)
      · rw [if_pos hmoved] at hdbl
        cases hdbl
      rw [if_neg hmoved] at hdbl
      have hrank : s / 8 = 6 := by
        by_contra hne
        exact hmoved (Or.inr ⟨hne, hb⟩)
      by_cases hemp2 : og b.squares (s - 16) = none
      swap
      · rw [if_neg hemp2] at hdbl
        cases hdbl
      rw [if_pos hemp2] at hdbl
      have hmv := List.mem_singleton.mp hdbl
      subst hmv
      exact pawn_push_moveok b s hwf hsq hco hlo hhi (s - 16) (by omega)
        (by omega) hemp2 _ (Or.inr (Or.inr rfl))


/-- Every pseudo-legal move of a well-formed position satisfies all the
structural facts the make/unmake round trip needs. -/
theorem moveok_of_mem_pseudo (b : Board) (hwf : WfBoard b) (m : Move)
    (hm : m ∈ generate_pseudo_legal_moves b) : MoveOk b m := by
  have hwf2 := hwf
  obtain ⟨hsl, hcl, hsync, hwk, hbk, hcwk, hcwq, hcbk, hcbq, hepinv, hprk⟩ :=
    hwf2
  simp only [generate_pseudo_legal_moves, List.mem_flatMap] at hm
  obtain ⟨sq, hsqmem, hm⟩ := hm
  rw [List.mem_range] at hsqmem
  rw [pseudo_moves_for_square] at hm
  cases hcol : og b.colors sq with
  | none =>
    simp only [hcol] at hm
    cases hm
  | some c =>
    simp only [hcol] at hm
    by_cases hcn : c ≠ b.to_move
    · rw [if_pos hcn] at hm
      cases hm
    rw [if_neg hcn] at hm
    rw [not_not] at hcn
    subst hcn
    cases hsqv : og b.squares sq with
    | none =>
      simp only [hsqv] at hm
      cases hm
    | some piece =>
      simp only [hsqv] at hm
      have hps : (og b.squares sq).isSome := by simp [hsqv]
      cases piece with
      | Queen =>
        exact basic_moveok b sq hsqmem hsync hcol hps m (mem_sliding b sq hsqmem m hm)
      | Rook =>
        exact basic_moveok b sq hsqmem hsync hcol hps m (mem_sliding b sq hsqmem m hm)
      | Bishop =>
        exact basic_moveok b sq hsqmem hsync hcol hps m (mem_sliding b sq hsqmem m hm)
      | Knight =>
        exact basic_moveok b sq hsqmem hsync hcol hps m (mem_knight b sq m hm)
      | Pawn =>
        have hlo : 8 ≤ sq := by
          by_contra hlt
          exact (hprk sq (by omega)).1 hsqv
        have hhi : sq < 56 := by
          by_contra hge
          have h56 : 56 + (sq - 56) = sq := by omega
          have := (hprk (sq - 56) (by omega)).2
          rw [h56] at this
          exact this hsqv
        exact pawn_moveok b hwf sq hsqv hcol hlo hhi m hm
      | King =>
        rcases mem_king b sq hcol m hm with hfacts | hcastle
        · exact basic_moveok b sq hsqmem hsync hcol hps m hfacts
        rcases hcastle with ⟨hw, hmv, hright, he5, he6⟩ |
            ⟨hw, hmv, hright, he3, he2, he1⟩ |
            ⟨hb, hmv, hright, he61, he62⟩ | ⟨hb, hmv, hright, he59, he58, he57⟩
        · obtain ⟨hk4, hc4, hr7, hcr7⟩ := hcwk hright
          obtain ⟨wk, hwk64, hwks, hwkc, hwku⟩ := hwk
          have hsq4 : sq = 4 := by
            have h1 := hwku sq hsqmem hsqv (by rw [hcol, hw])
            have h2 := hwku 4 (by omega) hk4 hc4
            omega
          subst hsq4
          subst hmv
          refine moveok_castle_ks b 4 6 (by omega) (by omega) (by omega) hcol
            hps ?_
          rw [CastleOk, if_pos hw, if_pos rfl]
          exact ⟨rfl, rfl, hk4, hc4, hr7, hcr7, he5,
            sync_colors_none hsync 5 (by omega) he5, he6,
            sync_colors_none hsync 6 (by omega) he6⟩
        · obtain ⟨hk4, hc4, hr0, hcr0⟩ := hcwq hright
          obtain ⟨wk, hwk64, hwks, hwkc, hwku⟩ := hwk
          have hsq4 : sq = 4 := by
            have h1 := hwku sq hsqmem hsqv (by rw [hcol, hw])
            have h2 := hwku 4 (by omega) hk4 hc4
            omega
          subst hsq4
          subst hmv
          refine moveok_castle_qs b 4 2 (by omega) (by omega) (by omega) hcol
            hps ?_
          rw [CastleOk, if_pos hw]
          rw [if_neg (by simp : ¬(false = true))]
          exact ⟨rfl, rfl, hk4, hc4, hr0, hcr0, he2,
            sync_colors_none hsync 2 (by omega) he2, he3,
            sync_colors_none hsync 3 (by omega) he3⟩
        · obtain ⟨hk60, hc60, hr63, hcr63⟩ := hcbk hright
          obtain ⟨bk, hbk64, hbks, hbkc, hbku⟩ := hbk
          have hsq60 : sq = 60 := by
            have h1 := hbku sq hsqmem hsqv (by rw [hcol, hb])
            have h2 := hbku 60 (by omega) hk60 hc60
            omega
          subst hsq60
          subst hmv
          refine moveok_castle_ks b 60 62 (by omega) (by omega) (by omega) hcol
            hps ?_
          rw [CastleOk, if_neg (by rw [hb]; intro h; cases h), if_pos rfl]
          exact ⟨rfl, rfl, hk60, hc60, hr63, hcr63, he61,
            sync_colors_none hsync 61 (by omega) he61, he62,
            sync_colors_none hsync 62 (by omega) he62⟩
        · obtain ⟨hk60, hc60, hr56, hcr56⟩ := hcbq hright
          obtain ⟨bk, hbk64, hbks, hbkc, hbku⟩ := hbk
          have hsq60 : sq = 60 := by
            have h1 := hbku sq hsqmem hsqv (by rw [hcol, hb])
            have h2 := hbku 60 (by omega) hk60 hc60
            omega
          subst hsq60
          subst hmv
          refine moveok_castle_qs b 60 58 (by omega) (by omega) (by omega) hcol
            hps ?_
          rw [CastleOk, if_neg (by rw [hb]; intro h; cases h)]
          rw [if_neg (by simp : ¬(false = true))]
          exact ⟨rfl, rfl, hk60, hc60, hr56, hcr56, he58,
            sync_colors_none hsync 58 (by omega) he58, he59,
            sync_colors_none hsync 59 (by omega) he59⟩


theorem legality_fold_eq (b : Board) (hs : b.squares.length = 64)
    (hc : b.colors.length = 64) (tm : Color) (l : List Move)
    (hok : ∀ mv ∈ l, MoveOk b mv) : ∀ acc : List Move,
    l.foldl (legality_filter_step tm) (acc, b) =
      (acc ++ l.filter (keeps_move b tm), b) := by
  induction l with
  | nil =>
    intro acc
    simp
  | cons mv t ih =>
    intro acc
    rw [List.foldl_cons]
    have hokmv : MoveOk b mv := hok mv (List.mem_cons_self mv t)
    have hokt : ∀ x ∈ t, MoveOk b x := fun x hx =>
      hok x (List.mem_cons_of_mem mv hx)
    by_cases hskip : (mv.flag = Flag.KingsideCastle ∨
        mv.flag = Flag.QueensideCastle) ∧ is_castling_path_clear b mv = false
    · have hstep : legality_filter_step tm (acc, b) mv = (acc, b) := by
        rw [legality_filter_step]
        rw [if_pos hskip]
      rw [hstep, ih hokt acc, List.filter_cons]
      have hkeep : keeps_move b tm mv = false := by
        rw [keeps_move, if_pos hskip]
      rw [hkeep]
      simp
    · have hrt : (unmake_move (move_piece b mv) mv).2 = b := by
        rw [move_unmake_roundtrip b mv hs hc hokmv]
      have hstep : legality_filter_step tm (acc, b) mv =
          (if is_in_check (move_piece b mv) tm then acc else acc ++ [mv], b) := by
        rw [legality_filter_step]
        rw [if_neg hskip]
        show (if is_in_check (move_piece b mv) tm = true then acc
            else acc ++ [mv], (unmake_move (move_piece b mv) mv).2) = _
        rw [hrt]
      rw [hstep]
      have hkeep : keeps_move b tm mv = !(is_in_check (move_piece b mv) tm) := by
        rw [keeps_move, if_neg hskip]
      by_cases hchk : is_in_check (move_piece b mv) tm = true
      · rw [if_pos hchk, ih hokt acc, List.filter_cons, hkeep, hchk]
        simp
      · rw [if_neg hchk, ih hokt (acc ++ [mv]), List.filter_cons, hkeep]
        rw [Bool.not_eq_true] at hchk
        rw [hchk]
        simp

/-- `generate_moves` on a well-formed board returns the pseudo-legal moves
filtered by the pure legality predicate, together with the board restored to
its entry state. -/
theorem generate_moves_eq (b : Board) (hwf : WfBoard b) :
    generate_moves b =
      ((generate_pseudo_legal_moves b).filter (keeps_move b b.to_move), b) := by
  rw [generate_moves]
  rw [legality_fold_eq b hwf.1 hwf.2.1 b.to_move (generate_pseudo_legal_moves b)
    (fun mv hmv => moveok_of_mem_pseudo b hwf mv hmv) []]
  simp


theorem move_piece_to_move (b : Board) (m : Move) :
    (move_piece b m).to_move = b.to_move.opposite_color := by
  rw [move_piece]
  cases hf : m.flag <;>
    simp [hf, mkc_to_move, mkq_to_move, flip_to_move, mpfe_to_move,
      ucr_to_move, place_to_move, prelude_to_move]

/-- When the board's side to move is the opposite of the colour being
checked -- which is how both call sites in the source invoke it --
`is_in_check` computes exactly the specification predicate, because the
source's pawn-offset colour `self.board.to_move` then coincides with the
attacker colour. -/
theorem is_in_check_eq_spec_aux (b : Board) (c : Color)
    (h : b.to_move = c.opposite_color) :
    is_in_check b c = spec_king_attacked b c := by
  rw [is_in_check, spec_king_attacked, h]

theorem mem_generate_moves_iff (b : Board) (hwf : WfBoard b) (m : Move) :
    m ∈ (generate_moves b).1 ↔
      m ∈ generate_pseudo_legal_moves b ∧ keeps_move b b.to_move m = true := by
  rw [generate_moves_eq b hwf]
  exact List.mem_filter

theorem keeps_move_facts (b : Board) (tm : Color) (m : Move)
    (h : keeps_move b tm m = true) :
    is_in_check (move_piece b m) tm = false ∧
    ((m.flag = Flag.KingsideCastle ∨ m.flag = Flag.QueensideCastle) →
      is_castling_path_clear b m = true) := by
  rw [keeps_move] at h
  by_cases hskip : (m.flag = Flag.KingsideCastle ∨
      m.flag = Flag.QueensideCastle) ∧ is_castling_path_clear b m = false
  · rw [if_pos hskip] at h
    cases h
  · rw [if_neg hskip] at h
    refine ⟨by simpa using h, fun hcast => ?_⟩
    by_cases hclear : is_castling_path_clear b m = true
    · exact hclear
    · exact absurd ⟨hcast, by simpa using hclear⟩ hskip

/-- The legality filter of `generate_moves`, stated against the
specification predicate: every emitted move, once made, leaves the mover's
king unattacked, and castling moves additionally pass the attack-map path
test computed before the move. -/
theorem legal_moves_safe (b : Board) (hwf : WfBoard b) (m : Move)
    (hm : m ∈ (generate_moves b).1) :
    spec_king_attacked (move_piece b m) b.to_move = false ∧
    ((m.flag = Flag.KingsideCastle ∨ m.flag = Flag.QueensideCastle) →
      is_castling_path_clear b m = true) := by
  obtain ⟨hpseudo, hkeep⟩ := (mem_generate_moves_iff b hwf m).mp hm
  obtain ⟨hchk, hcast⟩ := keeps_move_facts b b.to_move m hkeep
  refine ⟨?_, hcast⟩
  rw [← is_in_check_eq_spec_aux (move_piece b m) b.to_move
    (move_piece_to_move b m)]
  exact hchk

theorem generate_moves_board_eq (b : Board) (hwf : WfBoard b) :
    (generate_moves b).2 = b := by
  rw [generate_moves_eq b hwf]

theorem attack_map_board_eq (b : Board) :
    (calculate_opponent_attack_map b).2 = b := rfl

theorem search_empty_eq (b : Board) (hwf : WfBoard b) (d : Nat)
    (alpha beta : Int) (hempty : (generate_moves b).1 = []) :
    search (d + 1) b alpha beta =
      if is_in_check b b.to_move then -INF else 0 := by
  rw [search]
  rw [generate_moves_eq b hwf] at hempty ⊢
  simp only at hempty
  rw [if_pos hempty]

theorem unmake_empty_history (b : Board) (m : Move)
    (h : b.board_state_history = []) :
    unmake_move b m = (some "Already at oldest move", b) := by
  rw [unmake_move, h]

theorem tablebase_probe_none (b : Board) : tablebase_probe b = none := rfl

theorem find_best_move_empty (b : Board) (depth : Nat) :
    find_best_move [] b depth =
      Except.error "moves vector must have at least one move" := by
  rw [find_best_move, tablebase_probe_none, ite_self]
  rfl

theorem sort_moves_by_perm (key : Move → Int) (l : List Move) :
    (sort_moves_by key l).Perm l := by
  induction l with
  | nil => exact List.Perm.refl []
  | cons x t ih =>
    have hins : ∀ (m : Move) (l' : List Move),
        (insert_by_key key m l').Perm (m :: l') := by
      intro m l'
      induction l' with
      | nil => exact List.Perm.refl [m]
      | cons y t' ih' =>
        rw [insert_by_key]
        by_cases hle : key y ≤ key m
        · rw [if_pos hle]
          exact ((ih'.cons y).trans (List.Perm.swap m y t'))
        · rw [if_neg hle]
    rw [sort_moves_by, List.foldr_cons]
    exact (hins x _).trans ((ih).cons x)

theorem root_finish_ok (st : RootState) :
    ∃ p, root_finish st = Except.ok p := by
  cases h : st.early with
  | some r =>
    refine ⟨r, ?_⟩
    rw [root_finish, h]
  | none =>
    refine ⟨(st.best_move, st.best_eval), ?_⟩
    rw [root_finish, h]

theorem find_best_move_nonempty (moves : List Move) (b : Board) (depth : Nat)
    (hne : moves ≠ []) :
    ∃ p, find_best_move moves b depth = Except.ok p := by
  rw [find_best_move]
  cases htb : (if piece_count b ≤ 7 then tablebase_probe b else none) with
  | some r => exact ⟨r, rfl⟩
  | none =>
    cases hsor : sort_moves_by (guess_move_score b) moves with
    | nil =>
      exfalso
      have := (sort_moves_by_perm (guess_move_score b) moves).length_eq
      rw [hsor] at this
      exact hne (List.length_eq_zero.mp this.symm)
    | cons best0 rest =>
      simp only [hsor]
      exact root_finish_ok _


theorem king_step_squares (b : Board) (m : Move) :
    (king_move_rights_step b m).squares = b.squares := by
  simp [king_move_rights_step, apply_ite Board.squares]

theorem king_step_to_move (b : Board) (m : Move) :
    (king_move_rights_step b m).to_move = b.to_move := by
  simp [king_move_rights_step, apply_ite Board.to_move]

theorem rook_step_squares (b : Board) (m : Move) :
    (rook_move_rights_step b m).squares = b.squares := by
  simp [rook_move_rights_step, apply_ite Board.squares]

theorem rook_step_to_move (b : Board) (m : Move) :
    (rook_move_rights_step b m).to_move = b.to_move := by
  simp [rook_move_rights_step, apply_ite Board.to_move]

theorem king_step_formula (b : Board) (m : Move) :
    ((king_move_rights_step b m).board_state.white_kingside_castling_priviledge
        = true ↔
      (b.board_state.white_kingside_castling_priviledge = true ∧
        ¬(og b.squares m.starting_square = some Piece.King ∧
          b.to_move = Color.White))) ∧
    ((king_move_rights_step b m).board_state.white_queenside_castling_priviledge
        = true ↔
      (b.board_state.white_queenside_castling_priviledge = true ∧
        ¬(og b.squares m.starting_square = some Piece.King ∧
          b.to_move = Color.White))) ∧
    ((king_move_rights_step b m).board_state.black_kingside_castling_priviledge
        = true ↔
      (b.board_state.black_kingside_castling_priviledge = true ∧
        ¬(og b.squares m.starting_square = some Piece.King ∧
          b.to_move = Color.Black))) ∧
    ((king_move_rights_step b m).board_state.black_queenside_castling_priviledge
        = true ↔
      (b.board_state.black_queenside_castling_priviledge = true ∧
        ¬(og b.squares m.starting_square = some Piece.King ∧
          b.to_move = Color.Black))) := by
  have hcc : b.to_move = Color.White ∨ b.to_move = Color.Black := by
    cases h : b.to_move
    · exact Or.inl rfl
    · exact Or.inr rfl
  rw [king_move_rights_step]
  rcases hcc with hc | hc <;> simp only [hc] <;> split_ifs <;> simp_all

theorem rook_step_formula (b : Board) (m : Move) :
    ((rook_move_rights_step b m).board_state.white_kingside_castling_priviledge
        = true ↔
      (b.board_state.white_kingside_castling_priviledge = true ∧
        ¬(og b.squares m.starting_square = some Piece.Rook ∧
          b.to_move = Color.White ∧ m.starting_square = 7))) ∧
    ((rook_move_rights_step b m).board_state.white_queenside_castling_priviledge
        = true ↔
      (b.board_state.white_queenside_castling_priviledge = true ∧
        ¬(og b.squares m.starting_square = some Piece.Rook ∧
          b.to_move = Color.White ∧ m.starting_square = 0))) ∧
    ((rook_move_rights_step b m).board_state.black_kingside_castling_priviledge
        = true ↔
      (b.board_state.black_kingside_castling_priviledge = true ∧
        ¬(og b.squares m.starting_square = some Piece.Rook ∧
          b.to_move = Color.Black ∧ m.starting_square = 63))) ∧
    ((rook_move_rights_step b m).board_state.black_queenside_castling_priviledge
        = true ↔
      (b.board_state.black_queenside_castling_priviledge = true ∧
        ¬(og b.squares m.starting_square = some Piece.Rook ∧
          b.to_move = Color.Black ∧ m.starting_square = 56))) := by
  have hcc : b.to_move = Color.White ∨ b.to_move = Color.Black := by
    cases h : b.to_move
    · exact Or.inl rfl
    · exact Or.inr rfl
  rw [rook_move_rights_step]
  rcases hcc with hc | hc <;> simp only [hc] <;> split_ifs <;> simp_all

theorem cap_step_formula (b : Board) (m : Move) :
    ((rook_capture_rights_step b m).board_state.white_kingside_castling_priviledge
        = true ↔
      (b.board_state.white_kingside_castling_priviledge = true ∧
        ¬(og b.squares m.target_square = some Piece.Rook ∧
          b.to_move = Color.Black ∧ m.target_square = 7))) ∧
    ((rook_capture_rights_step b m).board_state.white_queenside_castling_priviledge
        = true ↔
      (b.board_state.white_queenside_castling_priviledge = true ∧
        ¬(og b.squares m.target_square = some Piece.Rook ∧
          b.to_move = Color.Black ∧ m.target_square = 0))) ∧
    ((rook_capture_rights_step b m).board_state.black_kingside_castling_priviledge
        = true ↔
      (b.board_state.black_kingside_castling_priviledge = true ∧
        ¬(og b.squares m.target_square = some Piece.Rook ∧
          b.to_move = Color.White ∧ m.target_square = 63))) ∧
    ((rook_capture_rights_step b m).board_state.black_queenside_castling_priviledge
        = true ↔
      (b.board_state.black_queenside_castling_priviledge = true ∧
        ¬(og b.squares m.target_square = some Piece.Rook ∧
          b.to_move = Color.White ∧ m.target_square = 56))) := by
  have hcc : b.to_move = Color.White ∨ b.to_move = Color.Black := by
    cases h : b.to_move
    · exact Or.inl rfl
    · exact Or.inr rfl
  rw [rook_capture_rights_step]
  rcases hcc with hc | hc <;> simp only [hc] <;> split_ifs <;> simp_all

set_option maxHeartbeats 1000000 in
/-- Exact characterization of the three castling-rights blocks of
`Board::move_piece`: a right survives exactly when it was held and none of
the clearing conditions fires; in particular the opponent-right clearing on
a rook home destination square fires only when a rook actually stands on
the destination. -/
theorem update_castling_rights_formula (b : Board) (m : Move) :
    ((update_castling_rights b m).board_state.white_kingside_castling_priviledge
        = true ↔
      (b.board_state.white_kingside_castling_priviledge = true ∧
        ¬(og b.squares m.starting_square = some Piece.King ∧
          b.to_move = Color.White) ∧
        ¬(og b.squares m.starting_square = some Piece.Rook ∧
          b.to_move = Color.White ∧ m.starting_square = 7) ∧
        ¬(og b.squares m.target_square = some Piece.Rook ∧
          b.to_move = Color.Black ∧ m.target_square = 7))) ∧
    ((update_castling_rights b m).board_state.white_queenside_castling_priviledge
        = true ↔
      (b.board_state.white_queenside_castling_priviledge = true ∧
        ¬(og b.squares m.starting_square = some Piece.King ∧
          b.to_move = Color.White) ∧
        ¬(og b.squares m.starting_square = some Piece.Rook ∧
          b.to_move = Color.White ∧ m.starting_square = 0) ∧
        ¬(og b.squares m.target_square = some Piece.Rook ∧
          b.to_move = Color.Black ∧ m.target_square = 0))) ∧
    ((update_castling_rights b m).board_state.black_kingside_castling_priviledge
        = true ↔
      (b.board_state.black_kingside_castling_priviledge = true ∧
        ¬(og b.squares m.starting_square = some Piece.King ∧
          b.to_move = Color.Black) ∧
        ¬(og b.squares m.starting_square = some Piece.Rook ∧
          b.to_move = Color.Black ∧ m.starting_square = 63) ∧
        ¬(og b.squares m.target_square = some Piece.Rook ∧
          b.to_move = Color.White ∧ m.target_square = 63))) ∧
    ((update_castling_rights b m).board_state.black_queenside_castling_priviledge
        = true ↔
      (b.board_state.black_queenside_castling_priviledge = true ∧
        ¬(og b.squares m.starting_square = some Piece.King ∧
          b.to_move = Color.Black) ∧
        ¬(og b.squares m.starting_square = some Piece.Rook ∧
          b.to_move = Color.Black ∧ m.starting_square = 56) ∧
        ¬(og b.squares m.target_square = some Piece.Rook ∧
          b.to_move = Color.White ∧ m.target_square = 56))) := by
  have e1s := king_step_squares b m
  have e1t := king_step_to_move b m
  have e2s := rook_step_squares (king_move_rights_step b m) m
  have e2t := rook_step_to_move (king_move_rights_step b m) m
  obtain ⟨k1, k2, k3, k4⟩ := king_step_formula b m
  obtain ⟨r1, r2, r3, r4⟩ := rook_step_formula (king_move_rights_step b m) m
  obtain ⟨c1, c2, c3, c4⟩ :=
    cap_step_formula (rook_move_rights_step (king_move_rights_step b m) m) m
  rw [e1s, e1t] at r1 r2 r3 r4
  rw [e2s, e2t, e1s, e1t] at c1 c2 c3 c4
  rw [update_castling_rights]
  refine ⟨?_, ?_, ?_, ?_⟩
  · rw [c1, r1, k1, and_assoc, and_assoc]
  · rw [c2, r2, k2, and_assoc, and_assoc]
  · rw [c3, r3, k3, and_assoc, and_assoc]
  · rw [c4, r4, k4, and_assoc, and_assoc]


theorem foldl_add_shift (f : Nat → Int) :
    ∀ (l : List Nat) (x : Int),
    l.foldl (fun a sq => a + f sq) x = x + l.foldl (fun a sq => a + f sq) 0 := by
  intro l
  induction l with
  | nil =>
    intro x
    simp
  | cons i t ih =>
    intro x
    rw [List.foldl_cons, List.foldl_cons, ih (x + f i), ih (0 + f i)]
    omega

theorem eval_fused (b : Board)
    (hsync : ∀ i, i < 64 → ((og b.squares i).isSome ↔ (og b.colors i).isSome)) :
    ∀ (l : List Nat), (∀ i ∈ l, i < 64) → ∀ (cw cb : Int) (pp : Int × Int),
    (l.foldl (count_material_step b Color.White) cw +
      (l.foldl (count_positional_step b) pp).1) -
    (l.foldl (count_material_step b Color.Black) cb +
      (l.foldl (count_positional_step b) pp).2) =
    (cw + pp.1) - (cb + pp.2) +
      l.foldl (fun a sq => a + net_contribution b sq) 0 := by
  intro l
  induction l with
  | nil =>
    intro _ cw cb pp
    simp
  | cons i t ih =>
    intro hl cw cb pp
    have hi : i < 64 := hl i (List.mem_cons_self i t)
    have hlt : ∀ j ∈ t, j < 64 := fun j hj => hl j (List.mem_cons_of_mem i hj)
    rw [List.foldl_cons, List.foldl_cons, List.foldl_cons, List.foldl_cons,
      ih hlt, foldl_add_shift (net_contribution b) t (0 + net_contribution b i)]
    have hdelta :
        (count_material_step b Color.White cw i +
          (count_positional_step b pp i).1) -
        (count_material_step b Color.Black cb i +
          (count_positional_step b pp i).2) =
        (cw + pp.1) - (cb + pp.2) + net_contribution b i := by
      cases hsq : og b.squares i with
      | none =>
        have hcol : og b.colors i = none := sync_colors_none hsync i hi hsq
        simp only [count_material_step, count_positional_step, net_contribution,
          hsq, hcol]
        omega
      | some p =>
        have hcs := hsync i hi
        rw [hsq] at hcs
        simp at hcs
        obtain ⟨c, hcol⟩ := Option.isSome_iff_exists.mp hcs
        cases c with
        | White =>
          simp only [count_material_step, count_positional_step,
            net_contribution, hsq, hcol, unwrap_piece]
          simp [Option.getD]
          omega
        | Black =>
          simp only [count_material_step, count_positional_step,
            net_contribution, hsq, hcol, unwrap_piece]
          simp [Option.getD]
          omega
    omega

/-- `evaluate` equals the per-square net sum taken with the tables the code
actually uses, from the side to move's perspective. -/
theorem evaluate_formula (b : Board) (hwf : WfBoard b) :
    evaluate b = if b.to_move = Color.White then net_sum b else -(net_sum b) := by
  obtain ⟨hsl, hcl, hsync, _⟩ := hwf
  have h := eval_fused b hsync (List.range 64)
    (fun i hi => List.mem_range.mp hi) 0 0 (0, 0)
  rw [evaluate, count_material, count_material, count_positional_evaluation,
    net_sum]
  simp only at h
  rw [h]
  simp

/-- The Black tables of `src/evaluate.rs` are the exact vertical mirrors of
the White tables for pawn, bishop, rook, queen and king. -/
theorem black_pst_mirror_except_knight :
    ∀ p, p ≠ Piece.Knight → ∀ s, s < 64 →
      black_pst p s = white_pst p (vertical_mirror s) := by
  intro p hp
  cases p
  case Knight => exact absurd rfl hp
  all_goals decide

/-- Both colours share `KNIGHT_SQUARE_TABLE` verbatim, and that table is
not vertically symmetric, so the Black knight lookup is not the mirror of
the White one. -/
theorem knight_table_shared_not_mirrored :
    (∀ s, s < 64 → black_pst Piece.Knight s = white_pst Piece.Knight s) ∧
    ¬(∀ s, s < 64 →
      black_pst Piece.Knight s = white_pst Piece.Knight (vertical_mirror s)) := by
  constructor
  · decide
  · intro h
    have := h 11 (by omega)
    revert this
    decide


theorem mem_insert_by_key (key : Move → Int) (m : Move) :
    ∀ (l : List Move) (y : Move),
      y ∈ insert_by_key key m l ↔ y = m ∨ y ∈ l := by
  intro l
  induction l with
  | nil =>
    intro y
    simp [insert_by_key]
  | cons x t ih =>
    intro y
    rw [insert_by_key]
    by_cases hle : key x ≤ key m
    · rw [if_pos hle]
      rw [List.mem_cons, ih y, List.mem_cons]
      tauto
    · rw [if_neg hle]
      rw [List.mem_cons]

theorem insert_by_key_sorted (key : Move → Int) (m : Move) :
    ∀ (l : List Move),
      List.Pairwise (fun a b => key a ≤ key b) l →
      List.Pairwise (fun a b => key a ≤ key b) (insert_by_key key m l) := by
  intro l
  induction l with
  | nil =>
    intro _
    simp [insert_by_key]
  | cons x t ih =>
    intro hp
    rw [List.pairwise_cons] at hp
    rw [insert_by_key]
    by_cases hle : key x ≤ key m
    · rw [if_pos hle]
      rw [List.pairwise_cons]
      refine ⟨?_, ih hp.2⟩
      intro y hy
      rcases (mem_insert_by_key key m t y).mp hy with hy | hy
      · rw [hy]
        exact hle
      · exact hp.1 y hy
    · rw [if_neg hle]
      have hml : key m ≤ key x := le_of_not_le hle
      rw [List.pairwise_cons]
      refine ⟨?_, List.pairwise_cons.mpr hp⟩
      intro y hy
      rcases List.mem_cons.mp hy with hy | hy
      · rw [hy]
        exact hml
      · exact le_trans hml (hp.1 y hy)

theorem sort_moves_by_sorted (key : Move → Int) (l : List Move) :
    List.Pairwise (fun a b => key a ≤ key b) (sort_moves_by key l) := by
  induction l with
  | nil => simp [sort_moves_by]
  | cons x t ih =>
    rw [sort_moves_by, List.foldr_cons]
    exact insert_by_key_sorted key x _ ih

theorem sorted_perm_unique (key : Move → Int) :
    ∀ (l₁ l₂ : List Move), l₁.Perm l₂ →
      List.Pairwise (fun a b => key a ≤ key b) l₁ →
      List.Pairwise (fun a b => key a ≤ key b) l₂ →
      (∀ a ∈ l₁, ∀ b ∈ l₁, key a = key b → a = b) → l₁ = l₂ := by
  intro l₁
  induction l₁ with
  | nil =>
    intro l₂ hperm _ _ _
    exact (hperm.symm.eq_nil).symm
  | cons x t ih =>
    intro l₂ hperm h₁ h₂ hinj
    cases l₂ with
    | nil => exact absurd hperm.eq_nil (by simp)
    | cons y t₂ =>
      have hy1 : y ∈ x :: t := hperm.symm.mem_iff.mp (List.mem_cons_self y t₂)
      have hx2 : x ∈ y :: t₂ := hperm.mem_iff.mp (List.mem_cons_self x t)
      have kxy : key x ≤ key y := by
        rcases List.mem_cons.mp hy1 with h | h
        · rw [h]
        · exact (List.pairwise_cons.mp h₁).1 y h
      have kyx : key y ≤ key x := by
        rcases List.mem_cons.mp hx2 with h | h
        · rw [h]
        · exact (List.pairwise_cons.mp h₂).1 x h
      have hxy : x = y :=
        hinj x (List.mem_cons_self x t) y hy1 (le_antisymm kxy kyx)
      subst hxy
      have hperm' : t.Perm t₂ := hperm.cons_inv
      have ht : t = t₂ := by
        refine ih t₂ hperm' (List.pairwise_cons.mp h₁).2
          (List.pairwise_cons.mp h₂).2 ?_
        intro a ha b hb
        exact hinj a (List.mem_cons_of_mem x ha) b (List.mem_cons_of_mem x hb)
      rw [ht]

/-- When the ordering key is injective on the move list, the sort result is
the same for every permutation of the input. -/
theorem sort_deterministic_of_injective (key : Move → Int)
    (l₁ l₂ : List Move) (hperm : l₁.Perm l₂)
    (hinj : ∀ a ∈ l₁, ∀ b ∈ l₁, key a = key b → a = b) :
    sort_moves_by key l₁ = sort_moves_by key l₂ := by
  refine sorted_perm_unique key _ _
    ((sort_moves_by_perm key l₁).trans
      (hperm.trans (sort_moves_by_perm key l₂).symm))
    (sort_moves_by_sorted key l₁) (sort_moves_by_sorted key l₂) ?_
  intro a ha b hb
  exact hinj a ((sort_moves_by_perm key l₁).mem_iff.mp ha)
    b ((sort_moves_by_perm key l₁).mem_iff.mp hb)


theorem countP_eq_one_exists_unique {α : Type} (p : α → Bool) :
    ∀ l : List α, l.countP p = 1 →
      ∃ a, a ∈ l ∧ p a = true ∧ ∀ b ∈ l, p b = true → b = a := by
  intro l
  induction l with
  | nil =>
    intro h
    rw [List.countP_nil] at h
    cases h
  | cons x t ih =>
    intro h
    rw [List.countP_cons] at h
    by_cases hx : p x = true
    · rw [if_pos hx] at h
      have ht : t.countP p = 0 := by omega
      refine ⟨x, List.mem_cons_self x t, hx, ?_⟩
      intro b hb hpb
      rcases List.mem_cons.mp hb with hb | hb
      · exact hb
      · exfalso
        have := List.countP_eq_zero.mp ht b hb
        exact this hpb
    · rw [if_neg hx] at h
      simp at h
      obtain ⟨a, ha, hpa, huniq⟩ := ih h
      refine ⟨a, List.mem_cons_of_mem x ha, hpa, ?_⟩
      intro b hb hpb
      rcases List.mem_cons.mp hb with hb | hb
      · exact absurd (hb ▸ hpb) hx
      · exact huniq b hb hpb

theorem wf_check_sound (b : Board) (h : wf_check b = true) : WfBoard b := by
  rw [wf_check] at h
  simp only [Bool.and_eq_true] at h
  obtain ⟨⟨⟨⟨⟨⟨⟨⟨⟨⟨h1, h2⟩, h3⟩, h4⟩, h5⟩, h6⟩, h7⟩, h8⟩, h9⟩, hep⟩, hpr⟩ := h
  have hall := List.all_eq_true.mp h3
  refine ⟨by simpa using h1, by simpa using h2, ?_, ?_, ?_, ?_, ?_, ?_, ?_, ?_, ?_⟩
  · intro i hi
    have := hall i (List.mem_range.mpr hi)
    simp at this
    rw [this]
  · obtain ⟨k, hk, hpk, hu⟩ :=
      countP_eq_one_exists_unique _ _ (by simpa using h4)
    simp only [Bool.and_eq_true, beq_iff_eq] at hpk
    refine ⟨k, List.mem_range.mp hk, hpk.1, hpk.2, ?_⟩
    intro j hj hsj hcj
    exact hu j (List.mem_range.mpr hj) (by simp [hsj, hcj])
  · obtain ⟨k, hk, hpk, hu⟩ :=
      countP_eq_one_exists_unique _ _ (by simpa using h5)
    simp only [Bool.and_eq_true, beq_iff_eq] at hpk
    refine ⟨k, List.mem_range.mp hk, hpk.1, hpk.2, ?_⟩
    intro j hj hsj hcj
    exact hu j (List.mem_range.mpr hj) (by simp [hsj, hcj])
  · intro hr
    rw [hr] at h6
    simp at h6
    exact ⟨h6.1.1.1, h6.1.1.2, h6.1.2, h6.2⟩
  · intro hr
    rw [hr] at h7
    simp at h7
    exact ⟨h7.1.1.1, h7.1.1.2, h7.1.2, h7.2⟩
  · intro hr
    rw [hr] at h8
    simp at h8
    exact ⟨h8.1.1.1, h8.1.1.2, h8.1.2, h8.2⟩
  · intro hr
    rw [hr] at h9
    simp at h9
    exact ⟨h9.1.1.1, h9.1.1.2, h9.1.2, h9.2⟩
  · rw [ep_check] at hep
    cases he : b.board_state.en_passant_square with
    | none => exact Or.inl rfl
    | some e =>
      rw [he] at hep
      simp only [Bool.and_eq_true, decide_eq_true_eq, beq_iff_eq] at hep
      obtain ⟨⟨⟨he64, hesq⟩, heco⟩, hrest⟩ := hep
      by_cases hb2 : b.to_move = Color.Black
      · rw [if_pos hb2] at hrest
        simp only [Bool.and_eq_true, decide_eq_true_eq, beq_iff_eq] at hrest
        refine Or.inr ⟨e, he64, rfl, hesq, heco, ?_, ?_⟩
        · intro _
          exact ⟨hrest.1.1.1, hrest.1.1.2, hrest.1.2, hrest.2⟩
        · intro hw
          exact absurd hw (by rw [hb2]; intro hx; cases hx)
      · rw [if_neg hb2] at hrest
        simp only [Bool.and_eq_true, decide_eq_true_eq, beq_iff_eq] at hrest
        refine Or.inr ⟨e, he64, rfl, hesq, heco, ?_, ?_⟩
        · intro hbl
          exact absurd hbl hb2
        · intro _
          exact ⟨hrest.1.1.1, hrest.1.1.2, hrest.1.2, hrest.2⟩
  · intro i hi
    have := List.all_eq_true.mp hpr i (List.mem_range.mpr hi)
    simp at this
    exact ⟨this.1, this.2⟩


theorem prelude_rights (b : Board) (m : Move) :
    ((move_piece_prelude b m).board_state.white_kingside_castling_priviledge =
      b.board_state.white_kingside_castling_priviledge) ∧
    ((move_piece_prelude b m).board_state.white_queenside_castling_priviledge =
      b.board_state.white_queenside_castling_priviledge) ∧
    ((move_piece_prelude b m).board_state.black_kingside_castling_priviledge =
      b.board_state.black_kingside_castling_priviledge) ∧
    ((move_piece_prelude b m).board_state.black_queenside_castling_priviledge =
      b.board_state.black_queenside_castling_priviledge) := by
  rw [move_piece_prelude]
  split_ifs <;> exact ⟨rfl, rfl, rfl, rfl⟩

theorem mpfe_rights (b : Board) (m : Move) (saved : Option Nat) :
    ((move_piece_flag_effects b m saved).board_state.white_kingside_castling_priviledge =
      b.board_state.white_kingside_castling_priviledge) ∧
    ((move_piece_flag_effects b m saved).board_state.white_queenside_castling_priviledge =
      b.board_state.white_queenside_castling_priviledge) ∧
    ((move_piece_flag_effects b m saved).board_state.black_kingside_castling_priviledge =
      b.board_state.black_kingside_castling_priviledge) ∧
    ((move_piece_flag_effects b m saved).board_state.black_queenside_castling_priviledge =
      b.board_state.black_queenside_castling_priviledge) := by
  cases hf : m.flag <;> simp [move_piece_flag_effects, hf]

theorem move_piece_decompose (b : Board) (m : Move)
    (hks : m.flag ≠ Flag.KingsideCastle) (hqs : m.flag ≠ Flag.QueensideCastle) :
    move_piece b m = flip_turn (place_piece_for_move (update_castling_rights
      (move_piece_flag_effects (move_piece_prelude b m) m
        b.board_state.en_passant_square) m) m) := by
  cases hf : m.flag <;>
    first
    | exact absurd hf hks
    | exact absurd hf hqs
    | simp [move_piece, hf]

/-! ### Concrete positions for the claim witnesses and counterexamples -/

/-! ### The claims -/

/-- Claim C1: for every position and every legal move in it, making the
move and then unmaking it restores the position exactly -- squares, colors,
side to move, full-move number, board state (castling rights, en passant,
halfmove clock) and the history stack -- and the unmake reports no error. -/
theorem claim_C1_roundtrip (b : Board) (m : Move) (hwf : WfBoard b)
    (hm : m ∈ (generate_moves b).1) :
    unmake_move (move_piece b m) m = (none, b) := by
  obtain ⟨hps, _⟩ := (mem_generate_moves_iff b hwf m).mp hm
  exact move_unmake_roundtrip b m hwf.1 hwf.2.1 (moveok_of_mem_pseudo b hwf m hps)

theorem claim_C1_roundtrip_witness :
    WfBoard b0 ∧ m0 ∈ (generate_moves b0).1 ∧
      unmake_move (move_piece b0 m0) m0 = (none, b0) :=
  ⟨wf_check_sound b0 (by decide), by decide,
   claim_C1_roundtrip b0 m0 (wf_check_sound b0 (by decide)) (by decide)⟩

/-- Claim C2: every move returned by `generate_moves` is legal: after
making it the moving side's king is not attacked by any piece of the
opposite colour (the specification attack predicate), and a castling move
additionally passes the attack-map test on the king's start, pass-through
and destination squares computed before the move
(`is_castling_path_clear`). -/
theorem claim_C2_legal_moves_safe (b : Board) (hwf : WfBoard b) (m : Move)
    (hm : m ∈ (generate_moves b).1) :
    spec_king_attacked (move_piece b m) b.to_move = false ∧
    ((m.flag = Flag.KingsideCastle ∨ m.flag = Flag.QueensideCastle) →
      is_castling_path_clear b m = true) :=
  legal_moves_safe b hwf m hm

theorem claim_C2_legal_moves_safe_witness :
    WfBoard b0 ∧ m0 ∈ (generate_moves b0).1 ∧
      (spec_king_attacked (move_piece b0 m0) b0.to_move = false ∧
      ((m0.flag = Flag.KingsideCastle ∨ m0.flag = Flag.QueensideCastle) →
        is_castling_path_clear b0 m0 = true)) :=
  ⟨wf_check_sound b0 (by decide), by decide,
   claim_C2_legal_moves_safe b0 (wf_check_sound b0 (by decide)) m0 (by decide)⟩

/-- Claim C3 (counterexample): in the well-formed position `c3_board`
(White king e4, Black pawn d5, White to move), the specification predicate
says White is in check -- a Black pawn attacks the king diagonally in its
forward direction -- but `is_in_check`, whose pawn offsets follow
`self.board.to_move` rather than the attacker colour, reports White not in
check.  The claim's "for every color c regardless of which side is
to move" is therefore false. -/
theorem claim_C3_counterexample :
    WfBoard c3_board ∧
    spec_king_attacked c3_board Color.White = true ∧
    is_in_check c3_board Color.White = false :=
  ⟨wf_check_sound c3_board (by decide), by decide, by decide⟩

/-- Claim C3 (amended): when the board's side to move is the opposite of
the colour being checked -- which is how both call sites in the source
invoke it (`generate_moves` tests the mover after making the move, and
`search` tests the side to move of the current position only through
those call patterns where the colours line up) -- `is_in_check` agrees
with the specification predicate, because the source's pawn-offset colour
`self.board.to_move` then coincides with the attacker colour. -/
theorem claim_C3_amended_agreement (b : Board) (c : Color)
    (h : b.to_move = c.opposite_color) :
    is_in_check b c = spec_king_attacked b c :=
  is_in_check_eq_spec_aux b c h

theorem claim_C3_amended_agreement_witness :
    c3_board.to_move = Color.Black.opposite_color ∧
    is_in_check c3_board Color.Black = spec_king_attacked c3_board Color.Black :=
  ⟨by decide, claim_C3_amended_agreement c3_board Color.Black (by decide)⟩

/-- Claim C4 (counterexample): `c4_move` is a non-castling move whose
destination is the rook home square h8 (63), and Black's kingside right is
set before the move; the claim says that right must be cleared, but the
code clears it only when a rook stands on the destination, and here the
captured piece is a knight, so the right survives. -/
theorem claim_C4_counterexample :
    c4_move.flag ≠ Flag.KingsideCastle ∧
    c4_move.flag ≠ Flag.QueensideCastle ∧
    c4_move.target_square = 63 ∧
    c4_board.board_state.black_kingside_castling_priviledge = true ∧
    (move_piece c4_board c4_move).board_state.black_kingside_castling_priviledge
      = true :=
  ⟨by decide, by decide, rfl, rfl, by decide⟩

/-- Claim C4 (amended): for every non-castling, non-en-passant move applied
by `move_piece`, each castling right survives exactly when it was held and
none of the following fires: the moving piece is a king of the right's
colour; the moving piece is a rook of the right's colour moving from that
right's rook home square; or a rook stands on the destination square and
that square is the opposing right's rook home square.  (The en-passant
exclusion only keeps the stated conditions readable on the original board;
the rights logic itself is the same.) -/
theorem claim_C4_amended_rights (b : Board) (m : Move)
    (hks : m.flag ≠ Flag.KingsideCastle) (hqs : m.flag ≠ Flag.QueensideCastle)
    (hep : m.flag ≠ Flag.EnPassantCapture) :
    ((move_piece b m).board_state.white_kingside_castling_priviledge = true ↔
      (b.board_state.white_kingside_castling_priviledge = true ∧
        ¬(og b.squares m.starting_square = some Piece.King ∧
          b.to_move = Color.White) ∧
        ¬(og b.squares m.starting_square = some Piece.Rook ∧
          b.to_move = Color.White ∧ m.starting_square = 7) ∧
        ¬(og b.squares m.target_square = some Piece.Rook ∧
          b.to_move = Color.Black ∧ m.target_square = 7))) ∧
    ((move_piece b m).board_state.white_queenside_castling_priviledge = true ↔
      (b.board_state.white_queenside_castling_priviledge = true ∧
        ¬(og b.squares m.starting_square = some Piece.King ∧
          b.to_move = Color.White) ∧
        ¬(og b.squares m.starting_square = some Piece.Rook ∧
          b.to_move = Color.White ∧ m.starting_square = 0) ∧
        ¬(og b.squares m.target_square = some Piece.Rook ∧
          b.to_move = Color.Black ∧ m.target_square = 0))) ∧
    ((move_piece b m).board_state.black_kingside_castling_priviledge = true ↔
      (b.board_state.black_kingside_castling_priviledge = true ∧
        ¬(og b.squares m.starting_square = some Piece.King ∧
          b.to_move = Color.Black) ∧
        ¬(og b.squares m.starting_square = some Piece.Rook ∧
          b.to_move = Color.Black ∧ m.starting_square = 63) ∧
        ¬(og b.squares m.target_square = some Piece.Rook ∧
          b.to_move = Color.White ∧ m.target_square = 63))) ∧
    ((move_piece b m).board_state.black_queenside_castling_priviledge = true ↔
      (b.board_state.black_queenside_castling_priviledge = true ∧
        ¬(og b.squares m.starting_square = some Piece.King ∧
          b.to_move = Color.Black) ∧
        ¬(og b.squares m.starting_square = some Piece.Rook ∧
          b.to_move = Color.Black ∧ m.starting_square = 56) ∧
        ¬(og b.squares m.target_square = some Piece.Rook ∧
          b.to_move = Color.White ∧ m.target_square = 56))) := by
  have hbs : (move_piece b m).board_state =
      (update_castling_rights (move_piece_flag_effects (move_piece_prelude b m)
        m b.board_state.en_passant_square) m).board_state := by
    rw [move_piece_decompose b m hks hqs, flip_board_state, place_board_state]
  obtain ⟨f1, f2, f3, f4⟩ := update_castling_rights_formula
    (move_piece_flag_effects (move_piece_prelude b m) m
      b.board_state.en_passant_square) m
  have hsq : (move_piece_flag_effects (move_piece_prelude b m) m
      b.board_state.en_passant_square).squares = b.squares := by
    rw [mpfe_squares _ _ _ hep, prelude_squares]
  have htm : (move_piece_flag_effects (move_piece_prelude b m) m
      b.board_state.en_passant_square).to_move = b.to_move := by
    rw [mpfe_to_move, prelude_to_move]
  obtain ⟨g1, g2, g3, g4⟩ := mpfe_rights (move_piece_prelude b m) m
    b.board_state.en_passant_square
  obtain ⟨p1, p2, p3, p4⟩ := prelude_rights b m
  rw [hsq, htm, g1, p1] at f1
  rw [hsq, htm, g2, p2] at f2
  rw [hsq, htm, g3, p3] at f3
  rw [hsq, htm, g4, p4] at f4
  exact ⟨hbs ▸ f1, hbs ▸ f2, hbs ▸ f3, hbs ▸ f4⟩

theorem claim_C4_amended_rights_witness :
    m0.flag ≠ Flag.KingsideCastle ∧ m0.flag ≠ Flag.QueensideCastle ∧
    m0.flag ≠ Flag.EnPassantCapture ∧
    ((move_piece b0 m0).board_state.white_kingside_castling_priviledge = true ↔
      (b0.board_state.white_kingside_castling_priviledge = true ∧
        ¬(og b0.squares m0.starting_square = some Piece.King ∧
          b0.to_move = Color.White) ∧
        ¬(og b0.squares m0.starting_square = some Piece.Rook ∧
          b0.to_move = Color.White ∧ m0.starting_square = 7) ∧
        ¬(og b0.squares m0.target_square = some Piece.Rook ∧
          b0.to_move = Color.Black ∧ m0.target_square = 7))) :=
  ⟨by decide, by decide, by decide,
   (claim_C4_amended_rights b0 m0 (by decide) (by decide) (by decide)).1⟩

/-- Claim C5 (counterexample): `c5_board` is a well-formed position inside
the claim's hypotheses -- the legal move list is empty and the side to move
is in check (a pawn checkmate, per the specification attack predicate) --
yet the search scores it `0` (stalemate) instead of the claimed `-INF`,
because the mate test `is_in_check(to_move)` runs at the polarity where the
pawn-capture offsets follow the side to move rather than the attacker and
so misses the mating pawn. -/
theorem claim_C5_counterexample :
    WfBoard c5_board ∧
    (generate_moves c5_board).1 = [] ∧
    spec_king_attacked c5_board c5_board.to_move = true ∧
    is_in_check c5_board c5_board.to_move = false ∧
    search 1 c5_board (-INF) INF = 0 :=
  ⟨wf_check_sound c5_board (by decide), by decide, by decide, by decide,
   by decide⟩

/-- Claim C5 (amended): at any depth of at least one, when the legal move
list of the position is empty the search scores the position `-INF` if
`is_in_check` reports the side to move in check and `0` otherwise, with
`INF` the sentinel `i32::MAX`; `is_in_check` here runs with the pawn
capture offsets selected by the side to move, so a checkmate delivered by
a pawn is misreported as not-in-check and scored `0` as a stalemate
(`claim_C5_counterexample`). -/
theorem claim_C5_mate_stalemate (b : Board) (hwf : WfBoard b) (d : Nat)
    (alpha beta : Int) (hempty : (generate_moves b).1 = []) :
    search (d + 1) b alpha beta =
      if is_in_check b b.to_move then -INF else 0 :=
  search_empty_eq b hwf d alpha beta hempty

theorem claim_C5_mate_stalemate_witness :
    WfBoard stale_board ∧ (generate_moves stale_board).1 = [] ∧
    search 1 stale_board (-INF) INF =
      (if is_in_check stale_board stale_board.to_move then -INF else 0) :=
  ⟨wf_check_sound stale_board (by decide), by decide,
   claim_C5_mate_stalemate stale_board (wf_check_sound stale_board (by decide))
     0 (-INF) INF (by decide)⟩

/-- Claim C6 (counterexample): the evaluator does not use the exact
vertical mirror of the White table for Black's knights: both colours share
`KNIGHT_SQUARE_TABLE`, which is not vertically symmetric, so the Black
knight lookup at square 11 differs from the mirrored White lookup, and on
the concrete position `c6_board` the code's evaluation differs from the
specification formula. -/
theorem claim_C6_counterexample :
    black_pst Piece.Knight 11 ≠ white_pst Piece.Knight (vertical_mirror 11) ∧
    evaluate c6_board ≠ spec_evaluate c6_board :=
  ⟨by decide, by decide⟩

/-- Claim C6 (amended): on a well-formed position, `evaluate` returns the
sum over all pieces of material plus piece-square value for White minus the
same for Black, negated when Black is to move, where the Black tables are
the exact vertical mirrors of the White tables for every piece kind except
the knight, whose table both colours share unmirrored. -/
theorem claim_C6_amended_evaluate (b : Board) (hwf : WfBoard b) :
    (evaluate b = if b.to_move = Color.White then net_sum b else -(net_sum b)) ∧
    (∀ p, p ≠ Piece.Knight → ∀ s, s < 64 →
      black_pst p s = white_pst p (vertical_mirror s)) ∧
    (∀ s, s < 64 → black_pst Piece.Knight s = white_pst Piece.Knight s) :=
  ⟨evaluate_formula b hwf, black_pst_mirror_except_knight,
   knight_table_shared_not_mirrored.1⟩

theorem claim_C6_amended_evaluate_witness :
    WfBoard c6_board ∧
    evaluate c6_board =
      (if c6_board.to_move = Color.White then net_sum c6_board
        else -(net_sum c6_board)) :=
  ⟨wf_check_sound c6_board (by decide),
   (claim_C6_amended_evaluate c6_board (wf_check_sound c6_board (by decide))).1⟩

/-- Claim C7 (counterexample): sorting two permutations of the same
legal-move list of `c7_board` by the ordering heuristic yields different
sequences -- several legal moves tie on the score, and tied moves keep
their input order -- so the claimed permutation-independence is false. -/
theorem claim_C7_counterexample :
    ((generate_moves c7_board).1.reverse).Perm (generate_moves c7_board).1 ∧
    sort_moves_by (guess_move_score c7_board)
        ((generate_moves c7_board).1.reverse) ≠
      sort_moves_by (guess_move_score c7_board) (generate_moves c7_board).1 :=
  ⟨List.reverse_perm _, by decide⟩

/-- Claim C7 (amended): the ordering heuristic is a pure function of
position and move; sorting by it always yields a sequence that is a
permutation of the input and is sorted by the score; and the output is
the same for any two permutations of the input whenever the score is
injective on the list (no ties).  With ties, different input permutations
may sort to different sequences. -/
theorem claim_C7_amended_ordering (b : Board) (l₁ l₂ : List Move)
    (hperm : l₁.Perm l₂)
    (hinj : ∀ x ∈ l₁, ∀ y ∈ l₁,
      guess_move_score b x = guess_move_score b y → x = y) :
    (sort_moves_by (guess_move_score b) l₁).Perm l₁ ∧
    List.Pairwise (fun x y => guess_move_score b x ≤ guess_move_score b y)
      (sort_moves_by (guess_move_score b) l₁) ∧
    sort_moves_by (guess_move_score b) l₁ =
      sort_moves_by (guess_move_score b) l₂ :=
  ⟨sort_moves_by_perm _ l₁, sort_moves_by_sorted _ l₁,
   sort_deterministic_of_injective _ l₁ l₂ hperm hinj⟩

theorem claim_C7_amended_ordering_witness :
    ([c7_m1, c7_m2].Perm [c7_m2, c7_m1]) ∧
    (∀ x ∈ [c7_m1, c7_m2], ∀ y ∈ [c7_m1, c7_m2],
      guess_move_score c7_board x = guess_move_score c7_board y → x = y) ∧
    sort_moves_by (guess_move_score c7_board) [c7_m1, c7_m2] =
      sort_moves_by (guess_move_score c7_board) [c7_m2, c7_m1] :=
  ⟨List.Perm.swap c7_m2 c7_m1 [], by decide,
   (claim_C7_amended_ordering c7_board [c7_m1, c7_m2] [c7_m2, c7_m1]
     (List.Perm.swap c7_m2 c7_m1 []) (by decide)).2.2⟩

/-- Claim C8: `unmake_move` errors exactly when the history stack is empty,
given that the move unmade is the most recently made one: with an empty
history it returns the error atomically, leaving every field of the board
unchanged; and immediately after `move_piece` (which pushes onto the
history) it reports no error. -/
theorem claim_C8_unmake_error (b : Board) (m : Move)
    (hs : b.squares.length = 64) (hc : b.colors.length = 64)
    (ok : MoveOk b m) :
    (∀ x : Board, x.board_state_history = [] →
      unmake_move x m = (some "Already at oldest move", x)) ∧
    (unmake_move (move_piece b m) m).1 = none := by
  refine ⟨fun x h => unmake_empty_history x m h, ?_⟩
  rw [move_unmake_roundtrip b m hs hc ok]

theorem claim_C8_unmake_error_witness :
    b0.squares.length = 64 ∧ b0.colors.length = 64 ∧
    (∀ x : Board, x.board_state_history = [] →
      unmake_move x m0 = (some "Already at oldest move", x)) ∧
    (unmake_move (move_piece b0 m0) m0).1 = none := by
  refine ⟨by decide, by decide, ?_, ?_⟩
  · exact (claim_C8_unmake_error b0 m0 (by decide) (by decide)
      (moveok_of_mem_pseudo b0 (wf_check_sound b0 (by decide)) m0 (by decide))).1
  · exact (claim_C8_unmake_error b0 m0 (by decide) (by decide)
      (moveok_of_mem_pseudo b0 (wf_check_sound b0 (by decide)) m0 (by decide))).2

/-- Claim C9: the move-generation queries are observationally pure on
well-formed positions: `generate_moves` returns the board exactly as it was
at entry (it unmakes every move it makes), and
`calculate_opponent_attack_map` restores the temporarily flipped side to
move (`is_in_check` only reads the board and is embedded as a pure
function). -/
theorem claim_C9_queries_pure (b : Board) (hwf : WfBoard b) :
    (generate_moves b).2 = b ∧ (calculate_opponent_attack_map b).2 = b :=
  ⟨generate_moves_board_eq b hwf, attack_map_board_eq b⟩

theorem claim_C9_queries_pure_witness :
    WfBoard b0 ∧
    ((generate_moves b0).2 = b0 ∧ (calculate_opponent_attack_map b0).2 = b0) :=
  ⟨wf_check_sound b0 (by decide),
   claim_C9_queries_pure b0 (wf_check_sound b0 (by decide))⟩

/-- Claim C10: `find_best_move` requires a non-empty root move list: with
at least one move it returns a (move, score) pair, and with an empty list
it fails with "moves vector must have at least one move" (the source's
`.expect` panic, modelled as the error value carrying the panic message)
instead of a regular result. -/
theorem claim_C10_root_requires_moves (moves : List Move) (b : Board)
    (depth : Nat) :
    (moves = [] → find_best_move moves b depth =
      Except.error "moves vector must have at least one move") ∧
    (moves ≠ [] → ∃ p, find_best_move moves b depth = Except.ok p) := by
  constructor
  · intro h
    subst h
    exact find_best_move_empty b depth
  · intro h
    exact find_best_move_nonempty moves b depth h

theorem claim_C10_root_requires_moves_witness :
    (find_best_move [] b0 1 =
      Except.error "moves vector must have at least one move") ∧
    (∃ p, find_best_move [m0] b0 1 = Except.ok p) :=
  ⟨(claim_C10_root_requires_moves [] b0 1).1 rfl,
   (claim_C10_root_requires_moves [m0] b0 1).2 (by simp)⟩

end Talia
